import Mathlib

/-!
# Namespace/resource store with a FHIR adapter

A shallow embedding of the server side of the repository:

* `src/server/models/ApiResource.js` and `src/server/models/ApiNamespace.js`
  (the property-bag models and their wire conversion),
* `src/server/validators/fhirValidator.js` (the structural validator),
* `src/server/routes/fhir.js` (the create and update handlers),
* `src/server/middleware/errorHandler.js` (the error classes).

JavaScript objects are association lists in insertion order; asynchronous
model methods become functions that take the store and return the new store.
-/

set_option autoImplicit false

namespace BiohackerEhr

/-! ## JavaScript values -/

/-- The values a parsed JSON body or a `jsonb` column can hold, plus
`undefined`, the result of reading a property that is not there.  Numbers are
integers: no code path of the embedded files does arithmetic on a number, the
only observations are its type tag, its truthiness and its decimal text
(fractions, and literals that overflow to `Infinity`, are left out). -/
inductive JsVal where
  | undefined
  | null
  | bool (b : Bool)
  | num (n : Int)
  | str (s : String)
  | arr (xs : List JsVal)
  | obj (fields : List (String × JsVal))

/-- A plain object: its own enumerable properties in insertion order. -/
abbrev Obj := List (String × JsVal)

/-- The own property `k` of `o`, when there is one. -/
def lookupOwn (o : Obj) (k : String) : Option JsVal :=
  match o with
  | [] => none
  | (k', v) :: rest => if k' = k then some v else lookupOwn rest k

/-- Whether `o` has an own property `k`. -/
def hasOwn (o : Obj) (k : String) : Bool :=
  (lookupOwn o k).isSome

/-- The property read `o.k` on a plain object whose prototype chain holds no
`k`: the own value, else `undefined`. -/
def getProp (o : Obj) (k : String) : JsVal :=
  (lookupOwn o k).getD JsVal.undefined

/-- CreateDataProperty: `k` keeps its place when it is already there and is
appended otherwise. -/
def defineProp (o : Obj) (k : String) (v : JsVal) : Obj :=
  match o with
  | [] => [(k, v)]
  | (k', v') :: rest => if k' = k then (k, v) :: rest else (k', v') :: defineProp rest k v

/-- The spread `...source` inside an object literal whose properties so far
are `target`: every own property of `source` is defined on it, in order. -/
def spreadInto (target : Obj) (source : Obj) : Obj :=
  match source with
  | [] => target
  | (k, v) :: rest => spreadInto (defineProp target k v) rest

/-- The rest element of `const { k1, k2, ...rest } = o`: the own properties
whose key is not one of the keys taken out. -/
def restWithout (excluded : List String) (o : Obj) : Obj :=
  o.filter (fun kv => !decide (kv.1 ∈ excluded))

/-- The entries `"0"`, `"1"`, ... of an array, counted from `i`. -/
def indexEntries (i : Nat) (xs : List JsVal) : Obj :=
  match xs with
  | [] => []
  | x :: rest => (toString i, x) :: indexEntries (i + 1) rest

/-- The own enumerable properties that a spread or a rest pattern copies from
a value: the fields of an object, the indices of an array, one index per
character of a string, nothing for the other primitives. -/
def ownEnumerable (v : JsVal) : Obj :=
  match v with
  | JsVal.obj o => o
  | JsVal.arr xs => indexEntries 0 xs
  | JsVal.str s => indexEntries 0 (s.toList.map (fun c => JsVal.str (String.singleton c)))
  | _ => []

/-- The classes of the values that the embedded code throws or passes to
`next`: the four classes of `errorHandler.js`, the built-in `Error` and
`TypeError`, and the error object that the storage client hands back. -/
inductive ErrorClass where
  | Error
  | TypeError
  | ApiError
  | NotFoundError
  | ValidationError
  | UnauthorizedError
  | PostgrestError
deriving DecidableEq, Repr

/-- A thrown value with the fields `errorHandler` reads: `message`,
`statusCode` and `code`, the last two absent on errors that are not an
`ApiError`. -/
structure Thrown where
  cls : ErrorClass
  message : String
  statusCode : Option Nat
  code : Option String
deriving DecidableEq, Repr

/-- The read `v.k` for a named key `k` (not an index, not `length`, not a
member of a prototype): objects give their own property, arrays and
primitives give `undefined`, and reading from `null` or `undefined` throws a
`TypeError`. -/
def readProp (v : JsVal) (k : String) : Except Thrown JsVal :=
  match v with
  | JsVal.obj o => Except.ok (getProp o k)
  | JsVal.undefined =>
    Except.error
      { cls := ErrorClass.TypeError, statusCode := none, code := none,
        message := "Cannot read properties of undefined (reading '" ++ k ++ "')" }
  | JsVal.null =>
    Except.error
      { cls := ErrorClass.TypeError, statusCode := none, code := none,
        message := "Cannot read properties of null (reading '" ++ k ++ "')" }
  | _ => Except.ok JsVal.undefined

/-- JavaScript truthiness (`!v` is its negation). -/
def truthy (v : JsVal) : Bool :=
  match v with
  | JsVal.undefined => false
  | JsVal.null => false
  | JsVal.bool b => b
  | JsVal.num n => n != 0
  | JsVal.str s => s != ""
  | JsVal.arr _ => true
  | JsVal.obj _ => true

/-- The comparison `v === s` against a string `s`. -/
def strictEqStr (v : JsVal) (s : String) : Bool :=
  match v with
  | JsVal.str t => t == s
  | _ => false

mutual
/-- ToString, as applied by template literals and by property keys. -/
def JsVal.toJsString : JsVal → String
  | JsVal.undefined => "undefined"
  | JsVal.null => "null"
  | JsVal.bool b => if b then "true" else "false"
  | JsVal.num n => toString n
  | JsVal.str s => s
  | JsVal.arr xs => joinElems xs
  | JsVal.obj _ => "[object Object]"
termination_by structural v => v
/-- The text of `Array.prototype.join(',')`: `null` and `undefined` elements
are empty. -/
def joinElems : List JsVal → String
  | [] => ""
  | x :: rest =>
    (match x with
     | JsVal.undefined => ""
     | JsVal.null => ""
     | y => y.toJsString) ++
    (match rest with
     | [] => ""
     | _ :: _ => "," ++ joinElems rest)
termination_by structural xs => xs
end

/-! ## The schema engine

`fhirValidator.js` hands its schema descriptors to the Ajv library, built with
`allErrors: true`.  The library is not part of the repository sources; the
definitions of this section model it for the keywords that the descriptors
use. -/

/-- The `type` tokens used by the schema descriptors. -/
inductive JType where
  | string
  | number
  | boolean
  | object
  | array
deriving DecidableEq, Repr

/-- The word of a type token, as it appears in a descriptor and in the
message of a type error. -/
def JType.word : JType → String
  | JType.string => "string"
  | JType.number => "number"
  | JType.boolean => "boolean"
  | JType.object => "object"
  | JType.array => "array"

/-- Modelled from the spec: the `type` keyword of the schema engine (the engine
is the Ajv library, absent from the sources).  A field matches its declared
type token; `object` excludes `null` and arrays. -/
def hasType (t : JType) (v : JsVal) : Bool :=
  match t, v with
  | JType.string, JsVal.str _ => true
  | JType.number, JsVal.num _ => true
  | JType.boolean, JsVal.bool _ => true
  | JType.object, JsVal.obj _ => true
  | JType.array, JsVal.arr _ => true
  | _, _ => false

/-- Regular expressions, as far as the `pattern` keywords of the descriptors
need them. -/
inductive RegEx where
  | none
  | eps
  | range (lo hi : Char)
  | seq (a b : RegEx)
  | alt (a b : RegEx)

/-- Whether the expression matches the empty text. -/
def RegEx.nullable : RegEx → Bool
  | RegEx.none => false
  | RegEx.eps => true
  | RegEx.range _ _ => false
  | RegEx.seq a b => a.nullable && b.nullable
  | RegEx.alt a b => a.nullable || b.nullable

/-- The derivative: what remains to be matched after reading `c`. -/
def RegEx.deriv (c : Char) : RegEx → RegEx
  | RegEx.none => RegEx.none
  | RegEx.eps => RegEx.none
  | RegEx.range lo hi => if lo ≤ c ∧ c ≤ hi then RegEx.eps else RegEx.none
  | RegEx.seq a b =>
    if a.nullable then RegEx.alt (RegEx.seq (a.deriv c) b) (b.deriv c)
    else RegEx.seq (a.deriv c) b
  | RegEx.alt a b => RegEx.alt (a.deriv c) (b.deriv c)

/-- Whether the whole text is matched. -/
def RegEx.fullMatch (r : RegEx) : List Char → Bool
  | [] => r.nullable
  | c :: cs => (r.deriv c).fullMatch cs

/-- The character `c`. -/
def RegEx.char (c : Char) : RegEx :=
  RegEx.range c c

/-- The optional `a?`. -/
def RegEx.opt (a : RegEx) : RegEx :=
  RegEx.alt a RegEx.eps

/-- The class `[0-9]`. -/
def RegEx.digit : RegEx :=
  RegEx.range '0' '9'

/-- A `pattern` keyword: the text written in the descriptor, and the
expression between its `^` and `$`. -/
structure Pattern where
  source : String
  body : RegEx

/-- Modelled from the spec: the `pattern` keyword of the schema engine (absent
from the sources) tests the regex of the descriptor on the field; the patterns
in use are anchored at both ends, so the test is a match of the whole text. -/
def Pattern.test (p : Pattern) (s : String) : Bool :=
  p.body.fullMatch s.toList

/-- A schema descriptor: the keywords `type`, `const`, `enum`, `pattern`,
`required`, `properties` and `items`.  An absent `required` or `properties`
is the empty one; every `const` and `enum` in the descriptors holds strings. -/
inductive Schema where
  | mk (type : Option JType) (const : Option String) (enum : Option (List String))
      (pattern : Option Pattern) (required : List String)
      (properties : List (String × Schema)) (items : Option Schema)

/-- Descriptor `{ type: t }`. -/
def Schema.ofType (t : JType) : Schema :=
  Schema.mk (some t) none none none [] [] none

/-- Descriptor `{ type: 'string' }`. -/
def Schema.string : Schema :=
  Schema.ofType JType.string

/-- Descriptor `{ type: 'string', enum: allowed }`. -/
def Schema.stringEnum (allowed : List String) : Schema :=
  Schema.mk (some JType.string) none (some allowed) none [] [] none

/-- Descriptor `{ type: 'string', pattern: p }`. -/
def Schema.stringPattern (p : Pattern) : Schema :=
  Schema.mk (some JType.string) none none (some p) [] [] none

/-- Descriptor `{ const: c }`. -/
def Schema.constant (c : String) : Schema :=
  Schema.mk none (some c) none none [] [] none

/-- Descriptor `{ type: 'object', required: required, properties: properties }`. -/
def Schema.object (required : List String) (properties : List (String × Schema)) : Schema :=
  Schema.mk (some JType.object) none none none required properties none

/-- Descriptor `{ type: 'array', items: items }`. -/
def Schema.arrayOf (items : Schema) : Schema :=
  Schema.mk (some JType.array) none none none [] [] (some items)

/-- One entry of `validate.errors`. -/
structure ErrorObject where
  instancePath : String
  keyword : String
  message : String
deriving DecidableEq, Repr

/-- The value of `data.k` when it is not `undefined`. -/
def definedProp (o : Obj) (k : String) : Option JsVal :=
  match lookupOwn o k with
  | some JsVal.undefined => none
  | r => r

/-- Modelled from the spec: the `required` keyword of the schema engine
(absent from the sources), reporting every missing field, each at the path of
the object that lacks it. -/
def requiredErrors (required : List String) (path : String) (o : Obj) : List ErrorObject :=
  match required with
  | [] => []
  | k :: rest =>
    (match definedProp o k with
     | some _ => []
     | none =>
       [{ instancePath := path, keyword := "required",
          message := "must have required property '" ++ k ++ "'" }]) ++
    requiredErrors rest path o

/-- The errors of the items of an array, each checked by `check` at the path
of its index, counted from `i`. -/
def itemErrors (check : String → JsVal → List ErrorObject) (path : String) :
    Nat → List JsVal → List ErrorObject
  | _, [] => []
  | i, x :: xs => check (path ++ "/" ++ toString i) x ++ itemErrors check path (i + 1) xs

mutual
/-- Modelled from the spec: the schema engine (the Ajv library built with
`allErrors: true`, absent from the sources).  Every violated constraint of the
descriptor is reported with the path of the value it is about: the type, the
constant, the enumeration, then the pattern of a string, the items of an
array, the required fields and the declared fields of an object.  Nothing
stops at the first error. -/
def ajvErrors : Schema → String → JsVal → List ErrorObject
  | Schema.mk type const enum pattern required properties items, path, data =>
    (match type with
     | some t =>
       if hasType t data then []
       else [{ instancePath := path, keyword := "type", message := "must be " ++ t.word }]
     | none => []) ++
    (match const with
     | some c =>
       if strictEqStr data c then []
       else [{ instancePath := path, keyword := "const", message := "must be equal to constant" }]
     | none => []) ++
    (match enum with
     | some allowed =>
       if allowed.any (fun a => strictEqStr data a) then []
       else [{ instancePath := path, keyword := "enum",
               message := "must be equal to one of the allowed values" }]
     | none => []) ++
    (match data with
     | JsVal.str s =>
       (match pattern with
        | some p =>
          if p.test s then []
          else [{ instancePath := path, keyword := "pattern",
                  message := "must match pattern \"" ++ p.source ++ "\"" }]
        | none => [])
     | JsVal.arr xs => ajvItemsErrors items path xs
     | JsVal.obj o => requiredErrors required path o ++ ajvPropertiesErrors properties path o
     | _ => [])
termination_by structural s => s
/-- Modelled from the spec: the `properties` keyword of the schema engine
(absent from the sources): every declared field that the object holds is
checked against its own descriptor, at the path of the field. -/
def ajvPropertiesErrors : List (String × Schema) → String → Obj → List ErrorObject
  | [], _, _ => []
  | (k, s) :: rest, path, o =>
    (match definedProp o k with
     | some w => ajvErrors s (path ++ "/" ++ k) w
     | none => []) ++
    ajvPropertiesErrors rest path o
termination_by structural ps => ps
/-- Modelled from the spec: the `items` keyword of the schema engine (absent
from the sources): every element of the array is checked against the item
descriptor, at the path of its index. -/
def ajvItemsErrors : Option Schema → String → List JsVal → List ErrorObject
  | none, _, _ => []
  | some s, path, xs => itemErrors (ajvErrors s) path 0 xs
termination_by structural i => i
end

/-! ## `fhirValidator.js` -/

/-- The `pattern` of `Patient.birthDate`: four digits, then optionally a dash
and two digits, then optionally a dash and two digits. -/
def birthDatePattern : Pattern :=
  { source := "^[0-9]\x7b4\x7d(-[0-9]\x7b2\x7d(-[0-9]\x7b2\x7d)?)?$",
    body :=
      RegEx.seq RegEx.digit (RegEx.seq RegEx.digit (RegEx.seq RegEx.digit (RegEx.seq RegEx.digit
        (RegEx.opt
          (RegEx.seq (RegEx.char '-') (RegEx.seq RegEx.digit (RegEx.seq RegEx.digit
            (RegEx.opt
              (RegEx.seq (RegEx.char '-') (RegEx.seq RegEx.digit RegEx.digit)))))))))) }

/-- Descriptor `fhirSchemas.Patient`. -/
def patientSchema : Schema :=
  Schema.object ["resourceType"]
    [ ("resourceType", Schema.constant "Patient"),
      ("identifier",
        Schema.arrayOf
          (Schema.object [] [("system", Schema.string), ("value", Schema.string)])),
      ("name",
        Schema.arrayOf
          (Schema.object []
            [ ("use",
                Schema.stringEnum
                  ["usual", "official", "temp", "nickname", "anonymous", "old", "maiden"]),
              ("family", Schema.string),
              ("given", Schema.arrayOf Schema.string) ])),
      ("gender", Schema.stringEnum ["male", "female", "other", "unknown"]),
      ("birthDate", Schema.stringPattern birthDatePattern),
      ("telecom",
        Schema.arrayOf
          (Schema.object []
            [ ("system",
                Schema.stringEnum ["phone", "fax", "email", "pager", "url", "sms", "other"]),
              ("value", Schema.string),
              ("use", Schema.stringEnum ["home", "work", "temp", "old", "mobile"]) ])),
      ("address",
        Schema.arrayOf
          (Schema.object []
            [ ("use", Schema.stringEnum ["home", "work", "temp", "old", "billing"]),
              ("type", Schema.stringEnum ["postal", "physical", "both"]),
              ("line", Schema.arrayOf Schema.string),
              ("city", Schema.string),
              ("state", Schema.string),
              ("postalCode", Schema.string),
              ("country", Schema.string) ])) ]

/-- Descriptor `fhirSchemas.Observation`. -/
def observationSchema : Schema :=
  Schema.object ["resourceType", "status", "code"]
    [ ("resourceType", Schema.constant "Observation"),
      ("status",
        Schema.stringEnum
          ["registered", "preliminary", "final", "amended", "corrected", "cancelled",
            "entered-in-error", "unknown"]),
      ("code",
        Schema.object ["coding"]
          [ ("coding",
              Schema.arrayOf
                (Schema.object []
                  [ ("system", Schema.string),
                    ("code", Schema.string),
                    ("display", Schema.string) ])),
            ("text", Schema.string) ]),
      ("subject",
        Schema.object [] [("reference", Schema.string), ("display", Schema.string)]),
      ("effectiveDateTime", Schema.string),
      ("effectivePeriod",
        Schema.object [] [("start", Schema.string), ("end", Schema.string)]),
      ("valueQuantity",
        Schema.object []
          [ ("value", Schema.ofType JType.number),
            ("unit", Schema.string),
            ("system", Schema.string),
            ("code", Schema.string) ]),
      ("valueString", Schema.string),
      ("valueBoolean", Schema.ofType JType.boolean),
      ("component",
        Schema.arrayOf
          (Schema.object []
            [ ("code", Schema.ofType JType.object),
              ("valueQuantity", Schema.ofType JType.object) ])) ]

/-- Descriptor `fhirSchemas.Encounter`. -/
def encounterSchema : Schema :=
  Schema.object ["resourceType", "status", "class"]
    [ ("resourceType", Schema.constant "Encounter"),
      ("status",
        Schema.stringEnum
          ["planned", "arrived", "triaged", "in-progress", "onleave", "finished", "cancelled",
            "entered-in-error", "unknown"]),
      ("class",
        Schema.object ["system", "code"]
          [ ("system", Schema.string),
            ("code", Schema.string),
            ("display", Schema.string) ]),
      ("subject",
        Schema.object [] [("reference", Schema.string), ("display", Schema.string)]),
      ("period", Schema.object [] [("start", Schema.string), ("end", Schema.string)]),
      ("reasonCode",
        Schema.arrayOf
          (Schema.object []
            [ ("coding", Schema.ofType JType.array),
              ("text", Schema.string) ])) ]

/-- Descriptor `fhirSchemas.Condition`. -/
def conditionSchema : Schema :=
  Schema.object ["resourceType", "code"]
    [ ("resourceType", Schema.constant "Condition"),
      ("clinicalStatus",
        Schema.object []
          [ ("coding",
              Schema.arrayOf
                (Schema.object [] [("system", Schema.string), ("code", Schema.string)])) ]),
      ("verificationStatus", Schema.ofType JType.object),
      ("code",
        Schema.object ["coding"]
          [ ("coding", Schema.ofType JType.array),
            ("text", Schema.string) ]),
      ("subject", Schema.object [] [("reference", Schema.string)]),
      ("onsetDateTime", Schema.string),
      ("recordedDate", Schema.string) ]

/-- The own properties of the object literal `fhirSchemas`. -/
def fhirSchemas : List (String × Schema) :=
  [ ("Patient", patientSchema),
    ("Observation", observationSchema),
    ("Encounter", encounterSchema),
    ("Condition", conditionSchema) ]

/-- The function `getSupportedResourceTypes`: `Object.keys(fhirSchemas)`. -/
def getSupportedResourceTypes : List String :=
  fhirSchemas.map (fun kv => kv.1)

/-- The names under which a plain object inherits a function from
`Object.prototype`. -/
def objectPrototypeMethods : List String :=
  [ "constructor", "hasOwnProperty", "isPrototypeOf", "propertyIsEnumerable",
    "toLocaleString", "toString", "valueOf", "__defineGetter__", "__defineSetter__",
    "__lookupGetter__", "__lookupSetter__" ]

/-- What the read `fhirSchemas[key]` evaluates to. -/
inductive SchemaRead where
  | own (s : Schema)
  | inheritedFunction
  | objectPrototype
  | undefined

/-- The first entry of `table` under `key`. -/
def findSchema (table : List (String × Schema)) (key : String) : Option Schema :=
  match table with
  | [] => none
  | (k, s) :: rest => if k = key then some s else findSchema rest key

/-- The read `table[key]` on an object literal: an own property, else what
the prototype chain gives (a method of `Object.prototype`, or
`Object.prototype` itself under `__proto__`), else `undefined`. -/
def readSchema (table : List (String × Schema)) (key : String) : SchemaRead :=
  match findSchema table key with
  | some s => SchemaRead.own s
  | none =>
    if objectPrototypeMethods.contains key then SchemaRead.inheritedFunction
    else if key = "__proto__" then SchemaRead.objectPrototype
    else SchemaRead.undefined

/-- The value returned by `validateFhirResource`; `warnings` is only set on
the branch for a type without schema. -/
structure ValidationResult where
  valid : Bool
  errors : List String
  warnings : Option (List String)
deriving DecidableEq, Repr

/-- The text of one error: the template literal
`err.instancePath`, a blank, `err.message`. -/
def renderError (err : ErrorObject) : String :=
  err.instancePath ++ " " ++ err.message

/-- The function `validateFhirResource`.  A falsy `resourceType` is reported
as missing; a type for which `fhirSchemas[resourceType]` is falsy is accepted
with a warning; otherwise the value read is compiled and run.  The engine
refuses to compile a function (`schema must be object or boolean`), and
compiles an object without enumerable keywords to a validator that accepts
everything. -/
def validateFhirResource (resource : JsVal) : Except Thrown ValidationResult :=
  match readProp resource "resourceType" with
  | Except.error e => Except.error e
  | Except.ok resourceType =>
    if !truthy resourceType then
      Except.ok { valid := false, errors := ["Missing resourceType"], warnings := none }
    else
      match readSchema fhirSchemas resourceType.toJsString with
      | SchemaRead.undefined =>
        Except.ok
          { valid := true, errors := [],
            warnings := some ["No validation schema defined for " ++ resourceType.toJsString] }
      | SchemaRead.inheritedFunction =>
        Except.error
          { cls := ErrorClass.Error, message := "schema must be object or boolean",
            statusCode := none, code := none }
      | SchemaRead.objectPrototype =>
        Except.ok { valid := true, errors := [], warnings := none }
      | SchemaRead.own schema =>
        match ajvErrors schema "" resource with
        | [] => Except.ok { valid := true, errors := [], warnings := none }
        | e :: es =>
          Except.ok { valid := false, errors := (e :: es).map renderError, warnings := none }

/-! ## `errorHandler.js`: the error classes -/

/-- The constructor `new ApiError(message, statusCode, code)`. -/
def ApiError (message : String) (statusCode : Nat) (code : String) : Thrown :=
  { cls := ErrorClass.ApiError, message := message, statusCode := some statusCode,
    code := some code }

/-- The constructor `new NotFoundError(message)`: `super(message, 404, 'not_found')`. -/
def NotFoundError (message : String) : Thrown :=
  { ApiError message 404 "not_found" with cls := ErrorClass.NotFoundError }

/-- The constructor `new ValidationError(message)`:
`super(message, 400, 'validation_error')`. -/
def ValidationError (message : String) : Thrown :=
  { ApiError message 400 "validation_error" with cls := ErrorClass.ValidationError }

/-- The constructor `new UnauthorizedError(message)`:
`super(message, 401, 'unauthorized')`. -/
def UnauthorizedError (message : String) : Thrown :=
  { ApiError message 401 "unauthorized" with cls := ErrorClass.UnauthorizedError }

/-! ## The store

The storage engine is reached through the `supabase` client and is not part of
the sources.  Its tables are the ones created by `setupDatabase.js`.  Ids are
kept as texts.  The id columns have the type `uuid`: the engine writes an id
in the canonical form that `isUuid` describes, and refuses, with an error of
its own, a text that is no uuid.  That refusal is not part of this model, so
what is said about an id that is not stored is said for canonical uuids. -/

/-- An `ApiNamespace`: a row of `api_namespaces`, and the instance built from
it. -/
structure ApiNamespace where
  id : String
  name : String
  version : String
  properties : Obj
  created_at : String
  updated_at : String

/-- An `ApiResource`: a row of `api_resources`, and the instance built from
it.  The `properties` column holds an object. -/
structure ApiResource where
  id : String
  api_namespace_id : String
  properties : Obj
  created_at : String
  updated_at : String

/-- The two tables. -/
structure Store where
  api_namespaces : List ApiNamespace
  api_resources : List ApiResource

/-- What the storage engine draws when it inserts a row: `gen_random_uuid()`
and `now()`. -/
structure Draw where
  uuid : String
  now : String

/-- The store after a call, and what the call returned or threw. -/
structure Step (α : Type) where
  store : Store
  result : Except Thrown α

/-- The error object of the storage client, which has a `code` and no
`statusCode`. -/
def postgrestError (code : String) (message : String) : Thrown :=
  { cls := ErrorClass.PostgrestError, message := message, statusCode := none, code := some code }

/-- Modelled from the spec: the uniqueness error of the storage engine (an
external collaborator, absent from the sources), raised for `name text NOT NULL
UNIQUE` and for the primary keys. -/
def uniqueViolation : Thrown :=
  postgrestError "23505" "duplicate key value violates unique constraint"

/-- Modelled from the spec: the error of the storage engine (absent from the
sources) for a row whose `api_namespace_id` references no namespace. -/
def foreignKeyViolation : Thrown :=
  postgrestError "23503" "insert or update on table violates foreign key constraint"

/-- Modelled from the spec: the error of the storage client (absent from the
sources) when `single()` or `maybeSingle()` does not find the number of rows it
asks for. -/
def notSingleRow : Thrown :=
  postgrestError "PGRST116" "JSON object requested, multiple (or no) rows returned"

/-- Modelled from the spec: `maybeSingle()` of the storage client (absent from
the sources): no row is the absent value, one row is that row, more is an
error. -/
def maybeSingle {α : Type} (rows : List α) : Except Thrown (Option α) :=
  match rows with
  | [] => Except.ok none
  | [row] => Except.ok (some row)
  | _ :: _ :: _ => Except.error notSingleRow

/-- Modelled from the spec: `single()` of the storage client (absent from the
sources): exactly one row, else an error. -/
def single {α : Type} (rows : List α) : Except Thrown α :=
  match rows with
  | [row] => Except.ok row
  | _ => Except.error notSingleRow

/-! ## `ApiNamespace.js` -/

/-- The constructor `new ApiNamespace(data)`: `data.version || '1'`. -/
def ApiNamespace.new (data : ApiNamespace) : ApiNamespace :=
  { data with version := if data.version = "" then "1" else data.version }

/-- The static method `ApiNamespace.findByName`. -/
def ApiNamespace.findByName (s : Store) (name : String) : Except Thrown (Option ApiNamespace) :=
  match maybeSingle (s.api_namespaces.filter (fun row => row.name = name)) with
  | Except.error error => Except.error error
  | Except.ok data => Except.ok (data.map ApiNamespace.new)

/-- The static method `ApiNamespace.findById`. -/
def ApiNamespace.findById (s : Store) (id : String) : Except Thrown (Option ApiNamespace) :=
  match maybeSingle (s.api_namespaces.filter (fun row => row.id = id)) with
  | Except.error error => Except.error error
  | Except.ok data => Except.ok (data.map ApiNamespace.new)

/-- The argument of `ApiNamespace.create`. -/
structure NamespaceAttributes where
  name : String
  version : Option String
  properties : Option Obj

/-- The static method `ApiNamespace.create`: one insert into `api_namespaces`
with `attributes.version || '1'` and `attributes.properties || {}`.  The insert
fails when the name or the drawn id is already taken. -/
def ApiNamespace.create (s : Store) (draw : Draw) (attributes : NamespaceAttributes) :
    Step ApiNamespace :=
  if s.api_namespaces.any (fun row => row.name = attributes.name || row.id = draw.uuid) then
    { store := s, result := Except.error uniqueViolation }
  else
    let data : ApiNamespace :=
      { id := draw.uuid,
        name := attributes.name,
        version :=
          (match attributes.version with
           | some v => if v = "" then "1" else v
           | none => "1"),
        properties := attributes.properties.getD [],
        created_at := draw.now,
        updated_at := draw.now }
    { store := { s with api_namespaces := s.api_namespaces ++ [data] },
      result := Except.ok (ApiNamespace.new data) }

/-! ## `ApiResource.js` -/

/-- The static method `ApiResource.findById`. -/
def ApiResource.findById (s : Store) (id : String) : Except Thrown (Option ApiResource) :=
  maybeSingle (s.api_resources.filter (fun row => row.id = id))

/-- The static method `ApiResource.create`: one insert into `api_resources`.
The insert fails when `namespaceId` references no namespace or the drawn id is
already taken. -/
def ApiResource.create (s : Store) (draw : Draw) (namespaceId : String) (properties : Obj) :
    Step ApiResource :=
  if !(s.api_namespaces.any (fun row => row.id = namespaceId)) then
    { store := s, result := Except.error foreignKeyViolation }
  else if s.api_resources.any (fun row => row.id = draw.uuid) then
    { store := s, result := Except.error uniqueViolation }
  else
    let data : ApiResource :=
      { id := draw.uuid,
        api_namespace_id := namespaceId,
        properties := properties,
        created_at := draw.now,
        updated_at := draw.now }
    { store := { s with api_resources := s.api_resources ++ [data] },
      result := Except.ok data }

/-- The object literal that `update` writes: the stored properties, then the
new ones spread over them. -/
def ApiResource.mergedProperties (self : ApiResource) (properties : JsVal) : Obj :=
  spreadInto (spreadInto [] self.properties) (ownEnumerable properties)

/-- The method `update`: the rows whose id is `this.id` get the merged
properties (and `updated_at` from the trigger), and `single()` returns the
written row. -/
def ApiResource.update (s : Store) (now : String) (self : ApiResource) (properties : JsVal) :
    Step ApiResource :=
  let written : List ApiResource :=
    s.api_resources.map (fun row =>
      if row.id = self.id then
        { row with properties := self.mergedProperties properties, updated_at := now }
      else row)
  { store := { s with api_resources := written },
    result := single (written.filter (fun row => row.id = self.id)) }

/-- The method `toFhir`. -/
def ApiResource.toFhir (self : ApiResource) : Obj :=
  spreadInto
    [ ("resourceType", getProp self.properties "resourceType"),
      ("id", JsVal.str self.id),
      ("meta",
        JsVal.obj
          [ ("versionId", JsVal.str "1"),
            ("lastUpdated", JsVal.str self.updated_at) ]) ]
    self.properties

/-- The value returned by `ApiResource.fromFhir`. -/
structure ResourceAttributes where
  api_namespace_id : String
  properties : Obj

/-- The static method `ApiResource.fromFhir`. -/
def ApiResource.fromFhir (fhirResource : Obj) (namespaceId : String) : ResourceAttributes :=
  { api_namespace_id := namespaceId,
    properties := restWithout ["id", "meta"] fhirResource }

/-! ## `routes/fhir.js`: the create and update handlers -/

/-- What a handler sends: the status, the `Location` header and the value
given to `res.json`. -/
structure Response where
  status : Nat
  location : Option String
  body : JsVal

/-- What the storage engine draws while one create request is served. -/
structure CreateDraws where
  namespaceRow : Draw
  resourceRow : Draw

/-- The handler of `POST /fhir/:resourceType`.  An error in `result` is what
the handler passes to `next`. -/
def postResource (draws : CreateDraws) (s : Store) (resourceType : String)
    (fhirResource : JsVal) : Step Response :=
  match readProp fhirResource "resourceType" with
  | Except.error e => { store := s, result := Except.error e }
  | Except.ok bodyType =>
    if !strictEqStr bodyType resourceType then
      { store := s,
        result :=
          Except.error
            (ValidationError
              ("Resource type mismatch: expected " ++ resourceType ++ ", got " ++
                bodyType.toJsString)) }
    else
      match validateFhirResource fhirResource with
      | Except.error e => { store := s, result := Except.error e }
      | Except.ok validation =>
        if !validation.valid then
          { store := s,
            result :=
              Except.error
                (ValidationError
                  ("FHIR validation failed: " ++ ", ".intercalate validation.errors)) }
        else
          match ApiNamespace.findByName s resourceType with
          | Except.error e => { store := s, result := Except.error e }
          | Except.ok found =>
            let provisioned : Step ApiNamespace :=
              match found with
              | some ns => { store := s, result := Except.ok ns }
              | none =>
                ApiNamespace.create s draws.namespaceRow
                  { name := resourceType,
                    version := some "1",
                    properties :=
                      some [("resource_type", JsVal.str "fhir"), ("fhir_version", JsVal.str "R4")] }
            match provisioned.result with
            | Except.error e => { store := provisioned.store, result := Except.error e }
            | Except.ok ns =>
              let properties := restWithout ["id", "meta"] (ownEnumerable fhirResource)
              let created := ApiResource.create provisioned.store draws.resourceRow ns.id properties
              match created.result with
              | Except.error e => { store := created.store, result := Except.error e }
              | Except.ok resource =>
                { store := created.store,
                  result :=
                    Except.ok
                      { status := 201,
                        location := some ("/fhir/" ++ resourceType ++ "/" ++ resource.id),
                        body := JsVal.obj resource.toFhir } }

/-- The handler of `PUT /fhir/:resourceType/:id`.  An error in `result` is
what the handler passes to `next`. -/
def putResource (now : String) (s : Store) (resourceType : String) (id : String)
    (fhirResource : JsVal) : Step Response :=
  match readProp fhirResource "resourceType" with
  | Except.error e => { store := s, result := Except.error e }
  | Except.ok bodyType =>
    if !strictEqStr bodyType resourceType then
      { store := s,
        result :=
          Except.error
            (ValidationError
              ("Resource type mismatch: expected " ++ resourceType ++ ", got " ++
                bodyType.toJsString)) }
    else
      match validateFhirResource fhirResource with
      | Except.error e => { store := s, result := Except.error e }
      | Except.ok validation =>
        if !validation.valid then
          { store := s,
            result :=
              Except.error
                (ValidationError
                  ("FHIR validation failed: " ++ ", ".intercalate validation.errors)) }
        else
          match ApiResource.findById s id with
          | Except.error e => { store := s, result := Except.error e }
          | Except.ok none =>
            { store := s,
              result := Except.error (NotFoundError (resourceType ++ "/" ++ id ++ " not found")) }
          | Except.ok (some resource) =>
            let properties := restWithout ["id", "meta"] (ownEnumerable fhirResource)
            let updated := resource.update s now (JsVal.obj properties)
            match updated.result with
            | Except.error e => { store := updated.store, result := Except.error e }
            | Except.ok row =>
              { store := updated.store,
                result :=
                  Except.ok { status := 200, location := none, body := JsVal.obj row.toFhir } }

/-! ## Well-formed objects and sample data -/

/-- No key occurs twice: what every JavaScript object satisfies. -/
def distinctKeys (o : Obj) : Prop :=
  (o.map (fun kv => kv.1)).Nodup

instance (o : Obj) : Decidable (distinctKeys o) := by
  unfold distinctKeys
  infer_instance

/-- A wire record: `{ resourceType: 'Patient', id: 'abc', gender: 'female' }`. -/
def samplePatient : Obj :=
  [ ("resourceType", JsVal.str "Patient"),
    ("id", JsVal.str "abc"),
    ("gender", JsVal.str "female") ]

/-- A stored resource holding `samplePatient` without its `id`. -/
def sampleResource : ApiResource :=
  { id := "r-1",
    api_namespace_id := "ns-patient",
    properties := [("resourceType", JsVal.str "Patient"), ("gender", JsVal.str "female")],
    created_at := "2024-01-01T00:00:00Z",
    updated_at := "2024-01-02T00:00:00Z" }

/-- A resource whose stored properties are `{ a: 0, b: 2 }`. -/
def mergeTarget : ApiResource :=
  { id := "r-2",
    api_namespace_id := "ns-patient",
    properties := [("a", JsVal.num 0), ("b", JsVal.num 2)],
    created_at := "2024-01-01T00:00:00Z",
    updated_at := "2024-01-01T00:00:00Z" }

/-- A store holding the `Patient` namespace and the two sample resources. -/
def sampleStore : Store :=
  { api_namespaces :=
      [ { id := "ns-patient", name := "Patient", version := "1",
          properties := [("resource_type", JsVal.str "fhir")],
          created_at := "2024-01-01T00:00:00Z", updated_at := "2024-01-01T00:00:00Z" } ],
    api_resources := [sampleResource, mergeTarget] }

/-- A resource whose stored properties hold an `id` and a `meta` of their own,
as the generic route `POST /api/v1/api_resources` stores them when its
`properties` carry these keys. -/
def shadowedResource : ApiResource :=
  { id := "r-3",
    api_namespace_id := "ns-patient",
    properties :=
      [ ("resourceType", JsVal.str "Patient"),
        ("id", JsVal.str "someone-else"),
        ("meta", JsVal.obj [("versionId", JsVal.str "7")]) ],
    created_at := "2024-01-01T00:00:00Z",
    updated_at := "2024-01-02T00:00:00Z" }

/-! ## What the specification asks of the validator -/

/-- The specification's notion of a violated constraint, read off the
descriptor without running the engine: `Violates S path data e` says that
`data`, found at `path`, breaks a constraint that `S` declares, and `e` is the
report of it.  The constraints are the ones the specification lists: a
required field that is missing, a field that is not of its declared type, not
equal to its constant, not in its enumerated value set or not matching its
pattern, and the same inside the declared fields of an object and the items of
an array. -/
inductive Violates : Schema → String → JsVal → ErrorObject → Prop where
  | type (t : JType) (const : Option String) (enum : Option (List String))
      (pattern : Option Pattern) (required : List String)
      (properties : List (String × Schema)) (items : Option Schema)
      (path : String) (data : JsVal) :
      hasType t data = false →
      Violates (Schema.mk (some t) const enum pattern required properties items) path data
        { instancePath := path, keyword := "type", message := "must be " ++ t.word }
  | const (type : Option JType) (c : String) (enum : Option (List String))
      (pattern : Option Pattern) (required : List String)
      (properties : List (String × Schema)) (items : Option Schema)
      (path : String) (data : JsVal) :
      strictEqStr data c = false →
      Violates (Schema.mk type (some c) enum pattern required properties items) path data
        { instancePath := path, keyword := "const", message := "must be equal to constant" }
  | enum (type : Option JType) (const : Option String) (allowed : List String)
      (pattern : Option Pattern) (required : List String)
      (properties : List (String × Schema)) (items : Option Schema)
      (path : String) (data : JsVal) :
      (∀ a, a ∈ allowed → strictEqStr data a = false) →
      Violates (Schema.mk type const (some allowed) pattern required properties items) path data
        { instancePath := path, keyword := "enum",
          message := "must be equal to one of the allowed values" }
  | pattern (type : Option JType) (const : Option String) (enum : Option (List String))
      (p : Pattern) (required : List String)
      (properties : List (String × Schema)) (items : Option Schema)
      (path : String) (text : String) :
      p.test text = false →
      Violates (Schema.mk type const enum (some p) required properties items) path
        (JsVal.str text)
        { instancePath := path, keyword := "pattern",
          message := "must match pattern \"" ++ p.source ++ "\"" }
  | required (type : Option JType) (const : Option String) (enum : Option (List String))
      (pattern : Option Pattern) (required : List String)
      (properties : List (String × Schema)) (items : Option Schema)
      (path : String) (o : Obj) (k : String) :
      k ∈ required → definedProp o k = none →
      Violates (Schema.mk type const enum pattern required properties items) path (JsVal.obj o)
        { instancePath := path, keyword := "required",
          message := "must have required property '" ++ k ++ "'" }
  | property (type : Option JType) (const : Option String) (enum : Option (List String))
      (pattern : Option Pattern) (required : List String)
      (properties : List (String × Schema)) (items : Option Schema)
      (path : String) (o : Obj) (k : String) (sub : Schema) (w : JsVal) (e : ErrorObject) :
      (k, sub) ∈ properties → definedProp o k = some w →
      Violates sub (path ++ "/" ++ k) w e →
      Violates (Schema.mk type const enum pattern required properties items) path (JsVal.obj o) e
  | item (type : Option JType) (const : Option String) (enum : Option (List String))
      (pattern : Option Pattern) (required : List String)
      (properties : List (String × Schema)) (sub : Schema)
      (path : String) (xs : List JsVal) (i : Nat) (w : JsVal) (e : ErrorObject) :
      xs[i]? = some w →
      Violates sub (path ++ "/" ++ toString i) w e →
      Violates (Schema.mk type const enum pattern required properties (some sub)) path
        (JsVal.arr xs) e

mutual
/-- The specification's notion of a record that satisfies a descriptor: the
field has its declared type, equals its constant, holds a listed value of its
enumeration, matches its pattern when it is a string; an object holds every
required field and each declared field it holds satisfies the descriptor of
that field; each item of an array satisfies the item descriptor. -/
def Schema.satisfiedBy : Schema → JsVal → Bool
  | Schema.mk type const enum pattern required properties items, data =>
    (match type with
     | some t => hasType t data
     | none => true) &&
    (match const with
     | some c => strictEqStr data c
     | none => true) &&
    (match enum with
     | some allowed => allowed.any (fun a => strictEqStr data a)
     | none => true) &&
    (match data with
     | JsVal.str s =>
       (match pattern with
        | some p => p.test s
        | none => true)
     | JsVal.arr xs => itemsSatisfy items xs
     | JsVal.obj o =>
       required.all (fun k => (definedProp o k).isSome) && fieldsSatisfy properties o
     | _ => true)
termination_by structural s => s
/-- Each declared field that the object holds satisfies its descriptor. -/
def fieldsSatisfy : List (String × Schema) → Obj → Bool
  | [], _ => true
  | (k, s) :: rest, o =>
    (match definedProp o k with
     | some w => s.satisfiedBy w
     | none => true) &&
    fieldsSatisfy rest o
termination_by structural ps => ps
/-- Each item of the array satisfies the item descriptor. -/
def itemsSatisfy : Option Schema → List JsVal → Bool
  | none, _ => true
  | some s, xs => xs.all (fun x => s.satisfiedBy x)
termination_by structural i => i
end

/-- A digit `0` to `9`. -/
def isDigitChar (c : Char) : Bool :=
  decide ('0' ≤ c ∧ c ≤ '9')

/-- The specification's reading of the `birthDate` format: `YYYY`, `YYYY-MM`
or `YYYY-MM-DD`, in digits. -/
def isDateText : List Char → Bool
  | [y1, y2, y3, y4] => isDigitChar y1 && isDigitChar y2 && isDigitChar y3 && isDigitChar y4
  | [y1, y2, y3, y4, s1, m1, m2] =>
    isDigitChar y1 && isDigitChar y2 && isDigitChar y3 && isDigitChar y4 &&
    decide (s1 = '-') && isDigitChar m1 && isDigitChar m2
  | [y1, y2, y3, y4, s1, m1, m2, s2, d1, d2] =>
    isDigitChar y1 && isDigitChar y2 && isDigitChar y3 && isDigitChar y4 &&
    decide (s1 = '-') && isDigitChar m1 && isDigitChar m2 &&
    decide (s2 = '-') && isDigitChar d1 && isDigitChar d2
  | _ => false

/-- An Observation whose status is outside the enumeration and that has no
`code` field. -/
def badObservation : Obj :=
  [ ("resourceType", JsVal.str "Observation"),
    ("status", JsVal.str "done") ]

/-! ## The type invariant of protocol resources -/

/-- The type invariant at one row: `properties.resourceType` is the name of
every namespace of the store whose id is the row's `api_namespace_id` (there is
one such namespace when ids are distinct). -/
def typeInvariantAt (s : Store) (row : ApiResource) : Prop :=
  ∀ ns, ns ∈ s.api_namespaces → ns.id = row.api_namespace_id →
    lookupOwn row.properties "resourceType" = some (JsVal.str ns.name)

/-- No two namespaces share an id (the primary key of `api_namespaces`). -/
def distinctNamespaceIds (s : Store) : Prop :=
  (s.api_namespaces.map (fun ns => ns.id)).Nodup

instance (s : Store) : Decidable (distinctNamespaceIds s) := by
  unfold distinctNamespaceIds
  infer_instance

/-- The store with no rows. -/
def emptyStore : Store :=
  { api_namespaces := [], api_resources := [] }

/-- The draws of one create request. -/
def sampleDraws : CreateDraws :=
  { namespaceRow := { uuid := "ns-uuid-1", now := "2024-03-01T10:00:00Z" },
    resourceRow := { uuid := "res-uuid-1", now := "2024-03-01T10:00:01Z" } }

/-- A valid Observation: `{ resourceType: 'Observation', status: 'final',
code: { coding: [] } }`. -/
def validObservation : Obj :=
  [ ("resourceType", JsVal.str "Observation"),
    ("status", JsVal.str "final"),
    ("code", JsVal.obj [("coding", JsVal.arr [])]) ]

/-- The request `POST /fhir/Patient` with `samplePatient`, on the empty
store. -/
def patientCreated : Step Response :=
  postResource sampleDraws emptyStore "Patient" (JsVal.obj samplePatient)

/-- The request `PUT /fhir/Observation/res-uuid-1` with `validObservation`,
sent after `patientCreated`: the id is the one of the Patient just created. -/
def crossTypeUpdate : Step Response :=
  putResource "2024-03-02T09:00:00Z" patientCreated.store "Observation" "res-uuid-1"
    (JsVal.obj validObservation)

/-- The request `POST /fhir/Observation` with a body that says `Patient`. -/
def mismatchedCreate : Step Response :=
  postResource sampleDraws sampleStore "Observation" (JsVal.obj samplePatient)

/-! ## `errorHandler.js`: the middleware -/

/-- The test `req.path.startsWith('/fhir')`. -/
def isFhirRequest (path : String) : Bool :=
  List.isPrefixOf "/fhir".toList path.toList

/-- The status that `errorHandler` sends: `err.statusCode || 500`. -/
def errorStatus (err : Thrown) : Nat :=
  match err.statusCode with
  | some 0 => 500
  | some statusCode => statusCode
  | none => 500

/-- The function `errorHandler`: what it sends for the error `err` of a
request with path `path`. -/
def errorHandler (err : Thrown) (path : String) : Response :=
  let statusCode := errorStatus err
  if isFhirRequest path then
    { status := statusCode,
      location := none,
      body :=
        JsVal.obj
          [ ("resourceType", JsVal.str "OperationOutcome"),
            ("issue",
              JsVal.arr
                [ JsVal.obj
                    [ ("severity", JsVal.str (if statusCode ≥ 500 then "error" else "warning")),
                      ("code",
                        JsVal.str
                          (match err.code with
                           | some code => if code = "" then "processing" else code
                           | none => "processing")),
                      ("diagnostics",
                        JsVal.str
                          (if err.message = "" then "An error occurred"
                           else err.message)) ] ]) ] }
  else
    { status := statusCode,
      location := none,
      body :=
        JsVal.obj
          [ ("error",
              JsVal.obj
                [ ("message",
                    JsVal.str
                      (if err.message = "" then "Internal server error" else err.message)),
                  ("code",
                    (match err.code with
                     | some code => JsVal.str code
                     | none => JsVal.undefined)),
                  ("statusCode", JsVal.num statusCode) ]) ] }

/-! ## The query interface of the storage engine

`ApiResource.findAll` builds its query with the operators `eq`, `contains`,
`ilike` and `order` of the storage client, which are not part of the
sources. -/

mutual
/-- Equality of two JSON values. -/
def jsEquals : JsVal → JsVal → Bool
  | JsVal.undefined, JsVal.undefined => true
  | JsVal.null, JsVal.null => true
  | JsVal.bool a, JsVal.bool b => a == b
  | JsVal.num a, JsVal.num b => a == b
  | JsVal.str a, JsVal.str b => a == b
  | JsVal.arr xs, JsVal.arr ys => jsEqualsItems xs ys
  | JsVal.obj xs, JsVal.obj ys => jsEqualsFields xs ys
  | _, _ => false
termination_by structural a => a
/-- Equality of two arrays, item by item. -/
def jsEqualsItems : List JsVal → List JsVal → Bool
  | [], [] => true
  | x :: xs, y :: ys => jsEquals x y && jsEqualsItems xs ys
  | _, _ => false
termination_by structural xs => xs
/-- Equality of two objects, field by field. -/
def jsEqualsFields : List (String × JsVal) → List (String × JsVal) → Bool
  | [], [] => true
  | (k, x) :: xs, (l, y) :: ys => k == l && jsEquals x y && jsEqualsFields xs ys
  | _, _ => false
termination_by structural xs => xs
end

/-- Whether a JSON value is a scalar for the storage engine: not an array and
not an object. -/
def isJsonScalar (v : JsVal) : Bool :=
  match v with
  | JsVal.arr _ => false
  | JsVal.obj _ => false
  | _ => true

/-- The operator `@>` of the storage engine with a scalar on its right, at
the top of the two values: an array contains the scalar when one of its
elements equals it, a scalar contains an equal scalar, an object contains no
scalar. -/
def jsonbContainsScalar (container : JsVal) (scalar : JsVal) : Bool :=
  match container with
  | JsVal.arr items => items.any (fun held => jsEquals held scalar)
  | JsVal.obj _ => false
  | held => jsEquals held scalar

mutual
/-- The operator `container @> wanted` of the storage engine on `jsonb` values
(the engine is not part of the sources; this follows its containment rule).
The two values must have the same structure: an object contains an object, an
array contains an array.  Only at the top may an array contain a bare
scalar. -/
def jsonbContains : JsVal → JsVal → Bool
  | container, JsVal.obj wanted =>
    (match container with
     | JsVal.obj fields => jsonbContainsFields fields wanted
     | _ => false)
  | container, JsVal.arr wanted =>
    (match container with
     | JsVal.arr items => jsonbContainsItems items wanted
     | _ => false)
  | container, JsVal.undefined => jsonbContainsScalar container JsVal.undefined
  | container, JsVal.null => jsonbContainsScalar container JsVal.null
  | container, JsVal.bool b => jsonbContainsScalar container (JsVal.bool b)
  | container, JsVal.num n => jsonbContainsScalar container (JsVal.num n)
  | container, JsVal.str t => jsonbContainsScalar container (JsVal.str t)
termination_by structural _ wanted => wanted
/-- An object contains the wanted fields: it holds every wanted key, with an
equal scalar where the wanted value is a scalar, and with a value that
contains the wanted one where that is an object or an array. -/
def jsonbContainsFields : Obj → List (String × JsVal) → Bool
  | _, [] => true
  | fields, (k, v) :: rest =>
    (match lookupOwn fields k with
     | none => false
     | some held => if isJsonScalar v then jsEquals held v else jsonbContains held v) &&
    jsonbContainsFields fields rest
termination_by structural _ wanted => wanted
/-- An array contains the wanted elements: every wanted scalar equals one of
its elements, and every wanted object or array is contained in one of its
elements; order and repetition do not count. -/
def jsonbContainsItems : List JsVal → List JsVal → Bool
  | _, [] => true
  | items, w :: rest =>
    (if isJsonScalar w then items.any (fun held => jsEquals held w)
     else items.any (fun held => jsonbContains held w)) &&
    jsonbContainsItems items rest
termination_by structural _ wanted => wanted
end

/-- The operator `contains` of the storage client on the `jsonb` column
`properties`: the filter `properties @> argument` of the storage engine. -/
def contains (record : Obj) (argument : Obj) : Bool :=
  jsonbContains (JsVal.obj record) (JsVal.obj argument)

/-- The characters of a JSON string literal between its quotes: the quote
and the backslash are escaped (the escapes of control characters are left
out). -/
def jsonEscape : List Char → String
  | [] => ""
  | c :: cs =>
    (if c = '"' then "\\\"" else if c = '\\' then "\\\\" else String.singleton c) ++
      jsonEscape cs

mutual
/-- Modelled from the spec: the text that the storage engine (absent from the
sources) gives for a nested value that is not a string: numbers and booleans
as they are written, arrays and objects as JSON text. -/
def jsonbText : JsVal → String
  | JsVal.undefined => "null"
  | JsVal.null => "null"
  | JsVal.bool b => if b then "true" else "false"
  | JsVal.num n => toString n
  | JsVal.str s => "\"" ++ jsonEscape s.toList ++ "\""
  | JsVal.arr xs => "[" ++ jsonbTextItems xs ++ "]"
  | JsVal.obj fields => "\x7b" ++ jsonbTextFields fields ++ "\x7d"
termination_by structural v => v
/-- The items of an array, separated by a comma and a blank. -/
def jsonbTextItems : List JsVal → String
  | [] => ""
  | x :: rest =>
    jsonbText x ++
    (match rest with
     | [] => ""
     | _ :: _ => ", " ++ jsonbTextItems rest)
termination_by structural xs => xs
/-- The fields of an object, separated by a comma and a blank. -/
def jsonbTextFields : List (String × JsVal) → String
  | [] => ""
  | (k, x) :: rest =>
    "\"" ++ jsonEscape k.toList ++ "\": " ++ jsonbText x ++
    (match rest with
     | [] => ""
     | _ :: _ => ", " ++ jsonbTextFields rest)
termination_by structural fields => fields
end

/-- Modelled from the spec: the nested path `properties->name->>family` of
the storage engine (absent from the sources): the field `family` of the
object under the field `name`, as text.  There is no such text when `name` is
missing or is not an object (an array has no field `family`), or when
`family` is missing or `null`. -/
def nameFamilyText (properties : Obj) : Option String :=
  match lookupOwn properties "name" with
  | some (JsVal.obj name) =>
    (match lookupOwn name "family" with
     | some (JsVal.str family) => some family
     | some JsVal.null => none
     | some JsVal.undefined => none
     | some other => some (jsonbText other)
     | none => none)
  | _ => none

/-- Whether `test` holds of the text or of one of its suffixes. -/
def anySuffix (test : List Char → Bool) : List Char → Bool
  | [] => test []
  | c :: cs => test (c :: cs) || anySuffix test cs

/-- Modelled from the spec: the pattern match behind the case-insensitive
substring predicate of the storage engine (the operator `ilike`, absent from
the sources).  In a pattern `%` stands for any text and `_` for any one
character; every other character stands for itself, in either case (the
escape character of patterns and the `*` spelling of `%` are left out, and
case is folded for the letters `a` to `z` only). -/
def likeMatch : List Char → List Char → Bool
  | [], text => text.isEmpty
  | p :: pattern, text =>
    if p = '%' then anySuffix (likeMatch pattern) text
    else
      match text with
      | [] => false
      | c :: cs =>
        (p = '_' || p.toLower = c.toLower) && likeMatch pattern cs

/-- Modelled from the spec: the operator `ilike` of the storage client (absent
from the sources) on a text that may be missing: a missing text matches no
pattern. -/
def ilike (text : Option String) (pattern : String) : Bool :=
  match text with
  | some t => likeMatch pattern.toList t.toList
  | none => false

/-- The order of two timestamps, as the order of their texts: the timestamps
of the store are written in one format and one zone, so that the earlier
instant is the smaller text. -/
def timestampLe : List Char → List Char → Bool
  | [], _ => true
  | _ :: _, [] => false
  | a :: as, b :: bs => if a < b then true else if b < a then false else timestampLe as bs

/-- The relation `ORDER BY created_at DESC` asks of a row and a later one. -/
def newerOrSame (a b : ApiResource) : Prop :=
  timestampLe b.created_at.toList a.created_at.toList = true

instance : DecidableRel newerOrSame := fun a b => by
  unfold newerOrSame
  infer_instance

/-- Modelled from the spec: the operator `order('created_at', { ascending:
false })` of the storage client (absent from the sources): the rows, newest
first. -/
def orderByCreatedAtDesc (rows : List ApiResource) : List ApiResource :=
  List.insertionSort newerOrSame rows

/-! ## `ApiResource.findAll` and the search handler -/

/-- The static method `ApiResource.findAll`: the rows of the namespace, the
`identifier` filter when `filters.identifier` is truthy, the `name` filter when
`filters.name` is truthy, newest first. -/
def ApiResource.findAll (s : Store) (namespaceId : String) (filters : Obj) :
    Except Thrown (List ApiResource) :=
  let query := s.api_resources.filter (fun row => row.api_namespace_id = namespaceId)
  let query :=
    if truthy (getProp filters "identifier") then
      query.filter (fun row =>
        contains row.properties [("identifier", getProp filters "identifier")])
    else query
  let query :=
    if truthy (getProp filters "name") then
      query.filter (fun row =>
        ilike (nameFamilyText row.properties)
          ("%" ++ (getProp filters "name").toJsString ++ "%"))
    else query
  Except.ok (orderByCreatedAtDesc query)

/-- The text of `req.get('host')` in a template literal. -/
def hostText (host : Option String) : String :=
  match host with
  | some h => h
  | none => "undefined"

/-- The bundle literal of the search handler, for the resources found. -/
def searchBundle (protocol : String) (host : Option String) (resourceType : String)
    (resources : List ApiResource) : Obj :=
  [ ("resourceType", JsVal.str "Bundle"),
    ("type", JsVal.str "searchset"),
    ("total", JsVal.num resources.length),
    ("entry",
      JsVal.arr
        (resources.map (fun r =>
          JsVal.obj
            [ ("fullUrl",
                JsVal.str
                  (protocol ++ "://" ++ hostText host ++ "/fhir/" ++ resourceType ++ "/" ++ r.id)),
              ("resource", JsVal.obj r.toFhir) ]))) ]

/-- The handler of `GET /fhir/:resourceType`: the value it sends, or the
error it passes to `next`.  The store is only read. -/
def searchResources (s : Store) (protocol : String) (host : Option String)
    (resourceType : String) (query : Obj) : Except Thrown Response :=
  match ApiNamespace.findByName s resourceType with
  | Except.error e => Except.error e
  | Except.ok none =>
    Except.error (NotFoundError ("Resource type " ++ resourceType ++ " not found"))
  | Except.ok (some ns) =>
    match ApiResource.findAll s ns.id query with
    | Except.error e => Except.error e
    | Except.ok resources =>
      Except.ok
        { status := 200, location := none,
          body := JsVal.obj (searchBundle protocol host resourceType resources) }

/-! ## The create handler, one call of the storage engine at a time -/

/-- Where a create request stands between two calls of the storage engine:
nothing done yet, the lookup found no namespace, a namespace is in hand, or
the handler is done. -/
inductive PostPhase where
  | received
  | absent
  | resolved (ns : ApiNamespace)
  | finished (result : Except Thrown Response)

/-- The handler of `POST /fhir/:resourceType` up to its next `await`: the
checks and `ApiNamespace.findByName`, then `ApiNamespace.create` when the
lookup found nothing, then `ApiResource.create`. -/
def postAdvance (draws : CreateDraws) (resourceType : String) (fhirResource : JsVal)
    (phase : PostPhase) (s : Store) : PostPhase × Store :=
  match phase with
  | PostPhase.received =>
    (match readProp fhirResource "resourceType" with
     | Except.error e => (PostPhase.finished (Except.error e), s)
     | Except.ok bodyType =>
       if !strictEqStr bodyType resourceType then
         (PostPhase.finished
           (Except.error
             (ValidationError
               ("Resource type mismatch: expected " ++ resourceType ++ ", got " ++
                 bodyType.toJsString))), s)
       else
         match validateFhirResource fhirResource with
         | Except.error e => (PostPhase.finished (Except.error e), s)
         | Except.ok validation =>
           if !validation.valid then
             (PostPhase.finished
               (Except.error
                 (ValidationError
                   ("FHIR validation failed: " ++ ", ".intercalate validation.errors))), s)
           else
             match ApiNamespace.findByName s resourceType with
             | Except.error e => (PostPhase.finished (Except.error e), s)
             | Except.ok (some ns) => (PostPhase.resolved ns, s)
             | Except.ok none => (PostPhase.absent, s))
  | PostPhase.absent =>
    let provisioned :=
      ApiNamespace.create s draws.namespaceRow
        { name := resourceType,
          version := some "1",
          properties :=
            some [("resource_type", JsVal.str "fhir"), ("fhir_version", JsVal.str "R4")] }
    (match provisioned.result with
     | Except.error e => (PostPhase.finished (Except.error e), provisioned.store)
     | Except.ok ns => (PostPhase.resolved ns, provisioned.store))
  | PostPhase.resolved ns =>
    let properties := restWithout ["id", "meta"] (ownEnumerable fhirResource)
    let created := ApiResource.create s draws.resourceRow ns.id properties
    (match created.result with
     | Except.error e => (PostPhase.finished (Except.error e), created.store)
     | Except.ok resource =>
       (PostPhase.finished
         (Except.ok
           { status := 201,
             location := some ("/fhir/" ++ resourceType ++ "/" ++ resource.id),
             body := JsVal.obj resource.toFhir }), created.store))
  | PostPhase.finished result => (PostPhase.finished result, s)

/-- A create request run alone: three calls of the storage engine at most. -/
def postRun (draws : CreateDraws) (s : Store) (resourceType : String) (fhirResource : JsVal) :
    PostPhase × Store :=
  let one := postAdvance draws resourceType fhirResource PostPhase.received s
  let two := postAdvance draws resourceType fhirResource one.1 one.2
  postAdvance draws resourceType fhirResource two.1 two.2

/-- Two create requests in flight over one store. -/
structure Race where
  first : PostPhase
  second : PostPhase
  store : Store

/-- One turn of a race: the first request (`true`) or the second (`false`)
makes its next call of the storage engine. -/
def raceTurn (drawsA drawsB : CreateDraws) (resourceType : String) (bodyA bodyB : JsVal)
    (race : Race) (turn : Bool) : Race :=
  if turn then
    let next := postAdvance drawsA resourceType bodyA race.first race.store
    { first := next.1, second := race.second, store := next.2 }
  else
    let next := postAdvance drawsB resourceType bodyB race.second race.store
    { first := race.first, second := next.1, store := next.2 }

/-- The race after the turns of a schedule. -/
def runRace (drawsA drawsB : CreateDraws) (resourceType : String) (bodyA bodyB : JsVal)
    (schedule : List Bool) (s : Store) : Race :=
  schedule.foldl (raceTurn drawsA drawsB resourceType bodyA bodyB)
    { first := PostPhase.received, second := PostPhase.received, store := s }

/-- The result of a request that is done. -/
def PostPhase.result (phase : PostPhase) : Option (Except Thrown Response) :=
  match phase with
  | PostPhase.finished result => some result
  | _ => none

/-! ## Sample data for the searches and the races -/

/-- A valid Condition: `{ resourceType: 'Condition', code: { coding: [] } }`. -/
def validCondition : Obj :=
  [ ("resourceType", JsVal.str "Condition"),
    ("code", JsVal.obj [("coding", JsVal.arr [])]) ]

/-- The draws of a second create request. -/
def otherDraws : CreateDraws :=
  { namespaceRow := { uuid := "ns-uuid-2", now := "2024-03-01T10:00:02Z" },
    resourceRow := { uuid := "res-uuid-2", now := "2024-03-01T10:00:03Z" } }

/-- Two creates of a Condition on `sampleStore`, which has no namespace of
that name, where both lookups run before either insert. -/
def lookupsFirstRace : Race :=
  runRace sampleDraws otherDraws "Condition" (JsVal.obj validCondition)
    (JsVal.obj validCondition) [true, false, true, false, true, false] sampleStore

/-- The same two creates, one request after the other. -/
def oneAfterTheOtherRace : Race :=
  runRace sampleDraws otherDraws "Condition" (JsVal.obj validCondition)
    (JsVal.obj validCondition) [true, true, true, false, false, false] sampleStore

/-- The attributes `{ name: 'Patient' }`. -/
def patientAttributes : NamespaceAttributes :=
  { name := "Patient", version := none, properties := none }

/-- The first call `ApiNamespace.create({ name: 'Patient' })`, on the empty
store. -/
def firstNamespaceCreate : Step ApiNamespace :=
  ApiNamespace.create emptyStore sampleDraws.namespaceRow patientAttributes

/-- The second call `ApiNamespace.create({ name: 'Patient' })`, after the
first. -/
def secondNamespaceCreate : Step ApiNamespace :=
  ApiNamespace.create firstNamespaceCreate.store otherDraws.namespaceRow patientAttributes

/-- A resource whose `identifier` is `["P1","P2"]`. -/
def holderP1P2 : ApiResource :=
  { id := "r-p12",
    api_namespace_id := "ns-patient",
    properties := [("identifier", JsVal.arr [JsVal.str "P1", JsVal.str "P2"])],
    created_at := "2024-01-01T00:00:00Z",
    updated_at := "2024-01-01T00:00:00Z" }

/-- A resource whose `identifier` is `["P3"]`. -/
def holderP3 : ApiResource :=
  { id := "r-p3",
    api_namespace_id := "ns-patient",
    properties := [("identifier", JsVal.arr [JsVal.str "P3"])],
    created_at := "2024-01-02T00:00:00Z",
    updated_at := "2024-01-02T00:00:00Z" }

/-- A Patient as the validator accepts it: `name` is an array of objects with
a `family` field. -/
def smithPatient : ApiResource :=
  { id := "r-smith",
    api_namespace_id := "ns-patient",
    properties :=
      [ ("resourceType", JsVal.str "Patient"),
        ("name", JsVal.arr [JsVal.obj [("family", JsVal.str "Smith")]]) ],
    created_at := "2024-01-03T00:00:00Z",
    updated_at := "2024-01-03T00:00:00Z" }

/-- A resource whose `name` is the object `{ family: 'Jones' }`. -/
def jonesRecord : ApiResource :=
  { id := "r-jones",
    api_namespace_id := "ns-patient",
    properties := [("name", JsVal.obj [("family", JsVal.str "Jones")])],
    created_at := "2024-01-04T00:00:00Z",
    updated_at := "2024-01-04T00:00:00Z" }

/-- A store with the `Patient` namespace and the four resources above. -/
def searchStore : Store :=
  { api_namespaces :=
      [ { id := "ns-patient", name := "Patient", version := "1",
          properties := [("resource_type", JsVal.str "fhir")],
          created_at := "2024-01-01T00:00:00Z", updated_at := "2024-01-01T00:00:00Z" } ],
    api_resources := [holderP1P2, holderP3, smithPatient, jonesRecord] }

/-- The specification's reading of the rows that `findAll` returns: the row
belongs to the namespace and satisfies every supplied filter, where a filter
is supplied when its value is truthy. -/
def satisfiesFilters (namespaceId : String) (filters : Obj) (row : ApiResource) : Bool :=
  decide (row.api_namespace_id = namespaceId) &&
  ((!truthy (getProp filters "identifier")) ||
    contains row.properties [("identifier", getProp filters "identifier")]) &&
  ((!truthy (getProp filters "name")) ||
    ilike (nameFamilyText row.properties) ("%" ++ (getProp filters "name").toJsString ++ "%"))

/-! ## `auth.js`: `authorize` -/

/-- The middleware returned by `authorize(...allowedRoles)`, run on a request
whose `req.user` is `user` (absent when no middleware has set it): the error
it passes to `next`, or nothing when it calls `next()`. -/
def authorize (allowedRoles : List String) (user : Option Obj) : Except Thrown Unit :=
  match user with
  | none => Except.error (UnauthorizedError "Authentication required")
  | some u =>
    if !(allowedRoles.any (fun role => strictEqStr (getProp u "role") role)) then
      Except.error (UnauthorizedError "Insufficient permissions")
    else
      Except.ok ()

/-- A route registered as `authorize(...allowedRoles), handler`: the handler
runs when the middleware calls `next()`; the error the middleware passes to
`next` ends the request with the store as it was. -/
def authorized {α : Type} (allowedRoles : List String) (user : Option Obj) (s : Store)
    (handler : Step α) : Step α :=
  match authorize allowedRoles user with
  | Except.error e => { store := s, result := Except.error e }
  | Except.ok _ => handler

/-! ## The `destroy` methods -/

/-- The method `ApiResource.destroy`: the rows whose id is `this.id` are
deleted; deleting no row is not an error. -/
def ApiResource.destroy (s : Store) (self : ApiResource) : Step Bool :=
  { store := { s with api_resources := s.api_resources.filter (fun row => !decide (row.id = self.id)) },
    result := Except.ok true }

/-- The method `ApiNamespace.destroy`: the rows of `api_namespaces` whose id
is `this.id` are deleted, and with them the rows of `api_resources` that
reference a deleted row (`REFERENCES api_namespaces(id) ON DELETE CASCADE` in
`setupDatabase.js`). -/
def ApiNamespace.destroy (s : Store) (self : ApiNamespace) : Step Bool :=
  let deleted := s.api_namespaces.filter (fun row => row.id = self.id)
  { store :=
      { api_namespaces := s.api_namespaces.filter (fun row => !decide (row.id = self.id)),
        api_resources :=
          s.api_resources.filter
            (fun r => !(deleted.any (fun row => r.api_namespace_id = row.id))) },
    result := Except.ok true }

/-! ## `routes/fhir.js`: the read and delete handlers -/

/-- The handler of `GET /fhir/:resourceType/:id`. -/
def getResource (s : Store) (resourceType : String) (id : String) : Except Thrown Response :=
  match ApiResource.findById s id with
  | Except.error e => Except.error e
  | Except.ok none => Except.error (NotFoundError (resourceType ++ "/" ++ id ++ " not found"))
  | Except.ok (some resource) =>
    Except.ok { status := 200, location := none, body := JsVal.obj resource.toFhir }

/-- The handler of `DELETE /fhir/:resourceType/:id`; `res.status(204).send()`
has no body. -/
def deleteResource (s : Store) (resourceType : String) (id : String) : Step Response :=
  match ApiResource.findById s id with
  | Except.error e => { store := s, result := Except.error e }
  | Except.ok none =>
    { store := s,
      result := Except.error (NotFoundError (resourceType ++ "/" ++ id ++ " not found")) }
  | Except.ok (some resource) =>
    let destroyed := resource.destroy s
    match destroyed.result with
    | Except.error e => { store := destroyed.store, result := Except.error e }
    | Except.ok _ =>
      { store := destroyed.store,
        result := Except.ok { status := 204, location := none, body := JsVal.undefined } }

/-- The route `POST /fhir/:resourceType` behind `authorize('practitioner',
'admin')`. -/
def createRoute (user : Option Obj) (draws : CreateDraws) (s : Store) (resourceType : String)
    (fhirResource : JsVal) : Step Response :=
  authorized ["practitioner", "admin"] user s (postResource draws s resourceType fhirResource)

/-- The route `PUT /fhir/:resourceType/:id` behind `authorize('practitioner',
'admin')`. -/
def updateRoute (user : Option Obj) (now : String) (s : Store) (resourceType : String)
    (id : String) (fhirResource : JsVal) : Step Response :=
  authorized ["practitioner", "admin"] user s (putResource now s resourceType id fhirResource)

/-- The route `DELETE /fhir/:resourceType/:id` behind `authorize('admin')`. -/
def deleteRoute (user : Option Obj) (s : Store) (resourceType : String) (id : String) :
    Step Response :=
  authorized ["admin"] user s (deleteResource s resourceType id)

/-! ## `routes/apiResourcesRouter.js` -/

/-- What `res.json(resource)` writes for an `ApiResource` instance: its own
fields. -/
def ApiResource.toJson (self : ApiResource) : JsVal :=
  JsVal.obj
    [ ("id", JsVal.str self.id),
      ("api_namespace_id", JsVal.str self.api_namespace_id),
      ("properties", JsVal.obj self.properties),
      ("created_at", JsVal.str self.created_at),
      ("updated_at", JsVal.str self.updated_at) ]

/-- The handler of `GET /api/v1/api_resources/:id`. -/
def getApiResource (s : Store) (id : String) : Except Thrown Response :=
  match ApiResource.findById s id with
  | Except.error e => Except.error e
  | Except.ok none => Except.error (NotFoundError "API Resource not found")
  | Except.ok (some resource) =>
    Except.ok { status := 200, location := none, body := resource.toJson }

/-- The handler of `POST /api/v1/api_resources` for the body `body`.  The rows
of this model hold an object under `properties`; the answer is `none` for a
request that gets as far as storing a `properties` value that is not an
object, which the rows cannot hold. -/
def postApiResource (draw : Draw) (s : Store) (body : JsVal) : Option (Step Response) :=
  match readProp body "namespace_id" with
  | Except.error e => some { store := s, result := Except.error e }
  | Except.ok namespace_id =>
    match readProp body "properties" with
    | Except.error e => some { store := s, result := Except.error e }
    | Except.ok properties =>
      if !truthy namespace_id || !truthy properties then
        some
          { store := s,
            result := Except.error (ValidationError "namespace_id and properties are required") }
      else
        match ApiNamespace.findById s namespace_id.toJsString with
        | Except.error e => some { store := s, result := Except.error e }
        | Except.ok none =>
          some { store := s, result := Except.error (NotFoundError "API Namespace not found") }
        | Except.ok (some _) =>
          match properties with
          | JsVal.obj fields =>
            let created := ApiResource.create s draw namespace_id.toJsString fields
            match created.result with
            | Except.error e => some { store := created.store, result := Except.error e }
            | Except.ok resource =>
              some
                { store := created.store,
                  result :=
                    Except.ok { status := 201, location := none, body := resource.toJson } }
          | _ => none

/-- The handler of `PUT /api/v1/api_resources/:id` for the body `body`. -/
def putApiResource (now : String) (s : Store) (id : String) (body : JsVal) : Step Response :=
  match ApiResource.findById s id with
  | Except.error e => { store := s, result := Except.error e }
  | Except.ok none =>
    { store := s, result := Except.error (NotFoundError "API Resource not found") }
  | Except.ok (some resource) =>
    match readProp body "properties" with
    | Except.error e => { store := s, result := Except.error e }
    | Except.ok properties =>
      let updated := resource.update s now properties
      match updated.result with
      | Except.error e => { store := updated.store, result := Except.error e }
      | Except.ok row =>
        { store := updated.store,
          result := Except.ok { status := 200, location := none, body := row.toJson } }

/-- The handler of `DELETE /api/v1/api_resources/:id`. -/
def deleteApiResource (s : Store) (id : String) : Step Response :=
  match ApiResource.findById s id with
  | Except.error e => { store := s, result := Except.error e }
  | Except.ok none =>
    { store := s, result := Except.error (NotFoundError "API Resource not found") }
  | Except.ok (some resource) =>
    let destroyed := resource.destroy s
    match destroyed.result with
    | Except.error e => { store := destroyed.store, result := Except.error e }
    | Except.ok _ =>
      { store := destroyed.store,
        result := Except.ok { status := 204, location := none, body := JsVal.undefined } }

/-! ## The validator over another table of schemas -/

/-- The body of `validateFhirResource` with the table `table` where the
source reads `fhirSchemas`; `validateFhirResource` is the instance at
`fhirSchemas`. -/
def validateOver (table : List (String × Schema)) (resource : JsVal) :
    Except Thrown ValidationResult :=
  match readProp resource "resourceType" with
  | Except.error e => Except.error e
  | Except.ok resourceType =>
    if !truthy resourceType then
      Except.ok { valid := false, errors := ["Missing resourceType"], warnings := none }
    else
      match readSchema table resourceType.toJsString with
      | SchemaRead.undefined =>
        Except.ok
          { valid := true, errors := [],
            warnings := some ["No validation schema defined for " ++ resourceType.toJsString] }
      | SchemaRead.inheritedFunction =>
        Except.error
          { cls := ErrorClass.Error, message := "schema must be object or boolean",
            statusCode := none, code := none }
      | SchemaRead.objectPrototype =>
        Except.ok { valid := true, errors := [], warnings := none }
      | SchemaRead.own schema =>
        match ajvErrors schema "" resource with
        | [] => Except.ok { valid := true, errors := [], warnings := none }
        | e :: es =>
          Except.ok { valid := false, errors := (e :: es).map renderError, warnings := none }

/-- The names that a descriptor declares under `properties`. -/
def Schema.declared : Schema → List String
  | Schema.mk _ _ _ _ _ properties _ => properties.map (fun kv => kv.1)

/-- The names that a descriptor lists under `required`. -/
def Schema.requiredNames : Schema → List String
  | Schema.mk _ _ _ _ required _ _ => required

/-- No resource id occurs twice: the primary key of `api_resources`. -/
def distinctResourceIds (s : Store) : Prop :=
  (s.api_resources.map (fun row => row.id)).Nodup

instance (s : Store) : Decidable (distinctResourceIds s) := by
  unfold distinctResourceIds
  infer_instance

/-! ## The text of a uuid -/

/-- A digit of the canonical text of a uuid: `0` to `9` and `a` to `f`. -/
def isLowerHexDigit (c : Char) : Bool :=
  ('0' ≤ c && c ≤ '9') || ('a' ≤ c && c ≤ 'f')

/-- What is left of `cs` after `n` such digits, when it starts with that
many. -/
def dropHexDigits : Nat → List Char → Option (List Char)
  | 0, cs => some cs
  | _ + 1, [] => none
  | n + 1, c :: cs => if isLowerHexDigit c then dropHexDigits n cs else none

/-- What is left of `cs` after a hyphen, when it starts with one. -/
def dropHyphen : List Char → Option (List Char)
  | '-' :: cs => some cs
  | _ => none

/-- Whether `text` is the canonical text of a uuid, the form in which the
storage engine writes the ids it draws with `gen_random_uuid()`: groups of 8,
4, 4, 4 and 12 hexadecimal digits in lower case, with hyphens between them. -/
def isUuid (text : String) : Bool :=
  match
    ((((((((dropHexDigits 8 text.toList).bind dropHyphen).bind (dropHexDigits 4)).bind
      dropHyphen).bind (dropHexDigits 4)).bind dropHyphen).bind (dropHexDigits 4)).bind
      dropHyphen).bind (dropHexDigits 12) with
  | some [] => true
  | _ => false

/-! ## Sample data for the routes -/

/-- A uuid that no row of `emptyStore` has. -/
def missingId : String :=
  "0f9d1c2e-5b7a-4c3d-9e8f-000000000404"

/-- A draw of the storage engine. -/
def uuidDraw : Draw :=
  { uuid := "0f9d1c2e-5b7a-4c3d-9e8f-000000000001", now := "2024-03-01T00:00:00Z" }

/-- A storage fault with a message of its own. -/
def connectionFault : Thrown :=
  postgrestError "08006" "connection to server at 10.0.0.5 failed"

/-- A Patient body that the validator accepts. -/
def patientBody : Obj :=
  [ ("resourceType", JsVal.str "Patient"), ("gender", JsVal.str "male") ]

/-- The namespace row of `sampleStore`. -/
def patientNamespace : ApiNamespace :=
  { id := "ns-patient", name := "Patient", version := "1",
    properties := [("resource_type", JsVal.str "fhir")],
    created_at := "2024-01-01T00:00:00Z", updated_at := "2024-01-01T00:00:00Z" }

/-! ## Objects: lookups after `defineProp`, spread and rest -/

theorem lookupOwn_defineProp (o : Obj) (k : String) (v : JsVal) (k' : String) :
    lookupOwn (defineProp o k v) k' = if k = k' then some v else lookupOwn o k' := by
  induction o with
  | nil => simp [defineProp, lookupOwn]
  | cons kv rest ih =>
    obtain ⟨k0, v0⟩ := kv
    by_cases h0 : k0 = k
    · by_cases h1 : k = k'
      · simp [defineProp, lookupOwn, h0, h1]
      · have h2 : ¬ k0 = k' := fun e => h1 (h0 ▸ e)
        simp [defineProp, lookupOwn, h0, h1]
    · by_cases h1 : k0 = k'
      · subst h1
        have h2 : ¬ k = k0 := fun e => h0 e.symm
        simp [defineProp, lookupOwn, h0, h2]
      · simp [defineProp, lookupOwn, h0, h1, ih]

theorem lookupOwn_eq_none_of_not_mem (o : Obj) (k : String)
    (h : k ∉ o.map (fun kv => kv.1)) : lookupOwn o k = none := by
  induction o with
  | nil => rfl
  | cons kv rest ih =>
    obtain ⟨k0, v0⟩ := kv
    simp only [List.map_cons, List.mem_cons, not_or] at h
    have h0 : ¬ k0 = k := fun e => h.1 e.symm
    simp [lookupOwn, h0, ih h.2]

theorem lookupOwn_spreadInto (source : Obj) (hd : distinctKeys source) (target : Obj)
    (k : String) :
    lookupOwn (spreadInto target source) k =
      match lookupOwn source k with
      | some v => some v
      | none => lookupOwn target k := by
  induction source generalizing target with
  | nil => simp [spreadInto, lookupOwn]
  | cons kv rest ih =>
    obtain ⟨k0, v0⟩ := kv
    have hd' : (k0 ∉ rest.map (fun kv => kv.1)) ∧ distinctKeys rest := by
      simpa [distinctKeys] using hd
    rw [spreadInto, ih hd'.2, lookupOwn_defineProp]
    by_cases h0 : k0 = k
    · subst h0
      simp [lookupOwn, lookupOwn_eq_none_of_not_mem rest k0 hd'.1]
    · simp [lookupOwn, h0]

theorem lookupOwn_restWithout (excluded : List String) (o : Obj) (k : String) :
    lookupOwn (restWithout excluded o) k =
      if k ∈ excluded then none else lookupOwn o k := by
  induction o with
  | nil => simp [restWithout, lookupOwn]
  | cons kv rest ih =>
    obtain ⟨k0, v0⟩ := kv
    simp only [restWithout] at ih ⊢
    by_cases hex : k0 ∈ excluded
    · by_cases h0 : k0 = k
      · subst h0
        simp [List.filter, hex, lookupOwn, ih]
      · simp [List.filter, hex, lookupOwn, ih, h0]
    · by_cases h0 : k0 = k
      · subst h0
        simp [List.filter, hex, lookupOwn]
      · simp [List.filter, hex, lookupOwn, ih, h0]

theorem distinctKeys_restWithout (excluded : List String) (o : Obj) (hd : distinctKeys o) :
    distinctKeys (restWithout excluded o) := by
  unfold distinctKeys restWithout at *
  exact (List.Nodup.sublist ((List.filter_sublist o).map _) hd)

/-! ## The wire conversion and the merge-update -/

theorem resourceType_present_of_accepted (x : Obj) (v : ValidationResult)
    (hacc : validateFhirResource (JsVal.obj x) = Except.ok v) (hvalid : v.valid = true) :
    ∃ w, lookupOwn x "resourceType" = some w := by
  cases hlook : lookupOwn x "resourceType" with
  | some w => exact ⟨w, rfl⟩
  | none =>
    have hv : v = { valid := false, errors := ["Missing resourceType"], warnings := none } := by
      simp [validateFhirResource, readProp, getProp, hlook, truthy] at hacc
      exact hacc.symm
    rw [hv] at hvalid
    cases hvalid

/-- C1: for every wire record `x` (an object, so with distinct keys) that
`validateFhirResource` accepts, and every resource `r` whose properties are
`ApiResource.fromFhir(x, ns).properties`, `r.toFhir()` has the same keys and
values as `x` on every key other than `id` and `meta`. -/
theorem toFhir_fromFhir_roundtrip (x : Obj) (ns : String) (r : ApiResource)
    (v : ValidationResult) (hx : distinctKeys x)
    (hacc : validateFhirResource (JsVal.obj x) = Except.ok v) (hvalid : v.valid = true)
    (hr : r.properties = (ApiResource.fromFhir x ns).properties) (k : String)
    (hid : k ≠ "id") (hmeta : k ≠ "meta") :
    lookupOwn r.toFhir k = lookupOwn x k := by
  obtain ⟨w, hw⟩ := resourceType_present_of_accepted x v hacc hvalid
  have hprops : lookupOwn r.properties k = lookupOwn x k := by
    rw [hr]
    simp [ApiResource.fromFhir, lookupOwn_restWithout, hid, hmeta]
  have hdist : distinctKeys r.properties := by
    rw [hr]
    exact distinctKeys_restWithout _ x hx
  unfold ApiResource.toFhir
  rw [lookupOwn_spreadInto r.properties hdist, hprops]
  cases hk : lookupOwn x k with
  | some u => rfl
  | none =>
    have hrt : ¬ "resourceType" = k := by
      intro e
      rw [← e, hw] at hk
      cases hk
    have h1 : ¬ "id" = k := fun e => hid e.symm
    have h2 : ¬ "meta" = k := fun e => hmeta e.symm
    simp [lookupOwn, hrt, h1, h2]

/-- Witness of C1 at `samplePatient`, stored as `sampleResource`. -/
theorem toFhir_fromFhir_roundtrip_witness :
    distinctKeys samplePatient ∧
    sampleResource.properties = (ApiResource.fromFhir samplePatient "ns-patient").properties ∧
    lookupOwn sampleResource.toFhir "gender" = lookupOwn samplePatient "gender" :=
  ⟨by decide, rfl,
    toFhir_fromFhir_roundtrip samplePatient "ns-patient" sampleResource
      { valid := true, errors := [], warnings := none } (by decide) rfl rfl rfl "gender"
      (by decide) (by decide)⟩

/-- C2: `ApiResource.update` writes the shallow merge `m` of the stored
properties `old` and the payload `p`: `m[k]` is `p[k]` when `k` is a key of
`p` and `old[k]` otherwise, and `m` has no other key.  Every row with the id of
the resource gets `m`, the other rows are left alone, the returned instance
holds `m`, and the call returns when the resource is stored once.  Updating
`{a:0,b:2}` with `{a:1}` gives `{a:1,b:2}`. -/
theorem update_shallow_merge (s : Store) (now : String) (self : ApiResource) (p : JsVal)
    (hold : distinctKeys self.properties) (hp : distinctKeys (ownEnumerable p)) :
    (∀ k, lookupOwn (self.mergedProperties p) k =
      match lookupOwn (ownEnumerable p) k with
      | some v => some v
      | none => lookupOwn self.properties k) ∧
    ((self.update s now p).store.api_resources =
      s.api_resources.map (fun row =>
        if row.id = self.id then
          { row with properties := self.mergedProperties p, updated_at := now }
        else row)) ∧
    (∀ r, (self.update s now p).result = Except.ok r →
      r.properties = self.mergedProperties p) ∧
    ((s.api_resources.filter (fun row => row.id = self.id)).length = 1 →
      ∃ r, (self.update s now p).result = Except.ok r) ∧
    mergeTarget.mergedProperties (JsVal.obj [("a", JsVal.num 1)]) =
      [("a", JsVal.num 1), ("b", JsVal.num 2)] := by
  refine ⟨?_, rfl, ?_, ?_, rfl⟩
  · intro k
    unfold ApiResource.mergedProperties
    rw [lookupOwn_spreadInto _ hp, lookupOwn_spreadInto _ hold]
    cases lookupOwn (ownEnumerable p) k with
    | some v => rfl
    | none =>
      cases lookupOwn self.properties k with
      | some u => rfl
      | none => rfl
  · intro r hres
    simp only [ApiResource.update] at hres
    generalize hrows :
      List.filter (fun row => decide (row.id = self.id))
        (List.map (fun row =>
          if row.id = self.id then
            { row with properties := self.mergedProperties p, updated_at := now }
          else row) s.api_resources) = rows at hres
    match rows, hrows, hres with
    | [row], hrows, hres =>
      simp only [single] at hres
      have hmem : row ∈ List.filter (fun row => decide (row.id = self.id))
          (List.map (fun row =>
            if row.id = self.id then
              { row with properties := self.mergedProperties p, updated_at := now }
            else row) s.api_resources) := by
        rw [hrows]
        exact List.mem_singleton.mpr rfl
      rw [List.mem_filter, List.mem_map] at hmem
      obtain ⟨⟨orig, _, horig⟩, hid⟩ := hmem
      have hrow : r = row := by
        injection hres with h
        exact h.symm
      subst hrow
      by_cases hc : orig.id = self.id
      · rw [if_pos hc] at horig
        rw [← horig]
      · rw [if_neg hc] at horig
        subst horig
        simp at hid
        exact absurd hid hc
    | [], _, hres => simp [single] at hres
    | _ :: _ :: _, _, hres => simp [single] at hres
  · intro hlen
    simp only [ApiResource.update]
    have hfilter : ∀ rows : List ApiResource,
        (List.filter (fun row => decide (row.id = self.id))
          (List.map (fun row =>
            if row.id = self.id then
              { row with properties := self.mergedProperties p, updated_at := now }
            else row) rows)).length =
        (List.filter (fun row => decide (row.id = self.id)) rows).length := by
      intro rows
      induction rows with
      | nil => rfl
      | cons a t ih =>
        by_cases hc : a.id = self.id
        · simp [List.filter, hc, ih]
        · simp [List.filter, hc, ih]
    have hlen' := (hfilter s.api_resources).trans hlen
    generalize List.filter (fun row => decide (row.id = self.id))
        (List.map (fun row =>
          if row.id = self.id then
            { row with properties := self.mergedProperties p, updated_at := now }
          else row) s.api_resources) = rows at hlen'
    match rows, hlen' with
    | [row], _ => exact ⟨row, rfl⟩
    | [], h => simp at h
    | _ :: _ :: _, h => simp at h

/-- Witness of C2: the resource `{a:0,b:2}` of `sampleStore`, updated with
`{a:1}`. -/
theorem update_shallow_merge_witness :
    distinctKeys mergeTarget.properties ∧
    lookupOwn (mergeTarget.mergedProperties (JsVal.obj [("a", JsVal.num 1)])) "b" =
      lookupOwn mergeTarget.properties "b" :=
  ⟨by decide,
    (update_shallow_merge sampleStore "2024-02-01T00:00:00Z" mergeTarget
      (JsVal.obj [("a", JsVal.num 1)]) (by decide) (by decide)).1 "b"⟩

/-- C3, evaluated at `shadowedResource`: the stored `id` and `meta` keys
shadow the envelope, so the wire id is not the store id `r-3` and the wire
`meta` has neither version marker `1` nor `updated_at`. -/
theorem toFhir_envelope_shadowed :
    shadowedResource.id = "r-3" ∧
    lookupOwn shadowedResource.toFhir "id" = some (JsVal.str "someone-else") ∧
    lookupOwn shadowedResource.toFhir "meta" =
      some (JsVal.obj [("versionId", JsVal.str "7")]) :=
  ⟨rfl, rfl, rfl⟩

theorem toFhir_envelope_of_no_shadow (r : ApiResource) (hd : distinctKeys r.properties)
    (hid : lookupOwn r.properties "id" = none) (hmeta : lookupOwn r.properties "meta" = none) :
    lookupOwn r.toFhir "id" = some (JsVal.str r.id) ∧
    lookupOwn r.toFhir "meta" =
      some (JsVal.obj [("versionId", JsVal.str "1"), ("lastUpdated", JsVal.str r.updated_at)]) := by
  unfold ApiResource.toFhir
  rw [lookupOwn_spreadInto r.properties hd, lookupOwn_spreadInto r.properties hd, hid, hmeta]
  exact ⟨rfl, rfl⟩

/-- C4: `ApiResource.fromFhir(x, ns)` returns `api_namespace_id = ns` and
properties that have no `id` key and no `meta` key and otherwise exactly the
keys of `x` with the values of `x`, in the order of `x`. -/
theorem fromFhir_strips_envelope (x : Obj) (ns : String) :
    (ApiResource.fromFhir x ns).api_namespace_id = ns ∧
    (∀ k, lookupOwn (ApiResource.fromFhir x ns).properties k =
      if k = "id" ∨ k = "meta" then none else lookupOwn x k) ∧
    List.Sublist (ApiResource.fromFhir x ns).properties x := by
  refine ⟨rfl, ?_, ?_⟩
  · intro k
    simp [ApiResource.fromFhir, lookupOwn_restWithout]
  · exact List.filter_sublist x

/-! ## The validator reports every violation -/

theorem mem_requiredErrors (required : List String) (path : String) (o : Obj) (k : String)
    (hk : k ∈ required) (hmiss : definedProp o k = none) :
    ({ instancePath := path, keyword := "required",
       message := "must have required property '" ++ k ++ "'" } : ErrorObject) ∈
      requiredErrors required path o := by
  induction required with
  | nil => cases hk
  | cons k0 rest ih =>
    rw [requiredErrors]
    rcases List.mem_cons.mp hk with h | h
    · subst h
      rw [hmiss]
      simp
    · exact List.mem_append_right _ (ih h)

theorem mem_itemErrors (check : String → JsVal → List ErrorObject) (path : String)
    (xs : List JsVal) (i0 i : Nat) (w : JsVal) (e : ErrorObject)
    (hw : xs[i]? = some w) (he : e ∈ check (path ++ "/" ++ toString (i0 + i)) w) :
    e ∈ itemErrors check path i0 xs := by
  induction xs generalizing i0 i with
  | nil => simp at hw
  | cons x rest ih =>
    rw [itemErrors]
    cases i with
    | zero =>
      simp at hw
      subst hw
      exact List.mem_append_left _ (by simpa using he)
    | succ n =>
      simp at hw
      refine List.mem_append_right _ (ih (i0 + 1) n hw ?_)
      have : i0 + 1 + n = i0 + (n + 1) := by omega
      rw [this]
      exact he

theorem mem_ajvPropertiesErrors (properties : List (String × Schema)) (path : String)
    (o : Obj) (k : String) (sub : Schema) (w : JsVal) (e : ErrorObject)
    (hk : (k, sub) ∈ properties) (hw : definedProp o k = some w)
    (he : e ∈ ajvErrors sub (path ++ "/" ++ k) w) :
    e ∈ ajvPropertiesErrors properties path o := by
  induction properties with
  | nil => cases hk
  | cons kv rest ih =>
    obtain ⟨k0, s0⟩ := kv
    rw [ajvPropertiesErrors]
    rcases List.mem_cons.mp hk with h | h
    · injection h with h1 h2
      subst h1
      subst h2
      rw [hw]
      exact List.mem_append_left _ he
    · exact List.mem_append_right _ (ih h)

theorem mem_ajvErrors_of_violates (S : Schema) (path : String) (data : JsVal)
    (e : ErrorObject) (h : Violates S path data e) : e ∈ ajvErrors S path data := by
  induction h with
  | type t const enum pattern required properties items path data ht =>
    simp only [ajvErrors]
    simp [ht]
  | const type c enum pattern required properties items path data hc =>
    simp only [ajvErrors]
    simp [hc]
  | enum type const allowed pattern required properties items path data hall =>
    simp only [ajvErrors]
    have : allowed.any (fun a => strictEqStr data a) = false := by
      rw [List.any_eq_false]
      intro a ha
      simp [hall a ha]
    simp [this]
  | pattern type const enum p required properties items path text hp =>
    simp only [ajvErrors]
    simp [hp]
  | required type const enum pattern required properties items path o k hk hmiss =>
    simp only [ajvErrors]
    have := mem_requiredErrors required path o k hk hmiss
    simp [this]
  | property type const enum pattern required properties items path o k sub w e hk hw _ ih =>
    simp only [ajvErrors]
    have := mem_ajvPropertiesErrors properties path o k sub w e hk hw ih
    simp [this]
  | item type const enum pattern required properties sub path xs i w e hw _ ih =>
    simp only [ajvErrors]
    have : e ∈ ajvItemsErrors (some sub) path xs := by
      rw [ajvItemsErrors]
      exact mem_itemErrors _ path xs 0 i w e hw (by simpa using ih)
    simp [this]

theorem readSchema_of_findSchema (T : String) (S : Schema)
    (hT : findSchema fhirSchemas T = some S) : readSchema fhirSchemas T = SchemaRead.own S := by
  simp [readSchema, hT]

theorem registered_ne_empty (T : String) (S : Schema)
    (hT : findSchema fhirSchemas T = some S) : T ≠ "" := by
  intro h
  subst h
  simp [findSchema, fhirSchemas] at hT

theorem validateFhirResource_registered (T : String) (S : Schema) (o : Obj)
    (hT : findSchema fhirSchemas T = some S)
    (hrt : lookupOwn o "resourceType" = some (JsVal.str T)) :
    validateFhirResource (JsVal.obj o) =
      match ajvErrors S "" (JsVal.obj o) with
      | [] => Except.ok { valid := true, errors := [], warnings := none }
      | e :: es =>
        Except.ok { valid := false, errors := (e :: es).map renderError, warnings := none } := by
  have hne := registered_ne_empty T S hT
  simp [validateFhirResource, readProp, getProp, hrt, truthy, hne, JsVal.toJsString,
    readSchema_of_findSchema T S hT]

/-- C5: a record of a registered type that violates two different constraints
of its schema is rejected (`valid = false`) and the errors list holds a
separate entry for each of the two, each entry being the path of the value or
object that the violated constraint is about, a blank, and the message of the
constraint (which names the field when a required field is missing). -/
theorem validation_reports_each_violation (T : String) (S : Schema) (o : Obj)
    (e1 e2 : ErrorObject)
    (hT : findSchema fhirSchemas T = some S)
    (hrt : lookupOwn o "resourceType" = some (JsVal.str T))
    (h1 : Violates S "" (JsVal.obj o) e1) (h2 : Violates S "" (JsVal.obj o) e2)
    (hne : e1 ≠ e2) :
    ∃ errors : List String,
      validateFhirResource (JsVal.obj o) =
        Except.ok { valid := false, errors := errors, warnings := none } ∧
      ∃ i j : Nat, i ≠ j ∧
        errors[i]? = some (e1.instancePath ++ " " ++ e1.message) ∧
        errors[j]? = some (e2.instancePath ++ " " ++ e2.message) := by
  have hm1 := mem_ajvErrors_of_violates S "" (JsVal.obj o) e1 h1
  have hm2 := mem_ajvErrors_of_violates S "" (JsVal.obj o) e2 h2
  rw [validateFhirResource_registered T S o hT hrt]
  generalize ajvErrors S "" (JsVal.obj o) = errs at hm1 hm2
  match errs, hm1, hm2 with
  | [], hm1, _ => cases hm1
  | e :: es, hm1, hm2 =>
    refine ⟨(e :: es).map renderError, rfl, ?_⟩
    obtain ⟨i, hi⟩ := List.getElem?_of_mem hm1
    obtain ⟨j, hj⟩ := List.getElem?_of_mem hm2
    refine ⟨i, j, ?_, ?_, ?_⟩
    · intro hij
      subst hij
      rw [hi] at hj
      injection hj with hj
      exact hne hj
    · rw [List.getElem?_map, hi]
      rfl
    · rw [List.getElem?_map, hj]
      rfl

/-- Witness of C5: the Observation whose status is outside the enumeration and
that has no `code` field gets the two entries. -/
theorem validation_reports_each_violation_witness :
    ∃ errors : List String,
      validateFhirResource (JsVal.obj badObservation) =
        Except.ok { valid := false, errors := errors, warnings := none } ∧
      ∃ i j : Nat, i ≠ j ∧
        errors[i]? = some ("/status" ++ " " ++ "must be equal to one of the allowed values") ∧
        errors[j]? = some ("" ++ " " ++ "must have required property 'code'") :=
  validation_reports_each_violation "Observation" observationSchema badObservation
    { instancePath := "/status", keyword := "enum",
      message := "must be equal to one of the allowed values" }
    { instancePath := "", keyword := "required",
      message := "must have required property 'code'" }
    rfl rfl
    (Violates.property _ _ _ _ _ _ _ "" badObservation "status"
      (Schema.stringEnum
        ["registered", "preliminary", "final", "amended", "corrected", "cancelled",
          "entered-in-error", "unknown"])
      (JsVal.str "done") _
      (List.mem_cons_of_mem _ (List.mem_cons_self _ _)) rfl
      (Violates.enum (some JType.string) none
        ["registered", "preliminary", "final", "amended", "corrected", "cancelled",
          "entered-in-error", "unknown"]
        none [] [] none _ _ (by decide)))
    (Violates.required _ _ _ _ _ _ _ "" badObservation "code" (by decide) rfl)
    (by decide)

/-! ## Acceptance is satisfaction of the descriptor -/

/-- C6, evaluated at `{ resourceType: 'constructor' }`: no schema is
registered under that name, yet `fhirSchemas['constructor']` is the inherited
`Object` function, so the branch of the warning is skipped and compiling the
function throws. -/
theorem validateFhirResource_inherited_name :
    findSchema fhirSchemas "constructor" = none ∧
    validateFhirResource (JsVal.obj [("resourceType", JsVal.str "constructor")]) =
      Except.error
        { cls := ErrorClass.Error, message := "schema must be object or boolean",
          statusCode := none, code := none } :=
  ⟨rfl, rfl⟩

theorem validateFhirResource_no_schema (o : Obj) (T : String)
    (hrt : lookupOwn o "resourceType" = some (JsVal.str T)) (hT : T ≠ "")
    (hread : readSchema fhirSchemas T = SchemaRead.undefined) :
    validateFhirResource (JsVal.obj o) =
      Except.ok
        { valid := true, errors := [],
          warnings := some ["No validation schema defined for " ++ T] } := by
  simp [validateFhirResource, readProp, getProp, hrt, truthy, hT, JsVal.toJsString, hread]

theorem requiredErrors_eq_nil_iff (required : List String) (path : String) (o : Obj) :
    requiredErrors required path o = [] ↔
      required.all (fun k => (definedProp o k).isSome) = true := by
  induction required with
  | nil => simp [requiredErrors]
  | cons k rest ih =>
    rw [requiredErrors, List.append_eq_nil, ih]
    cases h : definedProp o k <;> simp [h]

theorem itemErrors_eq_nil_iff (check : String → JsVal → List ErrorObject)
    (holds : JsVal → Bool) (hcheck : ∀ path x, check path x = [] ↔ holds x = true)
    (path : String) (i : Nat) (xs : List JsVal) :
    itemErrors check path i xs = [] ↔ xs.all holds = true := by
  induction xs generalizing i with
  | nil => simp [itemErrors]
  | cons x rest ih =>
    rw [itemErrors, List.append_eq_nil, ih, hcheck]
    simp

mutual
theorem ajvErrors_eq_nil_iff : ∀ (S : Schema) (path : String) (data : JsVal),
    ajvErrors S path data = [] ↔ S.satisfiedBy data = true
  | Schema.mk type const enum pattern required properties items, path, data => by
    have hp := ajvPropertiesErrors_eq_nil_iff properties path
    have hi := ajvItemsErrors_eq_nil_iff items path
    simp only [ajvErrors, Schema.satisfiedBy, List.append_eq_nil, Bool.and_eq_true]
    refine and_congr (and_congr (and_congr ?_ ?_) ?_) ?_
    · cases type with
      | none => simp
      | some t => cases hasType t data <;> simp
    · cases const with
      | none => simp
      | some c => cases strictEqStr data c <;> simp
    · cases enum with
      | none => simp
      | some allowed => cases h : allowed.any (fun a => strictEqStr data a) <;> simp [h]
    · cases data with
      | str s =>
        cases pattern with
        | none => simp
        | some p => cases p.test s <;> simp
      | arr xs => exact hi xs
      | obj o =>
        simp only [List.append_eq_nil, Bool.and_eq_true]
        exact and_congr (requiredErrors_eq_nil_iff required path o) (hp o)
      | undefined => simp
      | null => simp
      | bool b => simp
      | num n => simp
termination_by structural S => S
theorem ajvPropertiesErrors_eq_nil_iff : ∀ (properties : List (String × Schema))
    (path : String) (o : Obj),
    ajvPropertiesErrors properties path o = [] ↔ fieldsSatisfy properties o = true
  | [], path, o => by simp [ajvPropertiesErrors, fieldsSatisfy]
  | (k, s) :: rest, path, o => by
    have hs := ajvErrors_eq_nil_iff s (path ++ "/" ++ k)
    have hr := ajvPropertiesErrors_eq_nil_iff rest path o
    simp only [ajvPropertiesErrors, fieldsSatisfy, List.append_eq_nil, Bool.and_eq_true]
    refine and_congr ?_ hr
    cases definedProp o k with
    | none => simp
    | some w => exact hs w
termination_by structural properties => properties
theorem ajvItemsErrors_eq_nil_iff : ∀ (items : Option Schema) (path : String)
    (xs : List JsVal),
    ajvItemsErrors items path xs = [] ↔ itemsSatisfy items xs = true
  | none, path, xs => by simp [ajvItemsErrors, itemsSatisfy]
  | some s, path, xs => by
    have hs := ajvErrors_eq_nil_iff s
    simp only [ajvItemsErrors, itemsSatisfy]
    exact itemErrors_eq_nil_iff (ajvErrors s) (fun x => s.satisfiedBy x) hs path 0 xs
termination_by structural items => items
end

theorem fullMatch_none (cs : List Char) : RegEx.none.fullMatch cs = false := by
  induction cs with
  | nil => rfl
  | cons c cs ih => simpa [RegEx.fullMatch, RegEx.deriv] using ih

theorem fullMatch_alt (a b : RegEx) (cs : List Char) :
    (RegEx.alt a b).fullMatch cs = (a.fullMatch cs || b.fullMatch cs) := by
  induction cs generalizing a b with
  | nil => rfl
  | cons c cs ih => simp [RegEx.fullMatch, RegEx.deriv, ih]

theorem fullMatch_seq_none (r : RegEx) (cs : List Char) :
    (RegEx.seq RegEx.none r).fullMatch cs = false := by
  induction cs with
  | nil => rfl
  | cons c cs ih => simpa [RegEx.fullMatch, RegEx.deriv, RegEx.nullable] using ih

theorem fullMatch_seq_eps (r : RegEx) (cs : List Char) :
    (RegEx.seq RegEx.eps r).fullMatch cs = r.fullMatch cs := by
  cases cs with
  | nil => simp [RegEx.fullMatch, RegEx.nullable]
  | cons c cs =>
    simp [RegEx.fullMatch, RegEx.deriv, RegEx.nullable, fullMatch_alt, fullMatch_seq_none]

theorem fullMatch_eps (cs : List Char) : RegEx.eps.fullMatch cs = cs.isEmpty := by
  cases cs with
  | nil => rfl
  | cons c cs => simp [RegEx.fullMatch, RegEx.deriv, fullMatch_none]

theorem fullMatch_seq_range_nil (lo hi : Char) (r : RegEx) :
    (RegEx.seq (RegEx.range lo hi) r).fullMatch [] = false := by
  simp [RegEx.fullMatch, RegEx.nullable]

theorem fullMatch_seq_range_cons (lo hi : Char) (r : RegEx) (c : Char) (cs : List Char) :
    (RegEx.seq (RegEx.range lo hi) r).fullMatch (c :: cs) =
      (decide (lo ≤ c ∧ c ≤ hi) && r.fullMatch cs) := by
  by_cases h : lo ≤ c ∧ c ≤ hi
  · simp [RegEx.fullMatch, RegEx.deriv, RegEx.nullable, h, fullMatch_seq_eps]
  · simp [RegEx.fullMatch, RegEx.deriv, RegEx.nullable, h, fullMatch_seq_none]

theorem fullMatch_range_nil (lo hi : Char) : (RegEx.range lo hi).fullMatch [] = false :=
  rfl

theorem fullMatch_range_cons (lo hi : Char) (c : Char) (cs : List Char) :
    (RegEx.range lo hi).fullMatch (c :: cs) = (decide (lo ≤ c ∧ c ≤ hi) && cs.isEmpty) := by
  by_cases h : lo ≤ c ∧ c ≤ hi
  · simp [RegEx.fullMatch, RegEx.deriv, h, fullMatch_eps]
  · simp [RegEx.fullMatch, RegEx.deriv, h, fullMatch_none]

theorem between_dashes_iff (c : Char) : ('-' ≤ c ∧ c ≤ '-') ↔ c = '-' :=
  ⟨fun h => le_antisymm h.2 h.1, fun h => by subst h; exact ⟨le_refl _, le_refl _⟩⟩

theorem birthDatePattern_fullMatch (cs : List Char) :
    birthDatePattern.body.fullMatch cs = isDateText cs := by
  simp only [birthDatePattern, RegEx.opt, RegEx.char, RegEx.digit]
  rcases cs with _ | ⟨c1, _ | ⟨c2, _ | ⟨c3, _ | ⟨c4, _ | ⟨c5, _ | ⟨c6, _ | ⟨c7, _ | ⟨c8,
    _ | ⟨c9, _ | ⟨c10, _ | ⟨c11, cs⟩⟩⟩⟩⟩⟩⟩⟩⟩⟩⟩ <;>
    simp [fullMatch_seq_range_cons, fullMatch_seq_range_nil, fullMatch_alt, fullMatch_eps,
      fullMatch_range_cons, fullMatch_range_nil, isDateText, isDigitChar, between_dashes_iff,
      Bool.and_assoc]

/-- C7: for a record whose `resourceType` is a registered type,
`validateFhirResource` returns, and `valid` is true exactly when the record
satisfies the descriptor of that type (required fields present, declared
fields of their declared type, enumerated values listed, patterns matched,
declared items and nested objects satisfying their own descriptors); the
pattern of `Patient.birthDate` accepts exactly `YYYY`, `YYYY-MM` and
`YYYY-MM-DD` in digits. -/
theorem validateFhirResource_valid_iff_satisfied (T : String) (S : Schema) (o : Obj)
    (hT : findSchema fhirSchemas T = some S)
    (hrt : lookupOwn o "resourceType" = some (JsVal.str T)) :
    (∃ r, validateFhirResource (JsVal.obj o) = Except.ok r ∧
      (r.valid = true ↔ S.satisfiedBy (JsVal.obj o) = true)) ∧
    (∀ text : String, birthDatePattern.test text = isDateText text.toList) := by
  refine ⟨?_, fun text => birthDatePattern_fullMatch text.toList⟩
  rw [validateFhirResource_registered T S o hT hrt]
  have hiff := ajvErrors_eq_nil_iff S "" (JsVal.obj o)
  cases herrs : ajvErrors S "" (JsVal.obj o) with
  | nil =>
    refine ⟨_, rfl, ?_⟩
    rw [herrs] at hiff
    simp [hiff.mp rfl]
  | cons e es =>
    refine ⟨_, rfl, ?_⟩
    rw [herrs] at hiff
    constructor
    · intro h
      cases h
    · intro h
      exact absurd (hiff.mpr h) (by simp)

/-- Witness of C7 at the Patient record `samplePatient`. -/
theorem validateFhirResource_valid_iff_satisfied_witness :
    (∃ r, validateFhirResource (JsVal.obj samplePatient) = Except.ok r ∧
      (r.valid = true ↔ patientSchema.satisfiedBy (JsVal.obj samplePatient) = true)) ∧
    (∀ text : String, birthDatePattern.test text = isDateText text.toList) :=
  validateFhirResource_valid_iff_satisfied "Patient" patientSchema samplePatient rfl rfl

/-! ## The create and update handlers -/

theorem strictEqStr_eq_true (v : JsVal) (T : String) :
    strictEqStr v T = true ↔ v = JsVal.str T := by
  cases v <;> simp [strictEqStr]

theorem body_of_type_match (body : JsVal) (T : String) (v : JsVal)
    (h1 : readProp body "resourceType" = Except.ok v) (h2 : strictEqStr v T = true) :
    ∃ o, body = JsVal.obj o ∧ lookupOwn o "resourceType" = some (JsVal.str T) := by
  rw [strictEqStr_eq_true] at h2
  subst h2
  cases body with
  | obj o =>
    refine ⟨o, rfl, ?_⟩
    simp only [readProp, getProp] at h1
    cases hl : lookupOwn o "resourceType" with
    | none => rw [hl] at h1; simp at h1
    | some w =>
      rw [hl] at h1
      simp at h1
      rw [h1]
  | undefined => simp [readProp] at h1
  | null => simp [readProp] at h1
  | bool b => simp [readProp] at h1
  | num n => simp [readProp] at h1
  | str t => simp [readProp] at h1
  | arr xs => simp [readProp] at h1

theorem maybeSingle_some {α : Type} (rows : List α) (row : α)
    (h : maybeSingle rows = Except.ok (some row)) : rows = [row] := by
  match rows, h with
  | [r], h =>
    simp [maybeSingle] at h
    rw [h]
  | [], h => simp [maybeSingle] at h
  | _ :: _ :: _, h => simp [maybeSingle] at h

theorem maybeSingle_none {α : Type} (rows : List α)
    (h : maybeSingle rows = Except.ok none) : rows = [] := by
  match rows, h with
  | [r], h => simp [maybeSingle] at h
  | [], _ => rfl
  | _ :: _ :: _, h => simp [maybeSingle] at h

theorem findByName_some (s : Store) (T : String) (ns : ApiNamespace)
    (h : ApiNamespace.findByName s T = Except.ok (some ns)) :
    ∃ row, row ∈ s.api_namespaces ∧ row.name = T ∧ row.id = ns.id := by
  unfold ApiNamespace.findByName at h
  cases hm : maybeSingle (s.api_namespaces.filter (fun row => row.name = T)) with
  | error e => rw [hm] at h; simp at h
  | ok data =>
    rw [hm] at h
    cases data with
    | none => simp at h
    | some row =>
      simp at h
      have hrows := maybeSingle_some _ _ hm
      have hmem : row ∈ s.api_namespaces.filter (fun row => row.name = T) := by
        rw [hrows]
        exact List.mem_singleton.mpr rfl
      rw [List.mem_filter] at hmem
      refine ⟨row, hmem.1, by simpa using hmem.2, ?_⟩
      rw [← h]
      rfl

theorem postResource_accepted (draws : CreateDraws) (s : Store) (T : String) (body : JsVal)
    (resp : Response) (h : (postResource draws s T body).result = Except.ok resp) :
    ∃ o nsRow, body = JsVal.obj o ∧ lookupOwn o "resourceType" = some (JsVal.str T) ∧
      nsRow ∈ (postResource draws s T body).store.api_namespaces ∧ nsRow.name = T ∧
      ((postResource draws s T body).store.api_namespaces = s.api_namespaces ∨
        ((postResource draws s T body).store.api_namespaces = s.api_namespaces ++ [nsRow] ∧
          ∀ r, r ∈ s.api_namespaces → r.id ≠ nsRow.id)) ∧
      (postResource draws s T body).store.api_resources =
        s.api_resources ++
          [{ id := draws.resourceRow.uuid, api_namespace_id := nsRow.id,
             properties := restWithout ["id", "meta"] o,
             created_at := draws.resourceRow.now, updated_at := draws.resourceRow.now }] := by
  cases hread : readProp body "resourceType" with
  | error e => simp [postResource, hread] at h
  | ok bodyType =>
    cases hmatch : strictEqStr bodyType T with
    | false => simp [postResource, hread, hmatch] at h
    | true =>
      obtain ⟨o, hbody, hrt⟩ := body_of_type_match body T bodyType hread hmatch
      subst hbody
      cases hval : validateFhirResource (JsVal.obj o) with
      | error e => simp [postResource, hread, hmatch, hval] at h
      | ok validation =>
        cases hvalid : validation.valid with
        | false => simp [postResource, hread, hmatch, hval, hvalid] at h
        | true =>
          cases hfind : ApiNamespace.findByName s T with
          | error e => simp [postResource, hread, hmatch, hval, hvalid, hfind] at h
          | ok found =>
            cases found with
            | some ns =>
              obtain ⟨row, hrow, hname, hid⟩ := findByName_some s T ns hfind
              have hfk : s.api_namespaces.any (fun r => decide (r.id = ns.id)) = true := by
                rw [List.any_eq_true]
                exact ⟨row, hrow, by simp [hid]⟩
              cases hpk : s.api_resources.any
                  (fun r => decide (r.id = draws.resourceRow.uuid)) with
              | true =>
                simp [postResource, hread, hmatch, hval, hvalid, hfind, ApiResource.create,
                  hfk, hpk] at h
              | false =>
                refine ⟨o, row, rfl, hrt, ?_, hname, ?_, ?_⟩
                · simpa [postResource, hread, hmatch, hval, hvalid, hfind, ApiResource.create,
                    hfk, hpk] using hrow
                · left
                  simp [postResource, hread, hmatch, hval, hvalid, hfind, ApiResource.create,
                    hfk, hpk]
                · simp [postResource, hread, hmatch, hval, hvalid, hfind, ApiResource.create,
                    hfk, hpk, ownEnumerable, hid]
            | none =>
              cases hdup : s.api_namespaces.any
                  (fun r => decide (r.name = T) || decide (r.id = draws.namespaceRow.uuid)) with
              | true =>
                simp [postResource, hread, hmatch, hval, hvalid, hfind, ApiNamespace.create,
                  hdup] at h
              | false =>
                cases hpk : s.api_resources.any
                    (fun r => decide (r.id = draws.resourceRow.uuid)) with
                | true =>
                  simp [postResource, hread, hmatch, hval, hvalid, hfind, ApiNamespace.create,
                    hdup, ApiResource.create, ApiNamespace.new, hpk] at h
                | false =>
                  refine ⟨o,
                    { id := draws.namespaceRow.uuid, name := T, version := "1",
                      properties :=
                        [("resource_type", JsVal.str "fhir"), ("fhir_version", JsVal.str "R4")],
                      created_at := draws.namespaceRow.now,
                      updated_at := draws.namespaceRow.now },
                    rfl, hrt, ?_, rfl, ?_, ?_⟩
                  · simp [postResource, hread, hmatch, hval, hvalid, hfind,
                      ApiNamespace.create, hdup, ApiResource.create, ApiNamespace.new, hpk]
                  · right
                    refine ⟨?_, ?_⟩
                    · simp [postResource, hread, hmatch, hval, hvalid, hfind,
                        ApiNamespace.create, hdup, ApiResource.create, ApiNamespace.new, hpk]
                    · intro r hr hid'
                      rw [List.any_eq_false] at hdup
                      have := hdup r hr
                      simp [hid'] at this
                  · simp [postResource, hread, hmatch, hval, hvalid, hfind,
                      ApiNamespace.create, hdup, ApiResource.create, ApiNamespace.new, hpk,
                      ownEnumerable]

theorem findById_some (s : Store) (id : String) (resource : ApiResource)
    (h : ApiResource.findById s id = Except.ok (some resource)) :
    resource ∈ s.api_resources ∧ resource.id = id := by
  unfold ApiResource.findById at h
  have hrows := maybeSingle_some _ _ h
  have hmem : resource ∈ s.api_resources.filter (fun row => row.id = id) := by
    rw [hrows]
    exact List.mem_singleton.mpr rfl
  rw [List.mem_filter] at hmem
  exact ⟨hmem.1, by simpa using hmem.2⟩

theorem single_error {α : Type} (rows : List α) (e : Thrown)
    (h : single rows = Except.error e) : e = notSingleRow := by
  match rows, h with
  | [r], h => simp [single] at h
  | [], h =>
    simp [single] at h
    exact h.symm
  | _ :: _ :: _, h =>
    simp [single] at h
    exact h.symm

theorem maybeSingle_error {α : Type} (rows : List α) (e : Thrown)
    (h : maybeSingle rows = Except.error e) : e = notSingleRow := by
  match rows, h with
  | [r], h => simp [maybeSingle] at h
  | [], h => simp [maybeSingle] at h
  | _ :: _ :: _, h =>
    simp [maybeSingle] at h
    exact h.symm

theorem putResource_accepted (now : String) (s : Store) (T : String) (id : String)
    (body : JsVal) (resp : Response)
    (h : (putResource now s T id body).result = Except.ok resp) :
    ∃ o resource, body = JsVal.obj o ∧ lookupOwn o "resourceType" = some (JsVal.str T) ∧
      resource ∈ s.api_resources ∧ resource.id = id ∧
      (putResource now s T id body).store.api_namespaces = s.api_namespaces ∧
      (putResource now s T id body).store.api_resources =
        s.api_resources.map (fun row =>
          if row.id = id then
            { row with
              properties :=
                resource.mergedProperties (JsVal.obj (restWithout ["id", "meta"] o)),
              updated_at := now }
          else row) := by
  cases hread : readProp body "resourceType" with
  | error e => simp [putResource, hread] at h
  | ok bodyType =>
    cases hmatch : strictEqStr bodyType T with
    | false => simp [putResource, hread, hmatch] at h
    | true =>
      obtain ⟨o, hbody, hrt⟩ := body_of_type_match body T bodyType hread hmatch
      subst hbody
      cases hval : validateFhirResource (JsVal.obj o) with
      | error e => simp [putResource, hread, hmatch, hval] at h
      | ok validation =>
        cases hvalid : validation.valid with
        | false => simp [putResource, hread, hmatch, hval, hvalid] at h
        | true =>
          cases hfind : ApiResource.findById s id with
          | error e => simp [putResource, hread, hmatch, hval, hvalid, hfind] at h
          | ok found =>
            cases found with
            | none => simp [putResource, hread, hmatch, hval, hvalid, hfind] at h
            | some resource =>
              obtain ⟨hmem, hid⟩ := findById_some s id resource hfind
              refine ⟨o, resource, rfl, hrt, hmem, hid, ?_, ?_⟩
              · simp only [putResource, hread, hmatch, hval, hvalid, hfind]
                cases (ApiResource.update s now resource
                  (JsVal.obj (restWithout ["id", "meta"] (ownEnumerable (JsVal.obj o))))).result <;>
                  rfl
              · simp only [putResource, hread, hmatch, hval, hvalid, hfind]
                cases (ApiResource.update s now resource
                  (JsVal.obj (restWithout ["id", "meta"] (ownEnumerable (JsVal.obj o))))).result <;>
                  simp [ApiResource.update, ownEnumerable, hid]

/-- C8, the claim as stated fails: `POST /fhir/Patient` creates a Patient
whose row satisfies the type invariant; `PUT /fhir/Observation/{id}` with the
id of that Patient and a valid Observation body is accepted with status 200,
and afterwards the row says `resourceType = Observation` while its namespace is
still the one named `Patient`. -/
theorem update_breaks_type_invariant :
    (∃ resp, patientCreated.result = Except.ok resp ∧ resp.status = 201) ∧
    (∀ row, row ∈ patientCreated.store.api_resources →
      typeInvariantAt patientCreated.store row) ∧
    (∃ resp, crossTypeUpdate.result = Except.ok resp ∧ resp.status = 200) ∧
    (∃ row, row ∈ crossTypeUpdate.store.api_resources ∧ row.id = "res-uuid-1" ∧
      ¬ typeInvariantAt crossTypeUpdate.store row) := by
  have hn : patientCreated.store.api_namespaces =
      [{ id := "ns-uuid-1", name := "Patient", version := "1",
         properties := [("resource_type", JsVal.str "fhir"), ("fhir_version", JsVal.str "R4")],
         created_at := "2024-03-01T10:00:00Z", updated_at := "2024-03-01T10:00:00Z" }] := rfl
  have hr : patientCreated.store.api_resources =
      [{ id := "res-uuid-1", api_namespace_id := "ns-uuid-1",
         properties := [("resourceType", JsVal.str "Patient"), ("gender", JsVal.str "female")],
         created_at := "2024-03-01T10:00:01Z", updated_at := "2024-03-01T10:00:01Z" }] := rfl
  have hn2 : crossTypeUpdate.store.api_namespaces = patientCreated.store.api_namespaces := rfl
  have hr2 : crossTypeUpdate.store.api_resources =
      [{ id := "res-uuid-1", api_namespace_id := "ns-uuid-1",
         properties :=
           [ ("resourceType", JsVal.str "Observation"), ("gender", JsVal.str "female"),
             ("status", JsVal.str "final"),
             ("code", JsVal.obj [("coding", JsVal.arr [])]) ],
         created_at := "2024-03-01T10:00:01Z", updated_at := "2024-03-02T09:00:00Z" }] := rfl
  refine ⟨⟨_, rfl, rfl⟩, ?_, ⟨_, rfl, rfl⟩, ?_⟩
  · intro row hrow ns hns hid
    rw [hr] at hrow
    rw [hn] at hns
    simp only [List.mem_singleton] at hrow hns
    subst hrow
    subst hns
    rfl
  · refine ⟨_, by rw [hr2]; exact List.mem_singleton.mpr rfl, rfl, ?_⟩
    intro hinv
    have := hinv
      { id := "ns-uuid-1", name := "Patient", version := "1",
        properties := [("resource_type", JsVal.str "fhir"), ("fhir_version", JsVal.str "R4")],
        created_at := "2024-03-01T10:00:00Z", updated_at := "2024-03-01T10:00:00Z" }
      (by rw [hn2, hn]; exact List.mem_singleton.mpr rfl) rfl
    simp [lookupOwn] at this

theorem eq_of_same_namespace_id (s : Store) (hids : distinctNamespaceIds s)
    (a b : ApiNamespace) (ha : a ∈ s.api_namespaces) (hb : b ∈ s.api_namespaces)
    (hab : a.id = b.id) : a = b :=
  List.inj_on_of_nodup_map hids ha hb hab

/-- C8 as amended: a create that the route accepts appends one resource whose
`properties.resourceType` is the path type, under a namespace of that name, so
the type invariant holds at the new row (namespace ids being distinct).  An
update that the route accepts leaves the namespaces alone, keeps the
`api_namespace_id` of the row with the path id and writes the path type as its
`resourceType` (the body being an object with distinct keys): the invariant
holds at the written row exactly when the namespace that owns it is named by
the path type, which the route does not check. -/
theorem fhir_write_type_invariant :
    (∀ (draws : CreateDraws) (s : Store) (T : String) (body : JsVal) (resp : Response),
      distinctNamespaceIds s →
      (postResource draws s T body).result = Except.ok resp →
      ∃ row, (postResource draws s T body).store.api_resources = s.api_resources ++ [row] ∧
        row.id = draws.resourceRow.uuid ∧
        (∃ ns, ns ∈ (postResource draws s T body).store.api_namespaces ∧
          ns.id = row.api_namespace_id ∧ ns.name = T) ∧
        typeInvariantAt (postResource draws s T body).store row) ∧
    (∀ (now : String) (s : Store) (T : String) (id : String) (body : JsVal) (resp : Response),
      distinctKeys (ownEnumerable body) →
      (putResource now s T id body).result = Except.ok resp →
      (putResource now s T id body).store.api_namespaces = s.api_namespaces ∧
      (∃ row, row ∈ (putResource now s T id body).store.api_resources ∧ row.id = id) ∧
      ∀ row, row ∈ (putResource now s T id body).store.api_resources → row.id = id →
        lookupOwn row.properties "resourceType" = some (JsVal.str T) ∧
        (∃ old, old ∈ s.api_resources ∧ old.id = id ∧
          old.api_namespace_id = row.api_namespace_id) ∧
        (typeInvariantAt (putResource now s T id body).store row ↔
          ∀ ns, ns ∈ s.api_namespaces → ns.id = row.api_namespace_id → ns.name = T)) := by
  constructor
  · intro draws s T body resp hids h
    obtain ⟨o, nsRow, _, hrt, hmem, hname, hns, hres⟩ := postResource_accepted draws s T body resp h
    refine ⟨_, hres, rfl, ⟨nsRow, hmem, rfl, hname⟩, ?_⟩
    intro ns hnsmem hid
    have hlook : lookupOwn (restWithout ["id", "meta"] o) "resourceType" =
        some (JsVal.str T) := by
      rw [lookupOwn_restWithout]
      simp [hrt]
    have hsame : ns = nsRow := by
      rcases hns with hsame | ⟨happ, hfresh⟩
      · rw [hsame] at hnsmem hmem
        exact eq_of_same_namespace_id s hids ns nsRow hnsmem hmem hid
      · rw [happ] at hnsmem
        rcases List.mem_append.mp hnsmem with hin | hin
        · exact absurd hid (hfresh ns hin)
        · exact List.mem_singleton.mp hin
    show lookupOwn (restWithout ["id", "meta"] o) "resourceType" = some (JsVal.str ns.name)
    rw [hlook, hsame, hname]
  · intro now s T id body resp hkeys h
    obtain ⟨o, resource, hbody, hrt, hmem, hid, hns, hres⟩ :=
      putResource_accepted now s T id body resp h
    subst hbody
    have hmerged : lookupOwn
        (resource.mergedProperties (JsVal.obj (restWithout ["id", "meta"] o)))
        "resourceType" = some (JsVal.str T) := by
      unfold ApiResource.mergedProperties
      have hd : distinctKeys (ownEnumerable (JsVal.obj (restWithout ["id", "meta"] o))) :=
        distinctKeys_restWithout _ o hkeys
      rw [lookupOwn_spreadInto _ hd]
      simp [ownEnumerable, lookupOwn_restWithout, hrt]
    refine ⟨hns, ?_, ?_⟩
    · rw [hres]
      refine ⟨_, List.mem_map.mpr ⟨resource, hmem, rfl⟩, ?_⟩
      rw [if_pos hid]
      exact hid
    · intro row hrow hrowid
      rw [hres, List.mem_map] at hrow
      obtain ⟨old, hold, hrow⟩ := hrow
      by_cases hc : old.id = id
      · rw [if_pos hc] at hrow
        subst hrow
        refine ⟨hmerged, ⟨old, hold, hc, rfl⟩, ?_⟩
        unfold typeInvariantAt
        rw [hns]
        constructor
        · intro hinv ns hnsmem hnsid
          have := hinv ns hnsmem hnsid
          rw [hmerged] at this
          injection this with this
          injection this with this
          exact this.symm
        · intro hall ns hnsmem hnsid
          show lookupOwn
            (resource.mergedProperties (JsVal.obj (restWithout ["id", "meta"] o)))
            "resourceType" = some (JsVal.str ns.name)
          rw [hmerged, hall ns hnsmem hnsid]
      · rw [if_neg hc] at hrow
        subst hrow
        exact absurd hrowid hc

/-- Witness of C8 as amended: the create of `patientCreated`, on the empty
store. -/
theorem fhir_write_type_invariant_witness :
    distinctNamespaceIds emptyStore ∧
    ∃ row, patientCreated.store.api_resources = emptyStore.api_resources ++ [row] ∧
      row.id = sampleDraws.resourceRow.uuid ∧
      (∃ ns, ns ∈ patientCreated.store.api_namespaces ∧
        ns.id = row.api_namespace_id ∧ ns.name = "Patient") ∧
      typeInvariantAt patientCreated.store row :=
  ⟨by decide,
    fhir_write_type_invariant.1 sampleDraws emptyStore "Patient" (JsVal.obj samplePatient)
      { status := 201, location := some "/fhir/Patient/res-uuid-1",
        body := JsVal.obj
          [ ("resourceType", JsVal.str "Patient"), ("id", JsVal.str "res-uuid-1"),
            ("meta",
              JsVal.obj
                [ ("versionId", JsVal.str "1"),
                  ("lastUpdated", JsVal.str "2024-03-01T10:00:01Z") ]),
            ("gender", JsVal.str "female") ] }
      (by decide) rfl⟩

/-- C9: when the body's `resourceType` differs from the path's resource type,
the create and the update handler both fail with a `ValidationError` (status
400, code `validation_error`) that names the two types, whatever else the body
holds, and the store is left as it was: nothing is written, so no type is
rewritten. -/
theorem type_mismatch_rejected (draws : CreateDraws) (now : String) (s : Store)
    (T : String) (id : String) (body : JsVal) (v : JsVal)
    (hread : readProp body "resourceType" = Except.ok v) (hne : v ≠ JsVal.str T) :
    (postResource draws s T body).result =
      Except.error
        { cls := ErrorClass.ValidationError,
          message := "Resource type mismatch: expected " ++ T ++ ", got " ++ v.toJsString,
          statusCode := some 400, code := some "validation_error" } ∧
    (postResource draws s T body).store = s ∧
    (putResource now s T id body).result =
      Except.error
        { cls := ErrorClass.ValidationError,
          message := "Resource type mismatch: expected " ++ T ++ ", got " ++ v.toJsString,
          statusCode := some 400, code := some "validation_error" } ∧
    (putResource now s T id body).store = s := by
  have hfalse : strictEqStr v T = false := by
    cases hm : strictEqStr v T with
    | false => rfl
    | true => exact absurd ((strictEqStr_eq_true v T).mp hm) hne
  refine ⟨?_, ?_, ?_, ?_⟩ <;>
    simp [postResource, putResource, hread, hfalse, ValidationError, ApiError]

/-- Witness of C9: `POST /fhir/Observation` with a body that says `Patient`. -/
theorem type_mismatch_rejected_witness :
    readProp (JsVal.obj samplePatient) "resourceType" = Except.ok (JsVal.str "Patient") ∧
    (postResource sampleDraws sampleStore "Observation" (JsVal.obj samplePatient)).result =
      Except.error
        { cls := ErrorClass.ValidationError,
          message :=
            "Resource type mismatch: expected " ++ "Observation" ++ ", got " ++
              (JsVal.str "Patient").toJsString,
          statusCode := some 400, code := some "validation_error" } :=
  ⟨rfl,
    (type_mismatch_rejected sampleDraws "2024-03-02T09:00:00Z" sampleStore "Observation" "r-1"
      (JsVal.obj samplePatient) (JsVal.str "Patient") rfl (by simp)).1⟩

theorem readProp_error_cls (v : JsVal) (k : String) (e : Thrown)
    (h : readProp v k = Except.error e) : e.cls = ErrorClass.TypeError := by
  cases v <;> simp [readProp] at h <;> rw [← h]

theorem validateFhirResource_error_cls (resource : JsVal) (e : Thrown)
    (h : validateFhirResource resource = Except.error e) :
    e.cls = ErrorClass.TypeError ∨ e.cls = ErrorClass.Error := by
  unfold validateFhirResource at h
  split at h
  · rename_i e' hread
    injection h with h
    subst h
    exact Or.inl (readProp_error_cls _ _ _ hread)
  · split at h
    · simp at h
    · split at h
      · simp at h
      · injection h with h
        subst h
        exact Or.inr rfl
      · simp at h
      · split at h <;> simp at h

theorem findByName_error_cls (s : Store) (T : String) (e : Thrown)
    (h : ApiNamespace.findByName s T = Except.error e) :
    e.cls = ErrorClass.PostgrestError := by
  unfold ApiNamespace.findByName at h
  split at h
  · rename_i e' hm
    injection h with h
    subst h
    rw [maybeSingle_error _ _ hm]
    rfl
  · simp at h

theorem findById_error_cls (s : Store) (id : String) (e : Thrown)
    (h : ApiResource.findById s id = Except.error e) :
    e.cls = ErrorClass.PostgrestError := by
  unfold ApiResource.findById at h
  rw [maybeSingle_error _ _ h]
  rfl

theorem namespace_create_error_cls (s : Store) (draw : Draw) (a : NamespaceAttributes)
    (e : Thrown) (h : (ApiNamespace.create s draw a).result = Except.error e) :
    e.cls = ErrorClass.PostgrestError := by
  unfold ApiNamespace.create at h
  split at h
  · injection h with h
    subst h
    rfl
  · simp at h

theorem resource_create_error_cls (s : Store) (draw : Draw) (nsId : String) (p : Obj)
    (e : Thrown) (h : (ApiResource.create s draw nsId p).result = Except.error e) :
    e.cls = ErrorClass.PostgrestError := by
  unfold ApiResource.create at h
  split at h
  · injection h with h
    subst h
    rfl
  · split at h
    · injection h with h
      subst h
      rfl
    · simp at h

theorem resource_update_error_cls (s : Store) (now : String) (self : ApiResource)
    (p : JsVal) (e : Thrown) (h : (self.update s now p).result = Except.error e) :
    e.cls = ErrorClass.PostgrestError := by
  unfold ApiResource.update at h
  rw [single_error _ _ h]
  rfl

/-- C10: a create or update request that ends with a `ValidationError` (type
mismatch or structural validation failure) leaves the store unchanged: no
namespace is provisioned and no resource is created or modified. -/
theorem validation_rejection_leaves_store (draws : CreateDraws) (now : String) (s : Store)
    (T : String) (id : String) (body : JsVal) (e : Thrown)
    (hcls : e.cls = ErrorClass.ValidationError) :
    ((postResource draws s T body).result = Except.error e →
      (postResource draws s T body).store = s) ∧
    ((putResource now s T id body).result = Except.error e →
      (putResource now s T id body).store = s) := by
  constructor
  · intro h
    cases hread : readProp body "resourceType" with
    | error e' => simp [postResource, hread]
    | ok bodyType =>
      cases hmatch : strictEqStr bodyType T with
      | false => simp [postResource, hread, hmatch]
      | true =>
        cases hval : validateFhirResource body with
        | error e' => simp [postResource, hread, hmatch, hval]
        | ok validation =>
          cases hvalid : validation.valid with
          | false => simp [postResource, hread, hmatch, hval, hvalid]
          | true =>
            cases hfind : ApiNamespace.findByName s T with
            | error e' => simp [postResource, hread, hmatch, hval, hvalid, hfind]
            | ok found =>
              exfalso
              simp only [postResource, hread, hmatch, hval, hvalid, hfind] at h
              revert h
              generalize hprov :
                (match found with
                  | some ns => ({ store := s, result := Except.ok ns } : Step ApiNamespace)
                  | none =>
                    ApiNamespace.create s draws.namespaceRow
                      { name := T, version := some "1",
                        properties :=
                          some [("resource_type", JsVal.str "fhir"),
                            ("fhir_version", JsVal.str "R4")] }) = provisioned
              intro h
              cases hpr : provisioned.result with
              | error e' =>
                have hcls' : e'.cls = ErrorClass.PostgrestError := by
                  cases found with
                  | some ns =>
                    subst hprov
                    simp at hpr
                  | none =>
                    subst hprov
                    exact namespace_create_error_cls _ _ _ _ hpr
                simp [hpr] at h
                subst h
                rw [hcls] at hcls'
                cases hcls'
              | ok ns =>
                simp only [hpr] at h
                cases hcr : (ApiResource.create provisioned.store draws.resourceRow ns.id
                    (restWithout ["id", "meta"] (ownEnumerable body))).result with
                | error e' =>
                  have hcls' := resource_create_error_cls _ _ _ _ _ hcr
                  simp [hcr] at h
                  subst h
                  rw [hcls] at hcls'
                  cases hcls'
                | ok resource => simp [hcr] at h
  · intro h
    cases hread : readProp body "resourceType" with
    | error e' => simp [putResource, hread]
    | ok bodyType =>
      cases hmatch : strictEqStr bodyType T with
      | false => simp [putResource, hread, hmatch]
      | true =>
        cases hval : validateFhirResource body with
        | error e' => simp [putResource, hread, hmatch, hval]
        | ok validation =>
          cases hvalid : validation.valid with
          | false => simp [putResource, hread, hmatch, hval, hvalid]
          | true =>
            cases hfind : ApiResource.findById s id with
            | error e' => simp [putResource, hread, hmatch, hval, hvalid, hfind]
            | ok found =>
              cases found with
              | none => simp [putResource, hread, hmatch, hval, hvalid, hfind]
              | some resource =>
                exfalso
                simp only [putResource, hread, hmatch, hval, hvalid, hfind] at h
                cases hup : (ApiResource.update s now resource
                    (JsVal.obj (restWithout ["id", "meta"] (ownEnumerable body)))).result with
                | error e' =>
                  have hcls' := resource_update_error_cls _ _ _ _ _ hup
                  simp [hup] at h
                  subst h
                  rw [hcls] at hcls'
                  cases hcls'
                | ok row => simp [hup] at h

/-- Witness of C10: `POST /fhir/Observation` with `badObservation` is rejected
by the structural validation and `sampleStore` is unchanged. -/
theorem validation_rejection_leaves_store_witness :
    (postResource sampleDraws sampleStore "Observation" (JsVal.obj badObservation)).result =
      Except.error
        (ValidationError
          ("FHIR validation failed: " ++
            " must have required property 'code', /status must be equal to one of the allowed values")) ∧
    (postResource sampleDraws sampleStore "Observation" (JsVal.obj badObservation)).store =
      sampleStore :=
  ⟨rfl,
    (validation_rejection_leaves_store sampleDraws "2024-03-02T09:00:00Z" sampleStore
      "Observation" "r-1" (JsVal.obj badObservation)
      (ValidationError
        ("FHIR validation failed: " ++
          " must have required property 'code', /status must be equal to one of the allowed values"))
      rfl).1 rfl⟩

/-! ## The store mutations of a write request -/

theorem update_result_ok (s : Store) (now : String) (resource : ApiResource) (p : JsVal)
    (hone : s.api_resources.filter (fun row => row.id = resource.id) = [resource]) :
    ∃ row, (resource.update s now p).result = Except.ok row := by
  simp only [ApiResource.update]
  have hfilter : ∀ rows : List ApiResource,
      List.filter (fun row => decide (row.id = resource.id))
        (List.map (fun row =>
          if row.id = resource.id then
            { row with properties := resource.mergedProperties p, updated_at := now }
          else row) rows) =
      List.map (fun row =>
          ({ row with properties := resource.mergedProperties p, updated_at := now } :
            ApiResource))
        (List.filter (fun row => decide (row.id = resource.id)) rows) := by
    intro rows
    induction rows with
    | nil => rfl
    | cons a t ih =>
      by_cases hc : a.id = resource.id
      · simp [List.filter, hc, ih]
      · simp [List.filter, hc, ih]
  rw [hfilter, hone]
  exact ⟨_, rfl⟩

theorem findById_filter (s : Store) (id : String) (resource : ApiResource)
    (h : ApiResource.findById s id = Except.ok (some resource)) :
    s.api_resources.filter (fun row => row.id = resource.id) = [resource] := by
  have hid := (findById_some s id resource h).2
  unfold ApiResource.findById at h
  rw [hid]
  exact maybeSingle_some _ _ h

theorem findByName_none (s : Store) (T : String)
    (h : ApiNamespace.findByName s T = Except.ok none) :
    ∀ ns, ns ∈ s.api_namespaces → ns.name ≠ T := by
  unfold ApiNamespace.findByName at h
  cases hm : maybeSingle (s.api_namespaces.filter (fun row => row.name = T)) with
  | error e => rw [hm] at h; simp at h
  | ok data =>
    rw [hm] at h
    cases data with
    | some row => simp at h
    | none =>
      have hrows := maybeSingle_none _ hm
      intro ns hns hname
      have : ns ∈ s.api_namespaces.filter (fun row => row.name = T) := by
        rw [List.mem_filter]
        exact ⟨hns, by simpa using hname⟩
      rw [hrows] at this
      cases this

/-- C11, the claim as stated fails: on the empty store, the create of
`samplePatient` is accepted, and the call that resolves the namespace (the
one made when the lookup found none) has already written a namespace row
before any resource row exists; afterwards the store holds one more namespace
and one more resource. -/
theorem create_writes_namespace_before_resource :
    (∃ resp, patientCreated.result = Except.ok resp ∧ resp.status = 201) ∧
    emptyStore.api_namespaces.length = 0 ∧
    (postAdvance sampleDraws "Patient" (JsVal.obj samplePatient) PostPhase.absent
      emptyStore).2.api_namespaces.length = 1 ∧
    (postAdvance sampleDraws "Patient" (JsVal.obj samplePatient) PostPhase.absent
      emptyStore).2.api_resources.length = 0 ∧
    patientCreated.store.api_namespaces.length = 1 ∧
    patientCreated.store.api_resources.length = 1 :=
  ⟨⟨_, rfl, rfl⟩, rfl, rfl, rfl, rfl, rfl⟩

theorem postResource_effects (draws : CreateDraws) (s : Store) (T : String) (body : JsVal) :
    ((postResource draws s T body).store.api_namespaces = s.api_namespaces ∨
      ∃ ns, (postResource draws s T body).store.api_namespaces = s.api_namespaces ++ [ns] ∧
        ns.name = T ∧ ∀ r, r ∈ s.api_namespaces → r.name ≠ T) ∧
    (((postResource draws s T body).store.api_resources = s.api_resources ∧
        ∀ resp, (postResource draws s T body).result ≠ Except.ok resp) ∨
      ∃ row resp, (postResource draws s T body).store.api_resources = s.api_resources ++ [row] ∧
        (postResource draws s T body).result = Except.ok resp ∧
        row.id = draws.resourceRow.uuid ∧
        row.properties = restWithout ["id", "meta"] (ownEnumerable body) ∧
        ∃ ns, ns ∈ (postResource draws s T body).store.api_namespaces ∧ ns.name = T ∧
          row.api_namespace_id = ns.id) := by
  cases hread : readProp body "resourceType" with
  | error e => simp [postResource, hread]
  | ok bodyType =>
    cases hmatch : strictEqStr bodyType T with
    | false => simp [postResource, hread, hmatch]
    | true =>
      cases hval : validateFhirResource body with
      | error e => simp [postResource, hread, hmatch, hval]
      | ok validation =>
        cases hvalid : validation.valid with
        | false => simp [postResource, hread, hmatch, hval, hvalid]
        | true =>
          cases hfind : ApiNamespace.findByName s T with
          | error e => simp [postResource, hread, hmatch, hval, hvalid, hfind]
          | ok found =>
            cases found with
            | some ns =>
              cases hfk : s.api_namespaces.any (fun r => decide (r.id = ns.id)) with
              | false =>
                simp [postResource, hread, hmatch, hval, hvalid, hfind, ApiResource.create, hfk]
              | true =>
                cases hpk : s.api_resources.any
                    (fun r => decide (r.id = draws.resourceRow.uuid)) with
                | true =>
                  simp [postResource, hread, hmatch, hval, hvalid, hfind, ApiResource.create,
                    hfk, hpk]
                | false =>
                  obtain ⟨row0, hrow0, hname0, hid0⟩ := findByName_some s T ns hfind
                  refine ⟨Or.inl ?_, Or.inr
                    ⟨{ id := draws.resourceRow.uuid, api_namespace_id := ns.id,
                       properties := restWithout ["id", "meta"] (ownEnumerable body),
                       created_at := draws.resourceRow.now,
                       updated_at := draws.resourceRow.now },
                     { status := 201,
                       location := some ("/fhir/" ++ T ++ "/" ++ draws.resourceRow.uuid),
                       body :=
                         JsVal.obj
                           (ApiResource.toFhir
                             { id := draws.resourceRow.uuid, api_namespace_id := ns.id,
                               properties := restWithout ["id", "meta"] (ownEnumerable body),
                               created_at := draws.resourceRow.now,
                               updated_at := draws.resourceRow.now }) },
                     ?_, ?_, rfl, rfl, row0, ?_, hname0, hid0.symm⟩⟩
                  all_goals
                    simp [postResource, hread, hmatch, hval, hvalid, hfind, ApiResource.create,
                      hfk, hpk, hrow0]
            | none =>
              have habsent := findByName_none s T hfind
              cases hdup : s.api_namespaces.any
                  (fun r => decide (r.name = T) || decide (r.id = draws.namespaceRow.uuid)) with
              | true =>
                simp [postResource, hread, hmatch, hval, hvalid, hfind, ApiNamespace.create,
                  hdup]
              | false =>
                cases hpk : s.api_resources.any
                    (fun r => decide (r.id = draws.resourceRow.uuid)) with
                | true =>
                  simp [postResource, hread, hmatch, hval, hvalid, hfind, ApiNamespace.create,
                    hdup, ApiResource.create, ApiNamespace.new, hpk]
                  exact habsent
                | false =>
                  refine ⟨Or.inr ?_, Or.inr
                    ⟨{ id := draws.resourceRow.uuid, api_namespace_id := draws.namespaceRow.uuid,
                       properties := restWithout ["id", "meta"] (ownEnumerable body),
                       created_at := draws.resourceRow.now,
                       updated_at := draws.resourceRow.now },
                     { status := 201,
                       location := some ("/fhir/" ++ T ++ "/" ++ draws.resourceRow.uuid),
                       body :=
                         JsVal.obj
                           (ApiResource.toFhir
                             { id := draws.resourceRow.uuid,
                               api_namespace_id := draws.namespaceRow.uuid,
                               properties := restWithout ["id", "meta"] (ownEnumerable body),
                               created_at := draws.resourceRow.now,
                               updated_at := draws.resourceRow.now }) },
                     ?_, ?_, rfl, rfl,
                     { id := draws.namespaceRow.uuid, name := T, version := "1",
                       properties :=
                         [("resource_type", JsVal.str "fhir"), ("fhir_version", JsVal.str "R4")],
                       created_at := draws.namespaceRow.now,
                       updated_at := draws.namespaceRow.now },
                     ?_, rfl, rfl⟩⟩
                  · simp [postResource, hread, hmatch, hval, hvalid, hfind, ApiNamespace.create,
                      hdup, ApiResource.create, ApiNamespace.new, hpk]
                    exact habsent
                  all_goals
                    simp [postResource, hread, hmatch, hval, hvalid, hfind, ApiNamespace.create,
                      hdup, ApiResource.create, ApiNamespace.new, hpk]

theorem putResource_effects (now : String) (s : Store) (T : String) (id : String)
    (body : JsVal) :
    (putResource now s T id body).store.api_namespaces = s.api_namespaces ∧
    (((putResource now s T id body).store = s ∧
        ∀ resp, (putResource now s T id body).result ≠ Except.ok resp) ∨
      ∃ resource resp, s.api_resources.filter (fun row => row.id = id) = [resource] ∧
        (putResource now s T id body).result = Except.ok resp ∧
        (putResource now s T id body).store.api_resources =
          s.api_resources.map (fun row =>
            if row.id = id then
              { row with
                properties :=
                  resource.mergedProperties
                    (JsVal.obj (restWithout ["id", "meta"] (ownEnumerable body))),
                updated_at := now }
            else row)) := by
  cases hread : readProp body "resourceType" with
  | error e => simp [putResource, hread]
  | ok bodyType =>
    cases hmatch : strictEqStr bodyType T with
    | false => simp [putResource, hread, hmatch]
    | true =>
      cases hval : validateFhirResource body with
      | error e => simp [putResource, hread, hmatch, hval]
      | ok validation =>
        cases hvalid : validation.valid with
        | false => simp [putResource, hread, hmatch, hval, hvalid]
        | true =>
          cases hfind : ApiResource.findById s id with
          | error e => simp [putResource, hread, hmatch, hval, hvalid, hfind]
          | ok found =>
            cases found with
            | none => simp [putResource, hread, hmatch, hval, hvalid, hfind]
            | some resource =>
              obtain ⟨_, hid⟩ := findById_some s id resource hfind
              have hone := findById_filter s id resource hfind
              obtain ⟨row, hrow⟩ := update_result_ok s now resource
                (JsVal.obj (restWithout ["id", "meta"] (ownEnumerable body))) hone
              constructor
              · simp only [putResource, hread, hmatch, hval, hvalid, hfind, hrow]
                rfl
              · right
                refine ⟨resource, { status := 200, location := none, body := JsVal.obj row.toFhir },
                  hid ▸ hone, ?_, ?_⟩
                · simp only [putResource, hread, hmatch, hval, hvalid, hfind, hrow]
                  rfl
                · simp only [putResource, hread, hmatch, hval, hvalid, hfind, hrow]
                  simp [ApiResource.update, hid]

/-- C11 as amended: type validation and structural validation never change the
store.  A create request changes it by at most one namespace insert, made by
the namespace resolution when no namespace has the name of the type, and then
by at most one resource insert, made exactly when the request succeeds: the
stored resources are unchanged when it fails, and on success one row is
appended, with the drawn id, the body without `id` and `meta`, under a
namespace of the resulting store that has the name of the type.  An update
request never changes the namespaces and writes one resource exactly when it
succeeds: the store is unchanged when it fails, and on success exactly one
stored row has the id and that row gets the merged properties and the new
`updated_at`, the other rows staying as they were. -/
theorem fhir_write_store_mutations (draws : CreateDraws) (now : String) (s : Store)
    (T : String) (id : String) (body : JsVal) :
    (∀ w, readProp body "resourceType" = Except.ok w → strictEqStr w T = false →
      (postResource draws s T body).store = s ∧ (putResource now s T id body).store = s) ∧
    (∀ v, validateFhirResource body = Except.ok v → v.valid = false →
      (postResource draws s T body).store = s ∧ (putResource now s T id body).store = s) ∧
    ((postResource draws s T body).store.api_namespaces = s.api_namespaces ∨
      ∃ ns, (postResource draws s T body).store.api_namespaces = s.api_namespaces ++ [ns] ∧
        ns.name = T ∧ ∀ r, r ∈ s.api_namespaces → r.name ≠ T) ∧
    (((postResource draws s T body).store.api_resources = s.api_resources ∧
        ∀ resp, (postResource draws s T body).result ≠ Except.ok resp) ∨
      ∃ row resp, (postResource draws s T body).store.api_resources = s.api_resources ++ [row] ∧
        (postResource draws s T body).result = Except.ok resp ∧
        row.id = draws.resourceRow.uuid ∧
        row.properties = restWithout ["id", "meta"] (ownEnumerable body) ∧
        ∃ ns, ns ∈ (postResource draws s T body).store.api_namespaces ∧ ns.name = T ∧
          row.api_namespace_id = ns.id) ∧
    (putResource now s T id body).store.api_namespaces = s.api_namespaces ∧
    (((putResource now s T id body).store = s ∧
        ∀ resp, (putResource now s T id body).result ≠ Except.ok resp) ∨
      ∃ resource resp, s.api_resources.filter (fun row => row.id = id) = [resource] ∧
        (putResource now s T id body).result = Except.ok resp ∧
        (putResource now s T id body).store.api_resources =
          s.api_resources.map (fun row =>
            if row.id = id then
              { row with
                properties :=
                  resource.mergedProperties
                    (JsVal.obj (restWithout ["id", "meta"] (ownEnumerable body))),
                updated_at := now }
            else row)) := by
  refine ⟨?_, ?_, (postResource_effects draws s T body).1, (postResource_effects draws s T body).2,
    (putResource_effects now s T id body).1, (putResource_effects now s T id body).2⟩
  · intro w hread hmatch
    simp [postResource, putResource, hread, hmatch]
  · intro v hval hvalid
    cases hread : readProp body "resourceType" with
    | error e => simp [postResource, putResource, hread]
    | ok bodyType =>
      cases hmatch : strictEqStr bodyType T with
      | false => simp [postResource, putResource, hread, hmatch]
      | true => simp [postResource, putResource, hread, hmatch, hval, hvalid]

/-- Witness of C11 as amended: the mismatched create on `sampleStore` leaves
it unchanged. -/
theorem fhir_write_store_mutations_witness :
    readProp (JsVal.obj samplePatient) "resourceType" = Except.ok (JsVal.str "Patient") ∧
    strictEqStr (JsVal.str "Patient") "Observation" = false ∧
    (postResource sampleDraws sampleStore "Observation" (JsVal.obj samplePatient)).store =
      sampleStore :=
  ⟨rfl, rfl,
    ((fhir_write_store_mutations sampleDraws "2024-03-02T09:00:00Z" sampleStore "Observation"
      "r-1" (JsVal.obj samplePatient)).1 (JsVal.str "Patient") rfl rfl).1⟩

/-! ## Namespace provisioning -/

theorem filter_name_eq_nil (s : Store) (T : String)
    (h : ∀ ns, ns ∈ s.api_namespaces → ns.name ≠ T) :
    s.api_namespaces.filter (fun row => decide (row.name = T)) = [] := by
  rw [List.filter_eq_nil_iff]
  intro ns hns
  simpa using h ns hns

/-- C12: for a create request that passes both validations, with a fresh id
drawn for the resource: when no namespace is named after the wire type (and
the id drawn for the namespace is fresh), a namespace with that name, version
`1` and `properties.resource_type = 'fhir'` is appended and the new resource is
stored under it; when one namespace has that name, the namespaces are
unchanged and the new resource is stored under that namespace.  In both cases
the request is answered 201. -/
theorem create_provisions_or_reuses (draws : CreateDraws) (s : Store) (T : String) (o : Obj)
    (v : ValidationResult)
    (hrt : lookupOwn o "resourceType" = some (JsVal.str T))
    (hval : validateFhirResource (JsVal.obj o) = Except.ok v) (hvalid : v.valid = true)
    (hfresh : ∀ r, r ∈ s.api_resources → r.id ≠ draws.resourceRow.uuid) :
    ((∀ ns, ns ∈ s.api_namespaces → ns.name ≠ T ∧ ns.id ≠ draws.namespaceRow.uuid) →
      (postResource draws s T (JsVal.obj o)).store.api_namespaces =
        s.api_namespaces ++
          [{ id := draws.namespaceRow.uuid, name := T, version := "1",
             properties := [("resource_type", JsVal.str "fhir"), ("fhir_version", JsVal.str "R4")],
             created_at := draws.namespaceRow.now, updated_at := draws.namespaceRow.now }] ∧
      (postResource draws s T (JsVal.obj o)).store.api_resources =
        s.api_resources ++
          [{ id := draws.resourceRow.uuid, api_namespace_id := draws.namespaceRow.uuid,
             properties := restWithout ["id", "meta"] o,
             created_at := draws.resourceRow.now, updated_at := draws.resourceRow.now }] ∧
      ∃ resp, (postResource draws s T (JsVal.obj o)).result = Except.ok resp ∧
        resp.status = 201) ∧
    (∀ ns, s.api_namespaces.filter (fun row => decide (row.name = T)) = [ns] →
      (postResource draws s T (JsVal.obj o)).store.api_namespaces = s.api_namespaces ∧
      (postResource draws s T (JsVal.obj o)).store.api_resources =
        s.api_resources ++
          [{ id := draws.resourceRow.uuid, api_namespace_id := ns.id,
             properties := restWithout ["id", "meta"] o,
             created_at := draws.resourceRow.now, updated_at := draws.resourceRow.now }] ∧
      ∃ resp, (postResource draws s T (JsVal.obj o)).result = Except.ok resp ∧
        resp.status = 201) := by
  have hread : readProp (JsVal.obj o) "resourceType" = Except.ok (JsVal.str T) := by
    simp [readProp, getProp, hrt]
  have hmatch : strictEqStr (JsVal.str T) T = true := by simp [strictEqStr]
  have hpk : s.api_resources.any (fun r => decide (r.id = draws.resourceRow.uuid)) = false := by
    rw [List.any_eq_false]
    intro r hr
    simpa using hfresh r hr
  constructor
  · intro habsent
    have hnone : ApiNamespace.findByName s T = Except.ok none := by
      simp [ApiNamespace.findByName, filter_name_eq_nil s T (fun ns hns => (habsent ns hns).1),
        maybeSingle]
    have hdup : s.api_namespaces.any
        (fun r => decide (r.name = T) || decide (r.id = draws.namespaceRow.uuid)) = false := by
      rw [List.any_eq_false]
      intro r hr
      simp [(habsent r hr).1, (habsent r hr).2]
    simp [postResource, hread, hmatch, hval, hvalid, hnone, ApiNamespace.create, hdup,
      ApiResource.create, ApiNamespace.new, hpk, ownEnumerable]
  · intro ns hone
    have hsome : ApiNamespace.findByName s T = Except.ok (some (ApiNamespace.new ns)) := by
      simp [ApiNamespace.findByName, hone, maybeSingle]
    have hmem : ns ∈ s.api_namespaces := by
      have : ns ∈ s.api_namespaces.filter (fun row => decide (row.name = T)) := by
        rw [hone]
        exact List.mem_singleton.mpr rfl
      exact (List.mem_filter.mp this).1
    have hfk : s.api_namespaces.any (fun r => decide (r.id = ns.id)) = true := by
      rw [List.any_eq_true]
      exact ⟨ns, hmem, by simp⟩
    simp [postResource, hread, hmatch, hval, hvalid, hsome, ApiResource.create,
      ApiNamespace.new, hfk, hpk, ownEnumerable]

/-- Witness of C12: the create of a Condition on `sampleStore`, which has no
namespace of that name. -/
theorem create_provisions_or_reuses_witness :
    lookupOwn validCondition "resourceType" = some (JsVal.str "Condition") ∧
    (postResource sampleDraws sampleStore "Condition"
      (JsVal.obj validCondition)).store.api_namespaces =
      sampleStore.api_namespaces ++
        [{ id := sampleDraws.namespaceRow.uuid, name := "Condition", version := "1",
           properties := [("resource_type", JsVal.str "fhir"), ("fhir_version", JsVal.str "R4")],
           created_at := sampleDraws.namespaceRow.now,
           updated_at := sampleDraws.namespaceRow.now }] :=
  ⟨rfl,
    ((create_provisions_or_reuses sampleDraws sampleStore "Condition" validCondition
      { valid := true, errors := [], warnings := none } rfl rfl rfl
      (by decide)).1 (by decide)).1⟩

/-! ## Creating a namespace twice -/

theorem namespace_create_conflict (s : Store) (draw : Draw) (a : NamespaceAttributes)
    (h : ∃ ns, ns ∈ s.api_namespaces ∧ ns.name = a.name) :
    (ApiNamespace.create s draw a).result = Except.error uniqueViolation ∧
    (ApiNamespace.create s draw a).store = s := by
  obtain ⟨ns, hns, hname⟩ := h
  have hany : s.api_namespaces.any
      (fun row => decide (row.name = a.name) || decide (row.id = draw.uuid)) = true := by
    rw [List.any_eq_true]
    exact ⟨ns, hns, by simp [hname]⟩
  simp [ApiNamespace.create, hany]

theorem namespace_create_keeps_unique (s : Store) (draw : Draw) (a : NamespaceAttributes)
    (n : String)
    (h : (s.api_namespaces.filter (fun row => decide (row.name = n))).length ≤ 1) :
    ((ApiNamespace.create s draw a).store.api_namespaces.filter
      (fun row => decide (row.name = n))).length ≤ 1 := by
  cases hany : s.api_namespaces.any
      (fun row => decide (row.name = a.name) || decide (row.id = draw.uuid)) with
  | true => simpa [ApiNamespace.create, hany] using h
  | false =>
    simp only [ApiNamespace.create, hany]
    by_cases hn : a.name = n
    · have hnil : s.api_namespaces.filter (fun row => decide (row.name = n)) = [] := by
        rw [List.filter_eq_nil_iff]
        intro ns hns
        rw [List.any_eq_false] at hany
        have := hany ns hns
        simp [hn] at this
        simp [this.1]
      simp [List.filter_append, hnil, List.filter, hn]
    · simpa [List.filter_append, List.filter, hn] using h

/-- C13, the claim as stated fails: the first `ApiNamespace.create({ name:
'Patient' })` returns the new namespace, and the second call does not return
it: it fails with the uniqueness error of the storage engine. -/
theorem second_namespace_create_fails :
    (∃ ns, firstNamespaceCreate.result = Except.ok ns ∧ ns.name = "Patient") ∧
    secondNamespaceCreate.result = Except.error uniqueViolation :=
  ⟨⟨_, rfl, rfl⟩, rfl⟩

/-- C13 as amended: calling `ApiNamespace.create` twice with the same name
never leaves two namespaces with that name (when the store had at most one
before), and when the first call returns a namespace the second call fails
with the uniqueness error of the storage engine and leaves the store as the
first call left it. -/
theorem namespace_create_twice (s : Store) (d1 d2 : Draw) (a1 a2 : NamespaceAttributes)
    (hname : a1.name = a2.name) :
    ((s.api_namespaces.filter (fun row => decide (row.name = a1.name))).length ≤ 1 →
      ((ApiNamespace.create (ApiNamespace.create s d1 a1).store d2 a2).store.api_namespaces.filter
        (fun row => decide (row.name = a1.name))).length ≤ 1) ∧
    (∀ ns, (ApiNamespace.create s d1 a1).result = Except.ok ns →
      (ApiNamespace.create (ApiNamespace.create s d1 a1).store d2 a2).result =
        Except.error uniqueViolation ∧
      (ApiNamespace.create (ApiNamespace.create s d1 a1).store d2 a2).store =
        (ApiNamespace.create s d1 a1).store) := by
  constructor
  · intro h
    exact namespace_create_keeps_unique _ d2 a2 a1.name
      (namespace_create_keeps_unique s d1 a1 a1.name h)
  · intro ns hres
    apply namespace_create_conflict
    cases hany : s.api_namespaces.any
        (fun row => decide (row.name = a1.name) || decide (row.id = d1.uuid)) with
    | true => simp [ApiNamespace.create, hany] at hres
    | false =>
      refine ⟨{ id := d1.uuid, name := a1.name,
                version :=
                  (match a1.version with
                   | some v => if v = "" then "1" else v
                   | none => "1"),
                properties := a1.properties.getD [],
                created_at := d1.now, updated_at := d1.now }, ?_, hname⟩
      simp [ApiNamespace.create, hany]

/-- Witness of C13 as amended: the two calls with `{ name: 'Patient' }` on
the empty store. -/
theorem namespace_create_twice_witness :
    (emptyStore.api_namespaces.filter (fun row => decide (row.name = "Patient"))).length ≤ 1 ∧
    (secondNamespaceCreate.store.api_namespaces.filter
      (fun row => decide (row.name = "Patient"))).length ≤ 1 :=
  ⟨by decide,
    (namespace_create_twice emptyStore sampleDraws.namespaceRow otherDraws.namespaceRow
      patientAttributes patientAttributes rfl).1 (by decide)⟩

/-- C14, evaluated at the second `ApiNamespace.create({ name: 'Patient' })`:
the call fails with the uniqueness error of the storage engine (code `23505`),
which carries no status of its own, and `errorHandler` renders it with status
500 on the namespace route and on the protocol routes, where the claim asks
for a conflict that the caller can recover from.  The same holds for every
store that holds a namespace with the name: the create fails with that error,
leaves the store unchanged and is rendered with status 500 on every path. -/
theorem namespace_conflict_rendered_500 :
    secondNamespaceCreate.result = Except.error uniqueViolation ∧
    secondNamespaceCreate.store = firstNamespaceCreate.store ∧
    uniqueViolation.cls = ErrorClass.PostgrestError ∧
    uniqueViolation.code = some "23505" ∧
    uniqueViolation.statusCode = none ∧
    (errorHandler uniqueViolation "/api/v1/api_namespaces").status = 500 ∧
    (errorHandler uniqueViolation "/fhir/Patient").status = 500 ∧
    (∀ (s : Store) (draw : Draw) (a : NamespaceAttributes) (path : String),
      (∃ ns, ns ∈ s.api_namespaces ∧ ns.name = a.name) →
      (ApiNamespace.create s draw a).result = Except.error uniqueViolation ∧
      (ApiNamespace.create s draw a).store = s ∧
      (errorHandler uniqueViolation path).status = 500) := by
  refine ⟨rfl, rfl, rfl, rfl, rfl, rfl, rfl, ?_⟩
  intro s draw a path h
  refine ⟨(namespace_create_conflict s draw a h).1, (namespace_create_conflict s draw a h).2, ?_⟩
  simp only [errorHandler]
  split <;> rfl

/-! ## Two creates of an unknown type -/

theorem postRun_eq_postResource (draws : CreateDraws) (s : Store) (T : String)
    (body : JsVal) :
    postRun draws s T body =
      (PostPhase.finished (postResource draws s T body).result,
        (postResource draws s T body).store) := by
  cases hread : readProp body "resourceType" with
  | error e => simp [postRun, postAdvance, postResource, hread]
  | ok bodyType =>
    cases hmatch : strictEqStr bodyType T with
    | false => simp [postRun, postAdvance, postResource, hread, hmatch]
    | true =>
      cases hval : validateFhirResource body with
      | error e => simp [postRun, postAdvance, postResource, hread, hmatch, hval]
      | ok validation =>
        cases hvalid : validation.valid with
        | false => simp [postRun, postAdvance, postResource, hread, hmatch, hval, hvalid]
        | true =>
          cases hfind : ApiNamespace.findByName s T with
          | error e =>
            simp [postRun, postAdvance, postResource, hread, hmatch, hval, hvalid, hfind]
          | ok found =>
            cases found with
            | some ns =>
              cases hcr : (ApiResource.create s draws.resourceRow ns.id
                (restWithout ["id", "meta"] (ownEnumerable body))).result <;>
                simp [postRun, postAdvance, postResource, hread, hmatch, hval, hvalid, hfind,
                  hcr]
            | none =>
              cases hcr : (ApiNamespace.create s draws.namespaceRow
                { name := T, version := some "1",
                  properties :=
                    some [("resource_type", JsVal.str "fhir"),
                      ("fhir_version", JsVal.str "R4")] }).result with
              | error e =>
                simp [postRun, postAdvance, postResource, hread, hmatch, hval, hvalid, hfind,
                  hcr]
              | ok ns =>
                cases hres : (ApiResource.create
                  (ApiNamespace.create s draws.namespaceRow
                    { name := T, version := some "1",
                      properties :=
                        some [("resource_type", JsVal.str "fhir"),
                          ("fhir_version", JsVal.str "R4")] }).store
                  draws.resourceRow ns.id
                  (restWithout ["id", "meta"] (ownEnumerable body))).result <;>
                  simp [postRun, postAdvance, postResource, hread, hmatch, hval, hvalid, hfind,
                    hcr, hres]

/-- C15, evaluated at two creates of a Condition on a store without that
namespace, where both lookups run before either insert: the first request is
answered 201, the second fails with the uniqueness error of the storage
engine, which `errorHandler` renders with status 500, and only the first
resource is stored; one namespace named `Condition` exists afterwards.  When
one request runs after the other, both are answered 201. -/
theorem racing_creates_second_fails :
    (∃ resp, lookupsFirstRace.first.result = some (Except.ok resp) ∧ resp.status = 201) ∧
    lookupsFirstRace.second.result = some (Except.error uniqueViolation) ∧
    (errorHandler uniqueViolation "/fhir/Condition").status = 500 ∧
    lookupsFirstRace.store.api_namespaces.map (fun ns => ns.name) = ["Patient", "Condition"] ∧
    lookupsFirstRace.store.api_resources.map (fun r => r.id) = ["r-1", "r-2", "res-uuid-1"] ∧
    (∃ resp, oneAfterTheOtherRace.first.result = some (Except.ok resp) ∧ resp.status = 201) ∧
    (∃ resp, oneAfterTheOtherRace.second.result = some (Except.ok resp) ∧ resp.status = 201) :=
  ⟨⟨_, rfl, rfl⟩, rfl, rfl, rfl, rfl, ⟨_, rfl, rfl⟩, ⟨_, rfl, rfl⟩⟩

/-! ## `ApiResource.findAll` -/

theorem timestampLe_total (x y : List Char) :
    timestampLe x y = true ∨ timestampLe y x = true := by
  induction x generalizing y with
  | nil => exact Or.inl (by cases y <;> rfl)
  | cons a as ih =>
    cases y with
    | nil => exact Or.inr rfl
    | cons b bs =>
      rcases lt_trichotomy a b with h | h | h
      · exact Or.inl (by simp [timestampLe, h])
      · subst h
        simpa [timestampLe] using ih bs
      · exact Or.inr (by simp [timestampLe, h])

theorem timestampLe_trans (x y z : List Char) (hxy : timestampLe x y = true)
    (hyz : timestampLe y z = true) : timestampLe x z = true := by
  induction x generalizing y z with
  | nil => cases z <;> rfl
  | cons a as ih =>
    cases y with
    | nil => simp [timestampLe] at hxy
    | cons b bs =>
      cases z with
      | nil => simp [timestampLe] at hyz
      | cons c cs =>
        rcases lt_trichotomy a b with hab | hab | hab
        · rcases lt_trichotomy b c with hbc | hbc | hbc
          · simp [timestampLe, lt_trans hab hbc]
          · subst hbc
            simp [timestampLe, hab]
          · simp [timestampLe, hbc, not_lt_of_gt hbc] at hyz
        · subst hab
          rcases lt_trichotomy a c with hac | hac | hac
          · simp [timestampLe, hac]
          · subst hac
            simp only [timestampLe, lt_irrefl, if_false] at hxy hyz ⊢
            exact ih bs cs hxy hyz
          · simp [timestampLe, hac, not_lt_of_gt hac] at hyz
        · simp [timestampLe, hab, not_lt_of_gt hab] at hxy

theorem orderByCreatedAtDesc_perm (rows : List ApiResource) :
    (orderByCreatedAtDesc rows).Perm rows :=
  List.perm_insertionSort newerOrSame rows

theorem orderByCreatedAtDesc_sorted (rows : List ApiResource) :
    (orderByCreatedAtDesc rows).Pairwise newerOrSame := by
  haveI : IsTotal ApiResource newerOrSame :=
    ⟨fun a b => timestampLe_total b.created_at.toList a.created_at.toList⟩
  haveI : IsTrans ApiResource newerOrSame :=
    ⟨fun a b c hab hbc =>
      timestampLe_trans c.created_at.toList b.created_at.toList a.created_at.toList hbc hab⟩
  exact List.sorted_insertionSort newerOrSame rows

theorem findAll_eq (s : Store) (namespaceId : String) (filters : Obj) :
    ApiResource.findAll s namespaceId filters =
      Except.ok
        (orderByCreatedAtDesc (s.api_resources.filter (satisfiesFilters namespaceId filters))) := by
  unfold ApiResource.findAll satisfiesFilters
  cases truthy (getProp filters "identifier") <;> cases truthy (getProp filters "name") <;>
    simp [List.filter_filter, Bool.and_comm, Bool.and_assoc]

/-- C16: `ApiResource.findAll(namespaceId, filters)` returns, newest first by
`created_at`, exactly the stored resources that belong to `namespaceId` and
satisfy every supplied filter, `identifier` and `name` together. -/
theorem findAll_filters_and_orders (s : Store) (namespaceId : String) (filters : Obj) :
    ∃ rows, ApiResource.findAll s namespaceId filters = Except.ok rows ∧
      rows.Perm (s.api_resources.filter (satisfiesFilters namespaceId filters)) ∧
      rows.Pairwise (fun a b =>
        timestampLe b.created_at.toList a.created_at.toList = true) ∧
      (∀ row, row ∈ rows ↔
        row ∈ s.api_resources ∧ row.api_namespace_id = namespaceId ∧
        (truthy (getProp filters "identifier") = true →
          contains row.properties [("identifier", getProp filters "identifier")] = true) ∧
        (truthy (getProp filters "name") = true →
          ilike (nameFamilyText row.properties)
            ("%" ++ (getProp filters "name").toJsString ++ "%") = true)) := by
  refine ⟨_, findAll_eq s namespaceId filters, orderByCreatedAtDesc_perm _,
    orderByCreatedAtDesc_sorted _, ?_⟩
  intro row
  rw [(orderByCreatedAtDesc_perm _).mem_iff, List.mem_filter]
  simp only [satisfiesFilters, Bool.and_eq_true, Bool.or_eq_true, Bool.not_eq_true',
    decide_eq_true_eq]
  constructor
  · rintro ⟨hmem, ⟨hns, hid⟩, hname⟩
    refine ⟨hmem, hns, ?_, ?_⟩
    · intro ht
      rcases hid with h | h
      · rw [ht] at h
        cases h
      · exact h
    · intro ht
      rcases hname with h | h
      · rw [ht] at h
        cases h
      · exact h
  · rintro ⟨hmem, hns, hid, hname⟩
    refine ⟨hmem, ⟨hns, ?_⟩, ?_⟩
    · cases ht : truthy (getProp filters "identifier") with
      | false => exact Or.inl rfl
      | true => exact Or.inr (hid ht)
    · cases ht : truthy (getProp filters "name") with
      | false => exact Or.inl rfl
      | true => exact Or.inr (hname ht)
mutual
theorem jsEquals_iff : ∀ (a b : JsVal), jsEquals a b = true ↔ a = b
  | JsVal.undefined, b => by cases b <;> simp [jsEquals]
  | JsVal.null, b => by cases b <;> simp [jsEquals]
  | JsVal.bool x, b => by cases b <;> simp [jsEquals]
  | JsVal.num x, b => by cases b <;> simp [jsEquals]
  | JsVal.str x, b => by cases b <;> simp [jsEquals]
  | JsVal.arr xs, b => by
    cases b with
    | arr ys =>
      have := jsEqualsItems_iff xs ys
      simp [jsEquals, this]
    | undefined => simp [jsEquals]
    | null => simp [jsEquals]
    | bool y => simp [jsEquals]
    | num y => simp [jsEquals]
    | str y => simp [jsEquals]
    | obj ys => simp [jsEquals]
  | JsVal.obj xs, b => by
    cases b with
    | obj ys =>
      have := jsEqualsFields_iff xs ys
      simp [jsEquals, this]
    | undefined => simp [jsEquals]
    | null => simp [jsEquals]
    | bool y => simp [jsEquals]
    | num y => simp [jsEquals]
    | str y => simp [jsEquals]
    | arr ys => simp [jsEquals]
termination_by structural a => a
theorem jsEqualsItems_iff : ∀ (xs ys : List JsVal), jsEqualsItems xs ys = true ↔ xs = ys
  | [], ys => by cases ys <;> simp [jsEqualsItems]
  | x :: xs, ys => by
    cases ys with
    | nil => simp [jsEqualsItems]
    | cons y ys =>
      have h1 := jsEquals_iff x y
      have h2 := jsEqualsItems_iff xs ys
      simp [jsEqualsItems, h1, h2]
termination_by structural xs => xs
theorem jsEqualsFields_iff : ∀ (xs ys : List (String × JsVal)),
    jsEqualsFields xs ys = true ↔ xs = ys
  | [], ys => by cases ys <;> simp [jsEqualsFields]
  | (k, x) :: xs, ys => by
    cases ys with
    | nil => simp [jsEqualsFields]
    | cons ly ys =>
      obtain ⟨l, y⟩ := ly
      have h1 := jsEquals_iff x y
      have h2 := jsEqualsFields_iff xs ys
      simp [jsEqualsFields, h1, h2, and_assoc]
termination_by structural xs => xs
end

/-- C17, evaluated on `searchStore`: the resource `holderP1P2` of the
namespace has the identifier `["P1","P2"]`, yet the identifier search for
`"P2"`, which is the value a query string gives, returns nothing; only the
array `["P2"]` as filter value finds it.  No record whose identifier is an
array is found by a scalar filter value, because the filter
`properties @> { identifier: v }` asks for the same structure on both sides. -/
theorem identifier_search_misses_array_entry :
    holderP1P2 ∈ searchStore.api_resources ∧
    holderP1P2.api_namespace_id = "ns-patient" ∧
    lookupOwn holderP1P2.properties "identifier" =
      some (JsVal.arr [JsVal.str "P1", JsVal.str "P2"]) ∧
    ApiResource.findAll searchStore "ns-patient" [("identifier", JsVal.str "P2")] =
      Except.ok [] ∧
    ApiResource.findAll searchStore "ns-patient" [("identifier", JsVal.arr [JsVal.str "P2"])] =
      Except.ok [holderP1P2] ∧
    (∀ (record : Obj) (items : List JsVal) (v : JsVal),
      lookupOwn record "identifier" = some (JsVal.arr items) → isJsonScalar v = true →
      contains record [("identifier", v)] = false) := by
  refine ⟨List.mem_cons_self _ _, rfl, rfl, rfl, rfl, ?_⟩
  intro record items v h hv
  cases v <;> simp [isJsonScalar] at hv <;>
    simp [contains, jsonbContains, jsonbContainsFields, h, isJsonScalar, jsEquals]

/-- C18, evaluated on `searchStore`: `smithPatient` is a Patient that the
validator accepts (its `name` is an array of objects with a `family` field)
and its family name is `Smith`, yet the name search for `Smith` returns
nothing, because the path `properties->name->>family` reads a field of the
array; and the searches for `%` and for `J_n` return the record whose family
name is `Jones`, which contains neither text, because both characters are
wildcards of the pattern. -/
theorem name_search_misses_and_overmatches :
    validateFhirResource (JsVal.obj smithPatient.properties) =
      Except.ok { valid := true, errors := [], warnings := none } ∧
    smithPatient ∈ searchStore.api_resources ∧
    lookupOwn smithPatient.properties "name" =
      some (JsVal.arr [JsVal.obj [("family", JsVal.str "Smith")]]) ∧
    ApiResource.findAll searchStore "ns-patient" [("name", JsVal.str "Smith")] = Except.ok [] ∧
    nameFamilyText jonesRecord.properties = some "Jones" ∧
    ApiResource.findAll searchStore "ns-patient" [("name", JsVal.str "%")] =
      Except.ok [jonesRecord] ∧
    ApiResource.findAll searchStore "ns-patient" [("name", JsVal.str "J_n")] =
      Except.ok [jonesRecord] :=
  ⟨rfl, by simp [searchStore], rfl, rfl, rfl, rfl, rfl⟩

/-- C19: two filter mappings that agree on `identifier` and on `name` give the
same result of `findAll` over the same store and namespace, and the same
answer of the search handler, whatever other parameters they hold; and
`findAll` returns a list, it does not raise. -/
theorem findAll_ignores_other_parameters (s : Store) (namespaceId : String)
    (protocol : String) (host : Option String) (resourceType : String) (f1 f2 : Obj)
    (hid : lookupOwn f1 "identifier" = lookupOwn f2 "identifier")
    (hname : lookupOwn f1 "name" = lookupOwn f2 "name") :
    ApiResource.findAll s namespaceId f1 = ApiResource.findAll s namespaceId f2 ∧
    (∃ rows, ApiResource.findAll s namespaceId f1 = Except.ok rows) ∧
    searchResources s protocol host resourceType f1 =
      searchResources s protocol host resourceType f2 := by
  have hall : ∀ ns, ApiResource.findAll s ns f1 = ApiResource.findAll s ns f2 := by
    intro ns
    simp [ApiResource.findAll, getProp, hid, hname]
  refine ⟨hall namespaceId, ⟨_, findAll_eq s namespaceId f1⟩, ?_⟩
  unfold searchResources
  cases ApiNamespace.findByName s resourceType with
  | error e => rfl
  | ok found =>
    cases found with
    | none => rfl
    | some ns => simp [hall ns.id]

/-- Witness of C19: the identifier search on `searchStore`, with and without
the parameters `gender` and `namespace_id`. -/
theorem findAll_ignores_other_parameters_witness :
    lookupOwn [("identifier", JsVal.str "P2")] "identifier" =
      lookupOwn
        [("gender", JsVal.str "female"), ("identifier", JsVal.str "P2"),
          ("namespace_id", JsVal.str "ns-patient")] "identifier" ∧
    ApiResource.findAll searchStore "ns-patient" [("identifier", JsVal.str "P2")] =
      ApiResource.findAll searchStore "ns-patient"
        [("gender", JsVal.str "female"), ("identifier", JsVal.str "P2"),
          ("namespace_id", JsVal.str "ns-patient")] :=
  ⟨rfl,
    (findAll_ignores_other_parameters searchStore "ns-patient" "http" (some "localhost:3001")
      "Patient" [("identifier", JsVal.str "P2")]
      [("gender", JsVal.str "female"), ("identifier", JsVal.str "P2"),
        ("namespace_id", JsVal.str "ns-patient")] rfl rfl).1⟩

/-- C20: the bundle built for a list of resources has `total` equal to the
length of the list and one entry per resource in the same order; the entry at
position `i` has `resource` equal to `toFhir` of the resource at position `i`
and `fullUrl` equal to the base `protocol://host/fhir`, a slash, the type
name, a slash and the id of that resource.  The search handler sends this
bundle, with status 200, for the resources that `findAll` returns. -/
theorem searchBundle_entries (s : Store) (protocol : String) (host : Option String)
    (resourceType : String) (query : Obj) (resources : List ApiResource) :
    lookupOwn (searchBundle protocol host resourceType resources) "total" =
      some (JsVal.num resources.length) ∧
    (∃ entries, lookupOwn (searchBundle protocol host resourceType resources) "entry" =
        some (JsVal.arr entries) ∧
      entries.length = resources.length ∧
      ∀ (i : Nat) (r : ApiResource), resources[i]? = some r →
        entries[i]? =
          some
            (JsVal.obj
              [ ("fullUrl",
                  JsVal.str
                    ((protocol ++ "://" ++ hostText host ++ "/fhir") ++ "/" ++ resourceType ++
                      "/" ++ r.id)),
                ("resource", JsVal.obj r.toFhir) ])) ∧
    (∀ ns, ApiNamespace.findByName s resourceType = Except.ok (some ns) →
      ApiResource.findAll s ns.id query = Except.ok resources →
      searchResources s protocol host resourceType query =
        Except.ok
          { status := 200, location := none,
            body := JsVal.obj (searchBundle protocol host resourceType resources) }) := by
  refine ⟨rfl, ⟨_, rfl, by simp, ?_⟩, ?_⟩
  · intro i r hr
    have hurl : (protocol ++ "://" ++ hostText host ++ "/fhir") ++ "/" ++ resourceType ++
        "/" ++ r.id =
        protocol ++ "://" ++ hostText host ++ "/fhir/" ++ resourceType ++ "/" ++ r.id := by
      have : ("/fhir" : String) ++ "/" = "/fhir/" := by decide
      simp only [String.append_assoc]
      rw [← String.append_assoc "/fhir" "/", this]
    rw [List.getElem?_map, hr, hurl]
    rfl
  · intro ns hfind hall
    simp [searchResources, hfind, hall]

/-- Witness of C20: the bundle sent for the name search `Jones` on
`searchStore`. -/
theorem searchBundle_entries_witness :
    ApiNamespace.findByName searchStore "Patient" =
      Except.ok (some (ApiNamespace.new
        { id := "ns-patient", name := "Patient", version := "1",
          properties := [("resource_type", JsVal.str "fhir")],
          created_at := "2024-01-01T00:00:00Z", updated_at := "2024-01-01T00:00:00Z" })) ∧
    searchResources searchStore "http" (some "localhost:3001") "Patient"
        [("name", JsVal.str "Jones")] =
      Except.ok
        { status := 200, location := none,
          body := JsVal.obj
            (searchBundle "http" (some "localhost:3001") "Patient" [jonesRecord]) } :=
  ⟨rfl,
    (searchBundle_entries searchStore "http" (some "localhost:3001") "Patient"
      [("name", JsVal.str "Jones")] [jonesRecord]).2.2 _ rfl rfl⟩

/-! ## What `toFhir` reads and which keys it writes -/

theorem keys_defineProp (o : Obj) (k : String) (v : JsVal) (k' : String) :
    k' ∈ (defineProp o k v).map (fun kv => kv.1) ↔ k' = k ∨ k' ∈ o.map (fun kv => kv.1) := by
  induction o with
  | nil => simp [defineProp]
  | cons kv rest ih =>
    obtain ⟨k0, v0⟩ := kv
    by_cases h0 : k0 = k
    · subst h0
      simp [defineProp]
    · simp only [defineProp, h0, if_false, List.map_cons, List.mem_cons, ih]
      tauto

theorem keys_spreadInto (source : Obj) (target : Obj) (k : String) :
    k ∈ (spreadInto target source).map (fun kv => kv.1) ↔
      k ∈ target.map (fun kv => kv.1) ∨ k ∈ source.map (fun kv => kv.1) := by
  induction source generalizing target with
  | nil => simp [spreadInto]
  | cons kv rest ih =>
    obtain ⟨k0, v0⟩ := kv
    rw [spreadInto, ih, keys_defineProp]
    simp only [List.map_cons, List.mem_cons]
    tauto

/-- C21: `toFhir` reads the id, `updated_at` and the stored properties of a
resource and nothing else, so two resources that differ only in
`api_namespace_id` and `created_at` have the same `toFhir()` output; the keys
of the output are exactly `resourceType`, `id`, `meta` and the keys of the
stored properties. -/
theorem toFhir_reads_no_storage_field (r r' : ApiResource) (hid : r.id = r'.id)
    (hp : r.properties = r'.properties) (hu : r.updated_at = r'.updated_at) :
    r.toFhir = r'.toFhir ∧
    ∀ k, k ∈ r.toFhir.map (fun kv => kv.1) ↔
      (k = "resourceType" ∨ k = "id" ∨ k = "meta" ∨ k ∈ r.properties.map (fun kv => kv.1)) := by
  refine ⟨?_, ?_⟩
  · simp only [ApiResource.toFhir, hid, hp, hu]
  · intro k
    simp only [ApiResource.toFhir, keys_spreadInto, List.map_cons, List.map_nil, List.mem_cons,
      List.mem_nil_iff, or_false, or_assoc]

/-- Witness of C21: `sampleResource` and a copy of it under another namespace
with another creation time. -/
theorem toFhir_reads_no_storage_field_witness :
    sampleResource.toFhir =
      ({ sampleResource with api_namespace_id := "ns-other",
                             created_at := "2023-06-01T00:00:00Z" } : ApiResource).toFhir :=
  (toFhir_reads_no_storage_field sampleResource
    { sampleResource with api_namespace_id := "ns-other", created_at := "2023-06-01T00:00:00Z" }
    rfl rfl rfl).1

/-! ## What `errorHandler` sends -/

/-- C22: `errorHandler` chooses the body by the path alone.  When the path
starts with `/fhir` the body is an `OperationOutcome` whose `issue` holds one
entry with `severity`, `code` and `diagnostics`; otherwise it is
`{ error: { message, code, statusCode } }`.  The status is `err.statusCode`,
or 500 when the error has none (a `statusCode` of 0 counts as none). -/
theorem errorHandler_body_by_path (err : Thrown) (path : String) :
    ("/fhir".toList <+: path.toList →
      ∃ severity code diagnostics : String,
        (errorHandler err path).body =
          JsVal.obj
            [ ("resourceType", JsVal.str "OperationOutcome"),
              ("issue",
                JsVal.arr
                  [ JsVal.obj
                      [ ("severity", JsVal.str severity),
                        ("code", JsVal.str code),
                        ("diagnostics", JsVal.str diagnostics) ] ]) ]) ∧
    (¬ "/fhir".toList <+: path.toList →
      ∃ (message : String) (code : JsVal),
        (errorHandler err path).body =
          JsVal.obj
            [ ("error",
                JsVal.obj
                  [ ("message", JsVal.str message),
                    ("code", code),
                    ("statusCode", JsVal.num (errorHandler err path).status) ]) ]) ∧
    (∀ n, err.statusCode = some n → n ≠ 0 → (errorHandler err path).status = n) ∧
    (err.statusCode = none ∨ err.statusCode = some 0 → (errorHandler err path).status = 500) := by
  have hstatus : (errorHandler err path).status = errorStatus err := by
    unfold errorHandler
    split <;> rfl
  refine ⟨?_, ?_, ?_, ?_⟩
  · intro h
    have hp : isFhirRequest path = true := List.isPrefixOf_iff_prefix.mpr h
    simp only [errorHandler, hp, if_true]
    exact ⟨_, _, _, rfl⟩
  · intro h
    have hp : isFhirRequest path = false := by
      cases hb : isFhirRequest path with
      | false => rfl
      | true => exact absurd (List.isPrefixOf_iff_prefix.mp hb) h
    rw [hstatus]
    simp only [errorHandler, hp]
    exact ⟨_, _, rfl⟩
  · intro n hn hne
    rw [hstatus]
    cases n with
    | zero => exact absurd rfl hne
    | succ m => simp [errorStatus, hn]
  · intro h
    rw [hstatus]
    rcases h with h | h <;> simp [errorStatus, h]

/-- C23, evaluated at two storage faults: both are rendered with status 500,
and the text sent to the caller is the message of the fault itself, on a path
under `/fhir` and on another path. -/
theorem internal_error_message_is_rendered :
    (errorHandler connectionFault "/fhir/Patient").status = 500 ∧
    (errorHandler uniqueViolation "/fhir/Patient").status = 500 ∧
    (errorHandler connectionFault "/fhir/Patient").body =
      JsVal.obj
        [ ("resourceType", JsVal.str "OperationOutcome"),
          ("issue",
            JsVal.arr
              [ JsVal.obj
                  [ ("severity", JsVal.str "error"),
                    ("code", JsVal.str "08006"),
                    ("diagnostics", JsVal.str "connection to server at 10.0.0.5 failed") ] ]) ] ∧
    (errorHandler connectionFault "/fhir/Patient").body ≠
      (errorHandler uniqueViolation "/fhir/Patient").body ∧
    (errorHandler connectionFault "/api/v1/api_resources").body =
      JsVal.obj
        [ ("error",
            JsVal.obj
              [ ("message", JsVal.str "connection to server at 10.0.0.5 failed"),
                ("code", JsVal.str "08006"),
                ("statusCode", JsVal.num 500) ]) ] ∧
    (errorHandler connectionFault "/api/v1/api_resources").body ≠
      (errorHandler uniqueViolation "/api/v1/api_resources").body := by
  refine ⟨rfl, rfl, rfl, ?_, rfl, ?_⟩
  · intro h
    simp [errorHandler, isFhirRequest, errorStatus, connectionFault, uniqueViolation,
      postgrestError] at h
  · intro h
    simp [errorHandler, isFhirRequest, errorStatus, connectionFault, uniqueViolation,
      postgrestError] at h

/-- C23, as the code has it: for every error, whatever its status, the text
sent to the caller is the message of the error itself; the fixed texts
`An error occurred` (paths under `/fhir`) and `Internal server error` (other
paths) are sent only for an error whose message is empty. -/
theorem errorHandler_renders_own_message (err : Thrown) (path : String) :
    (isFhirRequest path = true →
      ∃ severity code : String,
        (errorHandler err path).body =
          JsVal.obj
            [ ("resourceType", JsVal.str "OperationOutcome"),
              ("issue",
                JsVal.arr
                  [ JsVal.obj
                      [ ("severity", JsVal.str severity),
                        ("code", JsVal.str code),
                        ("diagnostics",
                          JsVal.str
                            (if err.message = "" then "An error occurred"
                             else err.message)) ] ]) ]) ∧
    (isFhirRequest path = false →
      ∃ code : JsVal,
        (errorHandler err path).body =
          JsVal.obj
            [ ("error",
                JsVal.obj
                  [ ("message",
                      JsVal.str
                        (if err.message = "" then "Internal server error" else err.message)),
                    ("code", code),
                    ("statusCode", JsVal.num (errorStatus err)) ]) ]) := by
  refine ⟨?_, ?_⟩
  · intro hp
    simp only [errorHandler, hp, if_true]
    exact ⟨_, _, rfl⟩
  · intro hp
    simp only [errorHandler, hp]
    exact ⟨_, rfl⟩

/-! ## A record without a resource type -/

/-- C30: for every record whose `resourceType` is absent or the empty text,
`validateFhirResource` returns `valid = false` with the errors
`['Missing resourceType']`, and so does the same function over any other
table of schemas: no schema is read. -/
theorem validateFhirResource_missing_type (o : Obj)
    (h : lookupOwn o "resourceType" = none ∨
      lookupOwn o "resourceType" = some (JsVal.str "")) :
    validateFhirResource (JsVal.obj o) =
      Except.ok { valid := false, errors := ["Missing resourceType"], warnings := none } ∧
    (∀ table : List (String × Schema),
      validateOver table (JsVal.obj o) =
        Except.ok { valid := false, errors := ["Missing resourceType"], warnings := none }) ∧
    (∀ resource : JsVal, validateOver fhirSchemas resource = validateFhirResource resource) := by
  have hover : ∀ table : List (String × Schema),
      validateOver table (JsVal.obj o) =
        Except.ok { valid := false, errors := ["Missing resourceType"], warnings := none } := by
    intro table
    rcases h with h | h <;> simp [validateOver, readProp, getProp, h, truthy]
  exact ⟨hover fhirSchemas, hover, fun _ => rfl⟩

/-- Witness of C30: the record `{ gender: 'female' }`, which has no
`resourceType`. -/
theorem validateFhirResource_missing_type_witness :
    validateFhirResource (JsVal.obj [("gender", JsVal.str "female")]) =
      Except.ok { valid := false, errors := ["Missing resourceType"], warnings := none } :=
  (validateFhirResource_missing_type [("gender", JsVal.str "female")] (Or.inl rfl)).1

/-! ## Selecting a resource by id -/

theorem filter_id_singleton (rows : List ApiResource) (r : ApiResource) (hr : r ∈ rows)
    (hids : (rows.map (fun row => row.id)).Nodup) :
    rows.filter (fun row => row.id = r.id) = [r] := by
  induction rows with
  | nil => cases hr
  | cons x xs ih =>
    have hnd : x.id ∉ xs.map (fun row => row.id) ∧ (xs.map (fun row => row.id)).Nodup := by
      simpa using hids
    rcases List.mem_cons.mp hr with h | h
    · subst h
      have hnone : xs.filter (fun row => row.id = r.id) = [] := by
        rw [List.filter_eq_nil_iff]
        intro y hy hyid
        exact hnd.1 (List.mem_map.mpr ⟨y, hy, by simpa using hyid⟩)
      simp [List.filter, hnone]
    · have hne : ¬ x.id = r.id := fun e => hnd.1 (List.mem_map.mpr ⟨r, h, e.symm⟩)
      simp [List.filter, hne, ih h hnd.2]

theorem findById_of_stored (s : Store) (r : ApiResource) (hr : r ∈ s.api_resources)
    (hids : distinctResourceIds s) : ApiResource.findById s r.id = Except.ok (some r) := by
  unfold ApiResource.findById
  rw [filter_id_singleton s.api_resources r hr hids]
  rfl

theorem findById_of_missing (s : Store) (id : String)
    (h : ∀ row, row ∈ s.api_resources → row.id ≠ id) :
    ApiResource.findById s id = Except.ok none := by
  unfold ApiResource.findById
  have hnone : s.api_resources.filter (fun row => row.id = id) = [] := by
    rw [List.filter_eq_nil_iff]
    intro y hy hyid
    exact h y hy (by simpa using hyid)
  rw [hnone]
  rfl

theorem findById_none (s : Store) (id : String)
    (h : ApiResource.findById s id = Except.ok none) :
    ∀ row, row ∈ s.api_resources → row.id ≠ id := by
  unfold ApiResource.findById at h
  have hnone := maybeSingle_none _ h
  rw [List.filter_eq_nil_iff] at hnone
  intro row hrow hid
  exact hnone row hrow (by simpa using hid)

theorem putResource_after_validation (now : String) (s : Store) (T : String) (id : String)
    (o : Obj) (v : ValidationResult)
    (hrt : lookupOwn o "resourceType" = some (JsVal.str T))
    (hv : validateFhirResource (JsVal.obj o) = Except.ok v) (hvalid : v.valid = true) :
    putResource now s T id (JsVal.obj o) =
      match ApiResource.findById s id with
      | Except.error e => { store := s, result := Except.error e }
      | Except.ok none =>
        { store := s, result := Except.error (NotFoundError (T ++ "/" ++ id ++ " not found")) }
      | Except.ok (some resource) =>
        match (resource.update s now (JsVal.obj (restWithout ["id", "meta"] o))).result with
        | Except.error e =>
          { store := (resource.update s now (JsVal.obj (restWithout ["id", "meta"] o))).store,
            result := Except.error e }
        | Except.ok row =>
          { store := (resource.update s now (JsVal.obj (restWithout ["id", "meta"] o))).store,
            result :=
              Except.ok { status := 200, location := none, body := JsVal.obj row.toFhir } } := by
  simp only [putResource, readProp, getProp, hrt, Option.getD_some, strictEqStr, beq_self_eq_true,
    Bool.not_true, hv, hvalid, ownEnumerable]
  rfl

theorem putResource_not_found (now : String) (s : Store) (T : String) (id : String)
    (body : JsVal) (e : Thrown) (h : (putResource now s T id body).result = Except.error e)
    (hcls : e.cls = ErrorClass.NotFoundError) :
    ApiResource.findById s id = Except.ok none := by
  cases hread : readProp body "resourceType" with
  | error e' =>
    simp [putResource, hread] at h
    have := readProp_error_cls _ _ _ hread
    rw [h, hcls] at this
    cases this
  | ok bodyType =>
    cases hmatch : strictEqStr bodyType T with
    | false =>
      simp [putResource, hread, hmatch] at h
      rw [← h] at hcls
      cases hcls
    | true =>
      cases hval : validateFhirResource body with
      | error e' =>
        simp [putResource, hread, hmatch, hval] at h
        have := validateFhirResource_error_cls _ _ hval
        rw [h, hcls] at this
        rcases this with this | this <;> cases this
      | ok validation =>
        cases hvalid : validation.valid with
        | false =>
          simp [putResource, hread, hmatch, hval, hvalid] at h
          rw [← h] at hcls
          cases hcls
        | true =>
          cases hfind : ApiResource.findById s id with
          | error e' =>
            simp [putResource, hread, hmatch, hval, hvalid, hfind] at h
            have := findById_error_cls _ _ _ hfind
            rw [h, hcls] at this
            cases this
          | ok found =>
            cases found with
            | none => rfl
            | some resource =>
              obtain ⟨row, hrow⟩ := update_result_ok s now resource
                (JsVal.obj (restWithout ["id", "meta"] (ownEnumerable body)))
                (findById_filter s id resource hfind)
              simp [putResource, hread, hmatch, hval, hvalid, hfind, hrow] at h

/-! ## `authorize` -/

/-- C26: `authorize(...allowedRoles)` calls `next()` exactly when `req.user`
is present and `req.user.role` is one of `allowedRoles`; otherwise it passes
an `UnauthorizedError` (status 401) to `next` and the handler behind it does
not run, whatever that handler is.  So the create and update routes under
`/fhir` run their handler only for the roles `practitioner` and `admin`, and
the delete route only for `admin`; every other request ends with the
`UnauthorizedError` and the store as it was. -/
theorem authorize_lets_through_iff (allowedRoles : List String) (user : Option Obj) :
    (authorize allowedRoles user = Except.ok () ↔
      ∃ u, user = some u ∧ ∃ role, role ∈ allowedRoles ∧ getProp u "role" = JsVal.str role) ∧
    (authorize allowedRoles user = Except.ok () ∨
      ∃ message, authorize allowedRoles user = Except.error (UnauthorizedError message) ∧
        (UnauthorizedError message).statusCode = some 401 ∧
        ∀ (α : Type) (s : Store) (handler : Step α),
          authorized allowedRoles user s handler =
            { store := s, result := Except.error (UnauthorizedError message) }) ∧
    (authorize allowedRoles user = Except.ok () →
      ∀ (α : Type) (s : Store) (handler : Step α),
        authorized allowedRoles user s handler = handler) ∧
    (∀ (draws : CreateDraws) (now : String) (s : Store) (T id : String) (body : JsVal),
      ((∃ u, user = some u ∧
          (getProp u "role" = JsVal.str "practitioner" ∨ getProp u "role" = JsVal.str "admin")) →
        createRoute user draws s T body = postResource draws s T body ∧
        updateRoute user now s T id body = putResource now s T id body) ∧
      ((¬ ∃ u, user = some u ∧
          (getProp u "role" = JsVal.str "practitioner" ∨ getProp u "role" = JsVal.str "admin")) →
        ∃ message,
          createRoute user draws s T body =
            { store := s, result := Except.error (UnauthorizedError message) } ∧
          updateRoute user now s T id body =
            { store := s, result := Except.error (UnauthorizedError message) }) ∧
      ((∃ u, user = some u ∧ getProp u "role" = JsVal.str "admin") →
        deleteRoute user s T id = deleteResource s T id) ∧
      ((¬ ∃ u, user = some u ∧ getProp u "role" = JsVal.str "admin") →
        ∃ message,
          deleteRoute user s T id =
            { store := s, result := Except.error (UnauthorizedError message) })) := by
  have hiff : ∀ roles : List String, authorize roles user = Except.ok () ↔
      ∃ u, user = some u ∧ ∃ role, role ∈ roles ∧ getProp u "role" = JsVal.str role := by
    intro roles
    cases user with
    | none => simp [authorize]
    | some u =>
      cases hany : roles.any (fun role => strictEqStr (getProp u "role") role) with
      | false =>
        simp only [authorize, hany]
        simp only [List.any_eq_false, strictEqStr_eq_true] at hany
        constructor
        · intro h
          cases h
        · rintro ⟨u', hu, role, hrole, hget⟩
          cases hu
          exact absurd hget (hany role hrole)
      | true =>
        simp only [authorize, hany]
        simp only [List.any_eq_true, strictEqStr_eq_true] at hany
        constructor
        · intro _
          exact ⟨u, rfl, hany⟩
        · intro _
          rfl
  have hrefused : ∀ roles : List String, authorize roles user ≠ Except.ok () →
      ∃ message, authorize roles user = Except.error (UnauthorizedError message) ∧
        ∀ (α : Type) (s : Store) (handler : Step α),
          authorized roles user s handler =
            { store := s, result := Except.error (UnauthorizedError message) } := by
    intro roles hne
    cases user with
    | none =>
      refine ⟨"Authentication required", rfl, ?_⟩
      intro α s handler
      rfl
    | some u =>
      cases hany : roles.any (fun role => strictEqStr (getProp u "role") role) with
      | false =>
        refine ⟨"Insufficient permissions", by simp [authorize, hany], ?_⟩
        intro α s handler
        simp [authorized, authorize, hany]
      | true =>
        exact absurd (by simp [authorize, hany]) hne
  have hpassed : ∀ roles : List String, authorize roles user = Except.ok () →
      ∀ (α : Type) (s : Store) (handler : Step α), authorized roles user s handler = handler := by
    intro roles hok α s handler
    simp [authorized, hok]
  refine ⟨hiff allowedRoles, ?_, hpassed allowedRoles, ?_⟩
  · by_cases hok : authorize allowedRoles user = Except.ok ()
    · exact Or.inl hok
    · obtain ⟨message, hm, hrun⟩ := hrefused allowedRoles hok
      exact Or.inr ⟨message, hm, rfl, hrun⟩
  · intro draws now s T id body
    have hwrite : authorize ["practitioner", "admin"] user = Except.ok () ↔
        ∃ u, user = some u ∧
          (getProp u "role" = JsVal.str "practitioner" ∨ getProp u "role" = JsVal.str "admin") := by
      rw [hiff]
      constructor
      · rintro ⟨u, hu, role, hrole, hget⟩
        refine ⟨u, hu, ?_⟩
        simp only [List.mem_cons, List.mem_singleton, List.mem_nil_iff, or_false] at hrole
        rcases hrole with h | h
        · exact Or.inl (h ▸ hget)
        · exact Or.inr (h ▸ hget)
      · rintro ⟨u, hu, h | h⟩
        · exact ⟨u, hu, "practitioner", by simp, h⟩
        · exact ⟨u, hu, "admin", by simp, h⟩
    have hdelete : authorize ["admin"] user = Except.ok () ↔
        ∃ u, user = some u ∧ getProp u "role" = JsVal.str "admin" := by
      rw [hiff]
      constructor
      · rintro ⟨u, hu, role, hrole, hget⟩
        simp only [List.mem_singleton] at hrole
        exact ⟨u, hu, hrole ▸ hget⟩
      · rintro ⟨u, hu, h⟩
        exact ⟨u, hu, "admin", by simp, h⟩
    refine ⟨?_, ?_, ?_, ?_⟩
    · intro h
      have hok := hwrite.mpr h
      exact ⟨hpassed _ hok _ s _, hpassed _ hok _ s _⟩
    · intro h
      obtain ⟨message, _, hrun⟩ := hrefused ["practitioner", "admin"] (fun hok => h (hwrite.mp hok))
      exact ⟨message, hrun _ s _, hrun _ s _⟩
    · intro h
      exact hpassed _ (hdelete.mpr h) _ s _
    · intro h
      obtain ⟨message, _, hrun⟩ := hrefused ["admin"] (fun hok => h (hdelete.mp hok))
      exact ⟨message, hrun _ s _⟩

/-! ## Writes against a missing target -/

theorem namespace_findById_of_missing (s : Store) (id : String)
    (h : ∀ row, row ∈ s.api_namespaces → row.id ≠ id) :
    ApiNamespace.findById s id = Except.ok none := by
  unfold ApiNamespace.findById
  have hnone : s.api_namespaces.filter (fun row => row.id = id) = [] := by
    rw [List.filter_eq_nil_iff]
    intro y hy hyid
    exact h y hy (by simpa using hyid)
  rw [hnone]
  rfl

/-- C24, evaluated on `emptyStore` with the uuid `missingId`, which no
resource and no namespace has: an update under `/fhir` whose body names
another type ends with a `ValidationError` (status 400), not with a
`NotFoundError`; and `ApiResource.create` under the missing namespace ends
with the foreign-key error of the storage engine, which is no `NotFoundError`
and is rendered with status 500. -/
theorem missing_target_other_failures :
    isUuid missingId = true ∧
    (∀ row, row ∈ emptyStore.api_resources → row.id ≠ missingId) ∧
    putResource "2024-03-01T00:00:00Z" emptyStore "Patient" missingId
        (JsVal.obj [("resourceType", JsVal.str "Observation")]) =
      { store := emptyStore,
        result :=
          Except.error
            (ValidationError "Resource type mismatch: expected Patient, got Observation") } ∧
    (errorHandler (ValidationError "Resource type mismatch: expected Patient, got Observation")
      "/fhir/Patient/0f9d1c2e-5b7a-4c3d-9e8f-000000000404").status = 400 ∧
    (∀ row, row ∈ emptyStore.api_namespaces → row.id ≠ missingId) ∧
    ApiResource.create emptyStore uuidDraw missingId patientBody =
      { store := emptyStore, result := Except.error foreignKeyViolation } ∧
    foreignKeyViolation.cls = ErrorClass.PostgrestError ∧
    (errorHandler foreignKeyViolation "/api/v1/api_resources").status = 500 :=
  ⟨by decide, by decide, rfl, rfl, by decide, rfl, rfl, rfl⟩

/-- C24 as amended, for an id that is a canonical uuid and that no stored
resource has: `ApiResource.findById` finds nothing, and the delete under
`/fhir`, the update and the delete of the generic route, and the update under
`/fhir` whose body passes the type check and the structural validation, all
end with a `NotFoundError` and leave the store unchanged; an update under
`/fhir` whose body fails one of the two checks ends with a `ValidationError`
and leaves the store unchanged.  The create of the generic route with truthy
`namespace_id` and `properties` ends with a `NotFoundError` and an unchanged
store when `namespace_id` is a canonical uuid that no namespace has;
`ApiResource.create` itself then fails with the foreign-key error of the
storage engine, also leaving the store unchanged.  A `NotFoundError` is
rendered with status 404. -/
theorem missing_target_not_found (now : String) (draw : Draw) (s : Store) (T : String)
    (id : String) :
    isUuid id = true → (∀ row, row ∈ s.api_resources → row.id ≠ id) →
    ApiResource.findById s id = Except.ok none ∧
    (∀ (o : Obj) (v : ValidationResult),
      lookupOwn o "resourceType" = some (JsVal.str T) →
      validateFhirResource (JsVal.obj o) = Except.ok v → v.valid = true →
      putResource now s T id (JsVal.obj o) =
        { store := s, result := Except.error (NotFoundError (T ++ "/" ++ id ++ " not found")) }) ∧
    (∀ (body w : JsVal),
      readProp body "resourceType" = Except.ok w → strictEqStr w T = false →
      ∃ message, putResource now s T id body =
        { store := s, result := Except.error (ValidationError message) }) ∧
    (∀ (body w : JsVal) (v : ValidationResult),
      readProp body "resourceType" = Except.ok w → strictEqStr w T = true →
      validateFhirResource body = Except.ok v → v.valid = false →
      ∃ message, putResource now s T id body =
        { store := s, result := Except.error (ValidationError message) }) ∧
    deleteResource s T id =
      { store := s, result := Except.error (NotFoundError (T ++ "/" ++ id ++ " not found")) } ∧
    (∀ body : JsVal,
      putApiResource now s id body =
        { store := s, result := Except.error (NotFoundError "API Resource not found") }) ∧
    deleteApiResource s id =
      { store := s, result := Except.error (NotFoundError "API Resource not found") } ∧
    (∀ (body namespace_id properties : JsVal),
      readProp body "namespace_id" = Except.ok namespace_id →
      readProp body "properties" = Except.ok properties →
      truthy namespace_id = true → truthy properties = true →
      isUuid namespace_id.toJsString = true →
      (∀ row, row ∈ s.api_namespaces → row.id ≠ namespace_id.toJsString) →
      postApiResource draw s body =
        some { store := s, result := Except.error (NotFoundError "API Namespace not found") }) ∧
    (∀ (namespaceId : String) (properties : Obj),
      isUuid namespaceId = true →
      (∀ row, row ∈ s.api_namespaces → row.id ≠ namespaceId) →
      ApiResource.create s draw namespaceId properties =
        { store := s, result := Except.error foreignKeyViolation }) ∧
    (∀ message path : String, (errorHandler (NotFoundError message) path).status = 404) := by
  intro _ hmissing
  have hfind := findById_of_missing s id hmissing
  refine ⟨hfind, ?_, ?_, ?_, ?_, ?_, ?_, ?_, ?_, ?_⟩
  · intro o v hrt hv hvalid
    rw [putResource_after_validation now s T id o v hrt hv hvalid, hfind]
  · intro body w hread hmatch
    exact ⟨_, by simp only [putResource, hread, hmatch]; rfl⟩
  · intro body w v hread hmatch hval hvalid
    exact ⟨_, by simp only [putResource, hread, hmatch, hval, hvalid]; rfl⟩
  · simp only [deleteResource, hfind]
  · intro body
    simp only [putApiResource, hfind]
  · simp only [deleteApiResource, hfind]
  · intro body namespace_id properties hns hprops htn htp _ hnone
    simp only [postApiResource, hns, hprops, htn, htp,
      namespace_findById_of_missing s _ hnone]
    rfl
  · intro namespaceId properties _ hnone
    have hany : s.api_namespaces.any (fun row => row.id = namespaceId) = false := by
      rw [List.any_eq_false]
      intro row hrow
      simpa using hnone row hrow
    simp [ApiResource.create, hany]
  · intro message path
    unfold errorHandler
    split <;> rfl

/-- Witness of C24: the delete of the uuid `missingId` under `/fhir`, on
`emptyStore`. -/
theorem missing_target_not_found_witness :
    isUuid missingId = true ∧
    (∀ row, row ∈ emptyStore.api_resources → row.id ≠ missingId) ∧
    deleteResource emptyStore "Patient" missingId =
      { store := emptyStore,
        result := Except.error (NotFoundError ("Patient" ++ "/" ++ missingId ++ " not found")) } :=
  ⟨by decide, by decide,
    (missing_target_not_found "2024-03-01T00:00:00Z" uuidDraw emptyStore "Patient" missingId
      (by decide) (by decide)).2.2.2.2.1⟩

/-! ## Deleting a namespace -/

theorem cascade_any (s : Store) (ns : ApiNamespace)
    (hns : ∃ row, row ∈ s.api_namespaces ∧ row.id = ns.id) (r : ApiResource) :
    ((s.api_namespaces.filter (fun row => row.id = ns.id)).any
      (fun row => r.api_namespace_id = row.id)) = decide (r.api_namespace_id = ns.id) := by
  rw [Bool.eq_iff_iff, List.any_eq_true, decide_eq_true_iff]
  constructor
  · rintro ⟨row, hrow, heq⟩
    rw [List.mem_filter] at hrow
    have h1 : row.id = ns.id := by simpa using hrow.2
    have h2 : r.api_namespace_id = row.id := by simpa using heq
    rw [h2, h1]
  · intro h
    obtain ⟨row, hrow, hid⟩ := hns
    refine ⟨row, ?_, ?_⟩
    · rw [List.mem_filter]
      exact ⟨hrow, by simpa using hid⟩
    · simpa [hid] using h

/-- C25: after `ApiNamespace.destroy` of a stored namespace, no stored
resource has the id of that namespace as `api_namespace_id` and no namespace
has that id; for every resource that belonged to it, `ApiResource.findById`
finds nothing, so both read routes end with a `NotFoundError`.  The resources
of the other namespaces stay. -/
theorem namespace_destroy_cascades (s : Store) (ns : ApiNamespace)
    (hns : ∃ row, row ∈ s.api_namespaces ∧ row.id = ns.id)
    (hids : distinctResourceIds s) :
    (ns.destroy s).result = Except.ok true ∧
    (∀ row, row ∈ (ns.destroy s).store.api_namespaces → row.id ≠ ns.id) ∧
    (∀ r, r ∈ (ns.destroy s).store.api_resources → r.api_namespace_id ≠ ns.id) ∧
    (∀ r, r ∈ s.api_resources → r.api_namespace_id ≠ ns.id →
      r ∈ (ns.destroy s).store.api_resources) ∧
    (∀ r, r ∈ s.api_resources → r.api_namespace_id = ns.id →
      ApiResource.findById (ns.destroy s).store r.id = Except.ok none ∧
      (∀ T : String,
        getResource (ns.destroy s).store T r.id =
          Except.error (NotFoundError (T ++ "/" ++ r.id ++ " not found"))) ∧
      getApiResource (ns.destroy s).store r.id =
        Except.error (NotFoundError "API Resource not found")) := by
  have hres : (ns.destroy s).store.api_resources =
      s.api_resources.filter (fun r => !decide (r.api_namespace_id = ns.id)) := by
    simp only [ApiNamespace.destroy, cascade_any s ns hns]
  refine ⟨rfl, ?_, ?_, ?_, ?_⟩
  · intro row hrow
    simp only [ApiNamespace.destroy, List.mem_filter] at hrow
    simpa using hrow.2
  · intro r hr
    rw [hres, List.mem_filter] at hr
    simpa using hr.2
  · intro r hr hne
    rw [hres, List.mem_filter]
    exact ⟨hr, by simpa using hne⟩
  · intro r hr hbelongs
    have hfind : ApiResource.findById (ns.destroy s).store r.id = Except.ok none := by
      apply findById_of_missing
      intro row hrow hid
      rw [hres, List.mem_filter] at hrow
      have hsame : row = r := List.inj_on_of_nodup_map hids hrow.1 hr hid
      rw [hsame] at hrow
      simp [hbelongs] at hrow
    refine ⟨hfind, ?_, ?_⟩
    · intro T
      simp only [getResource, hfind]
    · simp only [getApiResource, hfind]

/-- Witness of C25: the `Patient` namespace of `sampleStore` and its resource
`r-1`. -/
theorem namespace_destroy_cascades_witness :
    (∃ row, row ∈ sampleStore.api_namespaces ∧ row.id = patientNamespace.id) ∧
    distinctResourceIds sampleStore ∧
    ApiResource.findById (patientNamespace.destroy sampleStore).store sampleResource.id =
      Except.ok none :=
  ⟨⟨patientNamespace, List.mem_cons_self _ _, rfl⟩, by decide,
    ((namespace_destroy_cascades sampleStore patientNamespace
      ⟨patientNamespace, List.mem_cons_self _ _, rfl⟩ (by decide)).2.2.2.2 sampleResource
      (List.mem_cons_self _ _) rfl).1⟩

/-! ## The routes under `/fhir` select by id -/

/-- C28: the read, update and delete routes under `/fhir` select their target
by id alone.  For every stored resource `r` and every path type `T`,
`GET /fhir/T/{r.id}` returns `r.toFhir()`, `DELETE` removes `r`, and a `PUT`
whose body passes the type check and the validation for `T` writes the merge
into `r`, whatever the namespace and the `resourceType` of `r`.  A
`NotFoundError` from one of the three routes means that no stored resource has
the id. -/
theorem fhir_routes_select_by_id (now : String) (s : Store) (T : String) (r : ApiResource)
    (hr : r ∈ s.api_resources) (hids : distinctResourceIds s) :
    getResource s T r.id =
      Except.ok { status := 200, location := none, body := JsVal.obj r.toFhir } ∧
    deleteResource s T r.id =
      { store :=
          { s with api_resources := s.api_resources.filter (fun row => !decide (row.id = r.id)) },
        result := Except.ok { status := 204, location := none, body := JsVal.undefined } } ∧
    (∀ (o : Obj) (v : ValidationResult),
      lookupOwn o "resourceType" = some (JsVal.str T) →
      validateFhirResource (JsVal.obj o) = Except.ok v → v.valid = true →
      (∃ resp, (putResource now s T r.id (JsVal.obj o)).result = Except.ok resp) ∧
      (putResource now s T r.id (JsVal.obj o)).store.api_resources =
        s.api_resources.map (fun row =>
          if row.id = r.id then
            { row with
              properties := r.mergedProperties (JsVal.obj (restWithout ["id", "meta"] o)),
              updated_at := now }
          else row)) ∧
    (∀ (id : String) (body : JsVal) (e : Thrown),
      (getResource s T id = Except.error e ∨ (deleteResource s T id).result = Except.error e ∨
        (putResource now s T id body).result = Except.error e) →
      e.cls = ErrorClass.NotFoundError →
      ∀ row, row ∈ s.api_resources → row.id ≠ id) := by
  have hfind := findById_of_stored s r hr hids
  refine ⟨?_, ?_, ?_, ?_⟩
  · simp only [getResource, hfind]
  · simp only [deleteResource, hfind, ApiResource.destroy]
  · intro o v hrt hv hvalid
    obtain ⟨row, hrow⟩ := update_result_ok s now r
      (JsVal.obj (restWithout ["id", "meta"] o)) (filter_id_singleton _ r hr hids)
    rw [putResource_after_validation now s T r.id o v hrt hv hvalid, hfind]
    simp only [hrow]
    exact ⟨⟨_, rfl⟩, rfl⟩
  · intro id body e h hcls
    apply findById_none
    rcases h with h | h | h
    · cases hf : ApiResource.findById s id with
      | error e' =>
        simp only [getResource, hf] at h
        have := findById_error_cls _ _ _ hf
        simp only [Except.error.injEq] at h
        rw [h, hcls] at this
        cases this
      | ok found =>
        cases found with
        | none => rfl
        | some resource => simp [getResource, hf] at h
    · cases hf : ApiResource.findById s id with
      | error e' =>
        simp only [deleteResource, hf] at h
        have := findById_error_cls _ _ _ hf
        simp only [Except.error.injEq] at h
        rw [h, hcls] at this
        cases this
      | ok found =>
        cases found with
        | none => rfl
        | some resource => simp [deleteResource, hf, ApiResource.destroy] at h
    · exact putResource_not_found now s T id body e h hcls

/-- Witness of C28: the Patient `r-1` of `sampleStore`, read through the path
type `Observation`. -/
theorem fhir_routes_select_by_id_witness :
    sampleResource ∈ sampleStore.api_resources ∧ distinctResourceIds sampleStore ∧
    getResource sampleStore "Observation" sampleResource.id =
      Except.ok { status := 200, location := none, body := JsVal.obj sampleResource.toFhir } :=
  ⟨List.mem_cons_self _ _, by decide,
    (fhir_routes_select_by_id "2024-03-01T00:00:00Z" sampleStore "Observation" sampleResource
      (List.mem_cons_self _ _) (by decide)).1⟩

/-! ## Acceptance under added fields and under the merge -/

theorem validateFhirResource_of_type (o : Obj) (T : String)
    (hrt : lookupOwn o "resourceType" = some (JsVal.str T)) :
    validateFhirResource (JsVal.obj o) =
      if T = "" then
        Except.ok { valid := false, errors := ["Missing resourceType"], warnings := none }
      else
        match readSchema fhirSchemas T with
        | SchemaRead.undefined =>
          Except.ok
            { valid := true, errors := [],
              warnings := some ["No validation schema defined for " ++ T] }
        | SchemaRead.inheritedFunction =>
          Except.error
            { cls := ErrorClass.Error, message := "schema must be object or boolean",
              statusCode := none, code := none }
        | SchemaRead.objectPrototype =>
          Except.ok { valid := true, errors := [], warnings := none }
        | SchemaRead.own schema =>
          match ajvErrors schema "" (JsVal.obj o) with
          | [] => Except.ok { valid := true, errors := [], warnings := none }
          | e :: es =>
            Except.ok
              { valid := false, errors := (e :: es).map renderError, warnings := none } := by
  by_cases hT : T = ""
  · simp [validateFhirResource, readProp, getProp, hrt, truthy, hT]
  · simp [validateFhirResource, readProp, getProp, hrt, truthy, hT, JsVal.toJsString]

theorem accepted_iff_no_errors (S : Schema) (o : Obj) (v : ValidationResult)
    (h : (match ajvErrors S "" (JsVal.obj o) with
      | [] => (Except.ok { valid := true, errors := [], warnings := none } :
          Except Thrown ValidationResult)
      | e :: es =>
        Except.ok { valid := false, errors := (e :: es).map renderError, warnings := none }) =
      Except.ok v)
    (hvalid : v.valid = true) : ajvErrors S "" (JsVal.obj o) = [] := by
  cases herrs : ajvErrors S "" (JsVal.obj o) with
  | nil => rfl
  | cons e es =>
    rw [herrs] at h
    simp only [Except.ok.injEq] at h
    rw [← h] at hvalid
    cases hvalid

theorem definedProp_defineProp_ne (o : Obj) (k : String) (w : JsVal) (k' : String)
    (h : k ≠ k') : definedProp (defineProp o k w) k' = definedProp o k' := by
  simp [definedProp, lookupOwn_defineProp, h]

theorem requiredErrors_congr (required : List String) (path : String) (o o' : Obj)
    (h : ∀ k, k ∈ required → definedProp o' k = definedProp o k) :
    requiredErrors required path o' = requiredErrors required path o := by
  induction required with
  | nil => rfl
  | cons k rest ih =>
    rw [requiredErrors, requiredErrors, h k (List.mem_cons_self _ _),
      ih (fun k' hk' => h k' (List.mem_cons_of_mem _ hk'))]

theorem ajvPropertiesErrors_congr (properties : List (String × Schema)) (path : String)
    (o o' : Obj)
    (h : ∀ k, k ∈ properties.map (fun kv => kv.1) → definedProp o' k = definedProp o k) :
    ajvPropertiesErrors properties path o' = ajvPropertiesErrors properties path o := by
  induction properties with
  | nil => simp only [ajvPropertiesErrors]
  | cons kv rest ih =>
    obtain ⟨k, sub⟩ := kv
    simp only [ajvPropertiesErrors]
    rw [h k (by simp), ih (fun k' hk' => h k' (by simp [List.mem_map] at hk' ⊢; right; exact hk'))]

theorem hasType_obj (t : JType) (o o' : Obj) :
    hasType t (JsVal.obj o) = hasType t (JsVal.obj o') := by
  cases t <;> rfl

theorem ajvErrors_obj_congr (S : Schema) (path : String) (o o' : Obj)
    (hreq : ∀ k, k ∈ S.requiredNames → definedProp o' k = definedProp o k)
    (hdecl : ∀ k, k ∈ S.declared → definedProp o' k = definedProp o k) :
    ajvErrors S path (JsVal.obj o') = ajvErrors S path (JsVal.obj o) := by
  cases S with
  | mk type const enum pattern required properties items =>
    simp only [Schema.requiredNames, Schema.declared] at hreq hdecl
    cases type with
    | none =>
      simp only [ajvErrors, requiredErrors_congr required path o o' hreq,
        ajvPropertiesErrors_congr properties path o o' hdecl, strictEqStr]
    | some t =>
      simp only [ajvErrors, requiredErrors_congr required path o o' hreq,
        ajvPropertiesErrors_congr properties path o o' hdecl, strictEqStr, hasType_obj t o' o]

theorem registered_schema_shape (T : String) (S : Schema)
    (hT : findSchema fhirSchemas T = some S) :
    (∀ k, k ∈ S.requiredNames → k ∈ S.declared) ∧ "resourceType" ∈ S.declared := by
  simp only [fhirSchemas, findSchema] at hT
  split_ifs at hT <;> (simp only [Option.some.injEq] at hT; subst hT; decide)

theorem defineProp_of_new_key (o : Obj) (k : String) (w : JsVal)
    (h : k ∉ o.map (fun kv => kv.1)) : defineProp o k w = o ++ [(k, w)] := by
  induction o with
  | nil => rfl
  | cons kv rest ih =>
    obtain ⟨k0, v0⟩ := kv
    simp only [List.map_cons, List.mem_cons, not_or] at h
    have h0 : ¬ k0 = k := fun e => h.1 e.symm
    simp [defineProp, h0, ih h.2]

/-- C29: a record that `validateFhirResource` accepts for a registered type
is still accepted, with the same result, after a top-level key that the schema
of the type does not declare is set to any value; when the record did not have
the key, that is the record with the key added at its end. -/
theorem undeclared_field_is_accepted (T : String) (S : Schema) (o : Obj) (k : String)
    (w : JsVal) (v : ValidationResult)
    (hT : findSchema fhirSchemas T = some S)
    (hrt : lookupOwn o "resourceType" = some (JsVal.str T))
    (hk : k ∉ S.declared)
    (hacc : validateFhirResource (JsVal.obj o) = Except.ok v) (hvalid : v.valid = true) :
    validateFhirResource (JsVal.obj (defineProp o k w)) = Except.ok v ∧
    v.valid = true ∧
    (k ∉ o.map (fun kv => kv.1) →
      validateFhirResource (JsVal.obj (o ++ [(k, w)])) = Except.ok v) := by
  obtain ⟨hreq, hdeclared⟩ := registered_schema_shape T S hT
  have hne : k ≠ "resourceType" := fun e => hk (e ▸ hdeclared)
  have hrt' : lookupOwn (defineProp o k w) "resourceType" = some (JsVal.str T) := by
    rw [lookupOwn_defineProp, if_neg hne, hrt]
  have hsame : ∀ k', k' ∈ S.declared → definedProp (defineProp o k w) k' = definedProp o k' :=
    fun k' hk' => definedProp_defineProp_ne o k w k' (fun e => hk (e ▸ hk'))
  have hset : validateFhirResource (JsVal.obj (defineProp o k w)) = Except.ok v := by
    rw [validateFhirResource_registered T S _ hT hrt',
      ajvErrors_obj_congr S "" o (defineProp o k w) (fun k' hk' => hsame k' (hreq k' hk')) hsame,
      ← validateFhirResource_registered T S o hT hrt, hacc]
  refine ⟨hset, hvalid, ?_⟩
  intro hnew
  rw [← defineProp_of_new_key o k w hnew]
  exact hset

/-- Witness of C29: the Patient `{ resourceType: 'Patient', gender: 'male' }`
with the undeclared key `favouriteColour`. -/
theorem undeclared_field_is_accepted_witness :
    findSchema fhirSchemas "Patient" = some patientSchema ∧
    "favouriteColour" ∉ patientSchema.declared ∧
    validateFhirResource
        (JsVal.obj (defineProp patientBody "favouriteColour" (JsVal.num 7))) =
      Except.ok { valid := true, errors := [], warnings := none } :=
  ⟨rfl, by decide,
    (undeclared_field_is_accepted "Patient" patientSchema patientBody "favouriteColour"
      (JsVal.num 7) { valid := true, errors := [], warnings := none } rfl rfl (by decide)
      rfl rfl).1⟩

theorem lookupOwn_mergedProperties (self : ApiResource) (new : Obj)
    (hold : distinctKeys self.properties) (hnew : distinctKeys new) (k : String) :
    lookupOwn (self.mergedProperties (JsVal.obj new)) k =
      match lookupOwn new k with
      | some v => some v
      | none => lookupOwn self.properties k := by
  simp only [ApiResource.mergedProperties, ownEnumerable]
  rw [lookupOwn_spreadInto new hnew, lookupOwn_spreadInto self.properties hold]
  cases lookupOwn new k with
  | some v => rfl
  | none =>
    cases lookupOwn self.properties k with
    | some v => rfl
    | none => rfl

theorem definedProp_of_merge (old new merged : Obj)
    (hl : ∀ k, lookupOwn merged k =
      match lookupOwn new k with
      | some v => some v
      | none => lookupOwn old k) (k : String) :
    (definedProp merged k = definedProp new k ∨ definedProp merged k = definedProp old k) ∧
    ((definedProp new k).isSome = true → (definedProp merged k).isSome = true) := by
  have h := hl k
  cases hn : lookupOwn new k with
  | some v =>
    rw [hn] at h
    have e : definedProp merged k = definedProp new k := by
      simp only [definedProp, h, hn]
    exact ⟨Or.inl e, fun x => e ▸ x⟩
  | none =>
    rw [hn] at h
    have e : definedProp merged k = definedProp old k := by
      simp only [definedProp, h]
    exact ⟨Or.inr e, fun x => by simp [definedProp, hn] at x⟩

theorem fieldsSatisfy_of_pointwise (properties : List (String × Schema)) (old new merged : Obj)
    (h : ∀ k, definedProp merged k = definedProp new k ∨
      definedProp merged k = definedProp old k)
    (h1 : fieldsSatisfy properties old = true) (h2 : fieldsSatisfy properties new = true) :
    fieldsSatisfy properties merged = true := by
  induction properties with
  | nil => simp only [fieldsSatisfy]
  | cons kv rest ih =>
    obtain ⟨k, sub⟩ := kv
    simp only [fieldsSatisfy, Bool.and_eq_true] at h1 h2 ⊢
    refine ⟨?_, ih h1.2 h2.2⟩
    rcases h k with hk | hk
    · rw [hk]
      exact h2.1
    · rw [hk]
      exact h1.1

theorem satisfiedBy_merge (S : Schema) (old new merged : Obj)
    (hl : ∀ k, lookupOwn merged k =
      match lookupOwn new k with
      | some v => some v
      | none => lookupOwn old k)
    (h1 : S.satisfiedBy (JsVal.obj old) = true) (h2 : S.satisfiedBy (JsVal.obj new) = true) :
    S.satisfiedBy (JsVal.obj merged) = true := by
  cases S with
  | mk type const enum pattern required properties items =>
    simp only [Schema.satisfiedBy, Bool.and_eq_true, strictEqStr] at h1 h2 ⊢
    refine ⟨⟨⟨?_, h2.1.1.2⟩, h2.1.2⟩, ?_, ?_⟩
    · cases type with
      | none => rfl
      | some t =>
        have := h2.1.1.1
        simp only at this ⊢
        rw [hasType_obj t merged new]
        exact this
    · have hreq := h2.2.1
      rw [List.all_eq_true] at hreq ⊢
      intro k hk
      exact (definedProp_of_merge old new merged hl k).2 (hreq k hk)
    · exact fieldsSatisfy_of_pointwise properties old new merged
        (fun k => (definedProp_of_merge old new merged hl k).1) h1.2.2 h2.2.2

/-- C27: when the stored properties of a resource are accepted by
`validateFhirResource` for the type `T`, and the body of the update without
`id` and `meta` is accepted for the same `T`, then the shallow merge, which is
what `update` writes into the rows with the id of the resource, is accepted
for `T` as well. -/
theorem update_preserves_validity (T : String) (self : ApiResource) (body : Obj)
    (v1 v2 : ValidationResult)
    (hold : distinctKeys self.properties) (hbody : distinctKeys body)
    (hrt1 : lookupOwn self.properties "resourceType" = some (JsVal.str T))
    (hrt2 : lookupOwn (restWithout ["id", "meta"] body) "resourceType" = some (JsVal.str T))
    (h1 : validateFhirResource (JsVal.obj self.properties) = Except.ok v1)
    (hv1 : v1.valid = true)
    (h2 : validateFhirResource (JsVal.obj (restWithout ["id", "meta"] body)) = Except.ok v2)
    (hv2 : v2.valid = true) :
    (∃ v,
      validateFhirResource
          (JsVal.obj (self.mergedProperties (JsVal.obj (restWithout ["id", "meta"] body)))) =
        Except.ok v ∧
      v.valid = true) ∧
    lookupOwn (self.mergedProperties (JsVal.obj (restWithout ["id", "meta"] body)))
        "resourceType" = some (JsVal.str T) ∧
    (∀ (s : Store) (now : String) (row : ApiResource),
      row ∈ (self.update s now (JsVal.obj (restWithout ["id", "meta"] body))).store.api_resources →
      row.id = self.id →
      row.properties = self.mergedProperties (JsVal.obj (restWithout ["id", "meta"] body))) := by
  have hnew := distinctKeys_restWithout ["id", "meta"] body hbody
  have hl := lookupOwn_mergedProperties self (restWithout ["id", "meta"] body) hold hnew
  have hrt : lookupOwn (self.mergedProperties (JsVal.obj (restWithout ["id", "meta"] body)))
      "resourceType" = some (JsVal.str T) := by
    rw [hl, hrt2]
  refine ⟨?_, hrt, ?_⟩
  · rw [validateFhirResource_of_type _ T hrt1] at h1
    rw [validateFhirResource_of_type _ T hrt2] at h2
    rw [validateFhirResource_of_type _ T hrt]
    by_cases hT : T = ""
    · rw [if_pos hT] at h1
      simp only [Except.ok.injEq] at h1
      rw [← h1] at hv1
      cases hv1
    · rw [if_neg hT] at h1 h2 ⊢
      cases hread : readSchema fhirSchemas T with
      | undefined => exact ⟨_, rfl, rfl⟩
      | inheritedFunction =>
        rw [hread] at h1
        cases h1
      | objectPrototype => exact ⟨_, rfl, rfl⟩
      | own S =>
        rw [hread] at h1 h2
        simp only at h1 h2 ⊢
        have e1 := (ajvErrors_eq_nil_iff S "" _).mp (accepted_iff_no_errors S _ v1 h1 hv1)
        have e2 := (ajvErrors_eq_nil_iff S "" _).mp (accepted_iff_no_errors S _ v2 h2 hv2)
        have e3 := (ajvErrors_eq_nil_iff S "" _).mpr
          (satisfiedBy_merge S self.properties (restWithout ["id", "meta"] body) _ hl e1 e2)
        rw [e3]
        exact ⟨_, rfl, rfl⟩
  · intro s now row hrow hid
    simp only [ApiResource.update, List.mem_map] at hrow
    obtain ⟨row0, _, hrow0⟩ := hrow
    by_cases h0 : row0.id = self.id
    · rw [if_pos h0] at hrow0
      rw [← hrow0]
    · rw [if_neg h0] at hrow0
      rw [← hrow0] at hid
      exact absurd hid h0

/-- Witness of C27: the stored Patient `r-1` of `sampleStore` (gender
`female`) updated with the body `{ resourceType: 'Patient', gender: 'male' }`. -/
theorem update_preserves_validity_witness :
    validateFhirResource (JsVal.obj sampleResource.properties) =
      Except.ok { valid := true, errors := [], warnings := none } ∧
    validateFhirResource (JsVal.obj (restWithout ["id", "meta"] patientBody)) =
      Except.ok { valid := true, errors := [], warnings := none } ∧
    ∃ v,
      validateFhirResource
          (JsVal.obj
            (sampleResource.mergedProperties
              (JsVal.obj (restWithout ["id", "meta"] patientBody)))) =
        Except.ok v ∧
      v.valid = true :=
  ⟨rfl, rfl,
    (update_preserves_validity "Patient" sampleResource patientBody
      { valid := true, errors := [], warnings := none }
      { valid := true, errors := [], warnings := none } (by decide) (by decide) rfl rfl rfl rfl
      rfl rfl).1⟩

end BiohackerEhr
